import Mathlib

/-!
# SVON path finder

A shallow embedding of `src/SVON/Private/SVONPathFinder.cpp` (the A*-style search
`FindPath`, edge relaxation `ProcessLink`, the scoring functions `GetCost` and
`HeuristicScore`, and the reconstruction `BuildPath` / `AddPathPoint`), followed by
theorems about it.

Conventions of the embedding:

* `float` values are exact rationals; `FLT_MAX` is the largest finite single-precision
  value.  The search is modelled without rounding; the scaling of `GetCost` and
  `HeuristicScore` with `nodeSizeCompensation`, which rounding decides, is stated over
  `Rounded.GetCost` and `Rounded.HeuristicScore`, where every arithmetic operation is
  followed by a rounding (`roundFloat32` for single precision);
* the voxel address type `SVONLink` is a type parameter `Link` with decidable equality
  and the three members the path finder uses (`IsValid`, `GetLayerIndex`, the default
  constructor);
* `std::vector` is `List`; the associative containers `LinksMap` / `LinkScoreMap` are
  association lists with the `find` / `insert` behaviour of the standard containers
  (`insert` keeps an entry that is already there);
* the two loops that the C++ does not bound (the main loop of `FindPath`, the
  predecessor walk of `BuildPath`) take a fuel argument; inside `FindPath` the walk gets
  the number of predecessor entries as fuel, which is always enough
  (`iteration_reached`), and a result that was returned stays the same with more fuel
  (`mainLoop_fuel_mono`);
* `openList.erase(openList.cend())`, which line 53 executes when the scan selected
  nothing, is undefined behaviour; the run ends there with the result `eraseEnd`.
-/

namespace SVON

/-! ## Scalars and vectors -/

/-- The constant `FLT_MAX` of `<cfloat>`: `(2 ^ 24 - 1) * 2 ^ 104`. -/
def FLT_MAX : ℚ := 340282346638528859811704183484516925440

/-- Modelled from the spec: `FloatVector` is declared outside `src/`; it is a world-space
position with components `X`, `Y`, `Z` (the source reads these three members). -/
structure FloatVector where
  X : ℚ
  Y : ℚ
  Z : ℚ
deriving DecidableEq, Repr

/-- Component-wise `operator-` of `FloatVector`. -/
def FloatVector.sub (a b : FloatVector) : FloatVector :=
  ⟨a.X - b.X, a.Y - b.Y, a.Z - b.Z⟩

/-- Modelled from the spec: `FloatVector::Size()` is declared outside `src/`; the spec calls
it the Euclidean norm.  The square root is `Rat.sqrt`: the root of a square of a rational,
and otherwise the quotient of the integer roots of numerator and denominator, which is not
what the `float` root returns.  The worked examples take roots of squares only, and the
general theorems use of `Size` only that it is never negative and is 0 for the zero
vector. -/
def FloatVector.Size (v : FloatVector) : ℚ :=
  Rat.sqrt (v.X * v.X + v.Y * v.Y + v.Z * v.Z)

/-! ## Addresses, nodes, the volume, settings -/

/-- Modelled from the spec: the members of `SVONLink` (declared outside `src/`) that the
path finder calls: validity, the layer index, and the default-constructed address. -/
class SVONLinkLike (Link : Type) where
  /-- `SVONLink::IsValid()`. -/
  IsValid : Link → Bool
  /-- `SVONLink::GetLayerIndex()`. -/
  GetLayerIndex : Link → Nat
  /-- `SVONLink()`. -/
  defaultLink : Link

export SVONLinkLike (IsValid GetLayerIndex)

/-- Modelled from the spec: `SVONNode` (declared outside `src/`): a spatial code and the
address of the first child. -/
structure SVONNode (Link : Type) where
  code : Nat
  firstChild : Link

/-- Modelled from the spec: `SVONNode::HasChildren()` is the derived predicate
"the first-child link is valid". -/
def SVONNode.HasChildren {Link : Type} [SVONLinkLike Link] (node : SVONNode Link) : Bool :=
  IsValid node.firstChild

/-- The queries of `SVONVolume` that the path finder calls, as pure functions. -/
structure SVONVolume (Link : Type) where
  GetNode : Link → SVONNode Link
  GetNumLayers : Nat
  GetLinkPosition : Link → FloatVector
  GetNeighbours : Link → ℚ → List Link
  GetLeafNeighbours : Link → ℚ → List Link

/-- The enumeration `SVONPathCostType`. -/
inductive SVONPathCostType where
  | MANHATTAN
  | EUCLIDEAN
deriving DecidableEq, Repr

/-- The members of `settings` that the path finder reads. -/
structure SVONPathFinderSettings where
  pathCostType : SVONPathCostType
  useUnitCost : Bool
  unitCost : ℚ
  estimateWeight : ℚ
  nodeSizeCompensation : ℚ

/-- A waypoint: `SVONPathPoint`. -/
structure SVONPathPoint where
  position : FloatVector
  layer : Nat
  code : Nat
deriving DecidableEq, Repr

/-! ## Associative containers -/

/-- The method `find` of a map: the value stored under `k`, if any. -/
def mapFind {K V : Type} [DecidableEq K] : List (K × V) → K → Option V
  | [], _ => none
  | (k', v) :: rest, k => if k' = k then some v else mapFind rest k

/-- The method `insert(value_type(k, v))` of a map with unique keys: an existing entry
for `k` is kept, otherwise `(k, v)` is added. -/
def mapInsert {K V : Type} [DecidableEq K] (m : List (K × V)) (k : K) (v : V) : List (K × V) :=
  match mapFind m k with
  | some _ => m
  | none => (k, v) :: m

/-! ## The path finder -/

/-- The mutable members of `SVONPathFinder`. -/
structure SVONPathFinder (Link : Type) where
  openList : List Link
  closedList : List Link
  cameFrom : List (Link × Link)
  fScore : List (Link × ℚ)
  gScore : List (Link × ℚ)
  current : Link
  goal : Link
  start : Link
deriving DecidableEq

section Model

variable {Link : Type} [DecidableEq Link] [SVONLinkLike Link]

/-- The layer compensation factor shared by `HeuristicScore` and `GetCost`
(lines 105-107 and 130-132). -/
def compensation (volume : SVONVolume Link) (settings : SVONPathFinderSettings)
    (aTarget : Link) : ℚ :=
  let layerIndex : ℚ := (GetLayerIndex aTarget : ℚ)
  let layerCount : ℚ := (volume.GetNumLayers : ℚ)
  (1 - layerIndex / layerCount) * settings.nodeSizeCompensation

/-- The function `SVONPathFinder::HeuristicScore`. -/
def HeuristicScore (volume : SVONVolume Link) (settings : SVONPathFinderSettings)
    (aStart aTarget : Link) : ℚ :=
  let startPos := volume.GetLinkPosition aStart
  let endPos := volume.GetLinkPosition aTarget
  let score : ℚ :=
    match settings.pathCostType with
    | SVONPathCostType.MANHATTAN =>
        |endPos.X - startPos.X| + |endPos.Y - startPos.Y| + |endPos.Z - startPos.Z|
    | SVONPathCostType.EUCLIDEAN => (startPos.sub endPos).Size
  score * compensation volume settings aTarget

/-- The function `SVONPathFinder::GetCost`. -/
def GetCost (volume : SVONVolume Link) (settings : SVONPathFinderSettings)
    (aStart aTarget : Link) : ℚ :=
  let cost : ℚ :=
    if settings.useUnitCost then settings.unitCost
    else ((volume.GetLinkPosition aStart).sub (volume.GetLinkPosition aTarget)).Size
  cost * compensation volume settings aTarget

/-- The function `SVONPathFinder::ProcessLink`. -/
def ProcessLink (volume : SVONVolume Link) (settings : SVONPathFinderSettings)
    (pf : SVONPathFinder Link) (aNeighbour : Link) : SVONPathFinder Link :=
  if IsValid aNeighbour then
    if aNeighbour ∈ pf.closedList then pf
    else
      let pf1 : SVONPathFinder Link :=
        if aNeighbour ∈ pf.openList then pf
        else { pf with openList := pf.openList ++ [aNeighbour] }
      let r : ℚ × SVONPathFinder Link :=
        match mapFind pf1.gScore pf1.current with
        | some g => (g + GetCost volume settings pf1.current aNeighbour, pf1)
        | none => (FLT_MAX, { pf1 with gScore := mapInsert pf1.gScore pf1.current FLT_MAX })
      let t_gScore := r.1
      let pf2 := r.2
      let neighbourGScore : ℚ :=
        match mapFind pf2.gScore aNeighbour with
        | some g => g
        | none => FLT_MAX
      if t_gScore ≥ neighbourGScore then pf2
      else
        let newFScore :=
          t_gScore + settings.estimateWeight * HeuristicScore volume settings aNeighbour pf2.goal
        { pf2 with
          cameFrom := mapInsert pf2.cameFrom aNeighbour pf2.current
          gScore := mapInsert pf2.gScore aNeighbour t_gScore
          fScore := mapInsert pf2.fScore aNeighbour newFScore }
  else pf

/-- The function `SVONPathFinder::AddPathPoint`, returning the point it pushes. -/
def pathPointOf (volume : SVONVolume Link) (aPointLink : Link) : SVONPathPoint :=
  let node := volume.GetNode aPointLink
  { position := volume.GetLinkPosition aPointLink
    code := node.code
    layer :=
      if GetLayerIndex aPointLink = 0 then
        (if !node.HasChildren then 1 else 0)
      else GetLayerIndex aPointLink + 1 }

/-- The function `SVONPathFinder::AddPathPoint`: `points.push_back(pos)`. -/
def AddPathPoint (volume : SVONVolume Link) (points : List SVONPathPoint)
    (aPointLink : Link) : List SVONPathPoint :=
  points ++ [pathPointOf volume aPointLink]

/-- The predecessor walk of `BuildPath` (lines 185-196): the addresses handed to
`AddPathPoint`, in the order of the calls.  `none` when the fuel runs out. -/
def walkLinks (aCameFrom : List (Link × Link)) : Nat → Link → Option (List Link)
  | 0, _ => none
  | fuel + 1, aCurrent =>
    match mapFind aCameFrom aCurrent with
    | none => some [aCurrent]
    | some p =>
      if p ≠ aCurrent then (walkLinks aCameFrom fuel p).map (fun l => aCurrent :: l)
      else some [aCurrent]

/-- Assignment to `oPoints[i].position`. -/
def setPosition (points : List SVONPathPoint) (i : Nat) (p : FloatVector) : List SVONPathPoint :=
  points.modify (fun pt => { pt with position := p }) i

/-- Lines 198-218 of `BuildPath`: snapping the end points and reversing. -/
def finishPath (start : Link) (aStartPos aTargetPos : FloatVector)
    (oPoints : List SVONPathPoint) : List SVONPathPoint :=
  let nPoints := oPoints.length
  let pts :=
    if nPoints > 1 then
      setPosition (setPosition oPoints 0 aTargetPos) (nPoints - 1) aStartPos
    else
      setPosition oPoints 0 aTargetPos ++ [⟨aStartPos, GetLayerIndex start, 0⟩]
  pts.reverse

/-- The function `SVONPathFinder::BuildPath`.  `oPoints` is the caller's vector as it is
on entry; `start` is the member `start`. -/
def BuildPath (volume : SVONVolume Link) (start : Link) (aCameFrom : List (Link × Link))
    (aCurrent : Link) (aStartPos aTargetPos : FloatVector) (oPoints : List SVONPathPoint)
    (fuel : Nat) : Option (List SVONPathPoint) :=
  (walkLinks aCameFrom fuel aCurrent).map fun links =>
    finishPath start aStartPos aTargetPos (links.foldl (AddPathPoint volume) oPoints)

/-- The state of the selection scan of lines 32-51. -/
structure Selection (Link : Type) where
  lowestScore : ℚ
  current : Link
  /-- Position of `currentIt` in `openList`; `none` is `openList.cend()`. -/
  currentIt : Option Nat

/-- The selection scan (lines 35-51) over the part of `openList` from position `i` on. -/
def selectLowest (fScore : List (Link × ℚ)) : List Link → Nat → Selection Link → Selection Link
  | [], _, acc => acc
  | link :: rest, i, acc =>
    match mapFind fScore link with
    | some f =>
      if f < acc.lowestScore then selectLowest fScore rest (i + 1) ⟨f, link, some i⟩
      else selectLowest fScore rest (i + 1) acc
    | none => selectLowest fScore rest (i + 1) acc

/-- The neighbour query of lines 62-72. -/
def neighboursOf (volume : SVONVolume Link) (agentSize : ℚ) (current : Link) : List Link :=
  let currentNode := volume.GetNode current
  if GetLayerIndex current = 0 ∧ IsValid currentNode.firstChild = true then
    volume.GetLeafNeighbours current agentSize
  else
    volume.GetNeighbours current agentSize

/-- How a call of `FindPath` ends. -/
inductive FindPathResult (Link : Type) where
  /-- The call returned `result`; `oPoints` is the caller's vector at return and
  `numInterations` the local counter. -/
  | returned (result : Bool) (pf : SVONPathFinder Link) (oPoints : List SVONPathPoint)
      (numInterations : Nat)
  /-- The scan selected nothing and line 53 erases `openList.cend()`: undefined behaviour. -/
  | eraseEnd (pf : SVONPathFinder Link)
  /-- The fuel of the main loop or of the predecessor walk ran out. -/
  | outOfFuel (pf : SVONPathFinder Link)
deriving DecidableEq

/-- What one pass through the body of the main loop (lines 32-79) does. -/
inductive IterationResult (Link : Type) where
  /-- The body ran to line 79. -/
  | next (pf : SVONPathFinder Link)
  /-- Line 56 held; `points` is what `BuildPath` computed (`none`: walk out of fuel). -/
  | reached (pf : SVONPathFinder Link) (points : Option (List SVONPathPoint))
  /-- Line 53 with `currentIt == openList.cend()`. -/
  | stuck (pf : SVONPathFinder Link)
deriving DecidableEq

/-- Lines 32-54: selection, erase from the open list, push on the closed list. -/
def selectCurrent (pf : SVONPathFinder Link) : Option (SVONPathFinder Link) :=
  let sel := selectLowest pf.fScore pf.openList 0 ⟨FLT_MAX, pf.current, none⟩
  match sel.currentIt with
  | none => none
  | some i =>
    some { pf with
      current := sel.current
      openList := pf.openList.eraseIdx i
      closedList := pf.closedList ++ [sel.current] }

/-- One pass through the body of the main loop (lines 32-79). -/
def iteration (volume : SVONVolume Link) (settings : SVONPathFinderSettings)
    (aStartPos aTargetPos : FloatVector) (agentSize : ℚ) (oPoints : List SVONPathPoint)
    (pf : SVONPathFinder Link) : IterationResult Link :=
  match selectCurrent pf with
  | none =>
    .stuck { pf with
      current := (selectLowest pf.fScore pf.openList 0 ⟨FLT_MAX, pf.current, none⟩).current }
  | some pf1 =>
    if pf1.current = pf1.goal then
      .reached pf1 (BuildPath volume pf1.start pf1.cameFrom pf1.current aStartPos aTargetPos
        oPoints pf1.cameFrom.length)
    else
      .next ((neighboursOf volume agentSize pf1.current).foldl (ProcessLink volume settings) pf1)

/-- The main loop of `FindPath` (lines 30-82), with `fuel` bounding the number of passes. -/
def mainLoop (volume : SVONVolume Link) (settings : SVONPathFinderSettings)
    (aStartPos aTargetPos : FloatVector) (agentSize : ℚ) (oPoints : List SVONPathPoint) :
    Nat → SVONPathFinder Link → Nat → FindPathResult Link
  | fuel, pf, numInterations =>
    if pf.openList.length > 0 then
      match fuel with
      | 0 => .outOfFuel pf
      | fuel + 1 =>
        match iteration volume settings aStartPos aTargetPos agentSize oPoints pf with
        | .stuck pf1 => .eraseEnd pf1
        | .reached pf1 none => .outOfFuel pf1
        | .reached pf1 (some points) => .returned true pf1 points numInterations
        | .next pf1 =>
          mainLoop volume settings aStartPos aTargetPos agentSize oPoints fuel pf1
            (numInterations + 1)
    else .returned false pf oPoints numInterations

/-- Lines 14-26 of `FindPath`: the bookkeeping after the reset and the seeding with the
start address.  The earlier bookkeeping is not read. -/
def initSearch (volume : SVONVolume Link) (settings : SVONPathFinderSettings)
    (_prior : SVONPathFinder Link) (aStart aTarget : Link) : SVONPathFinder Link :=
  { openList := [aStart]
    closedList := []
    cameFrom := mapInsert [] aStart aStart
    gScore := mapInsert [] aStart 0
    fScore := mapInsert [] aStart (HeuristicScore volume settings aStart aTarget)
    current := SVONLinkLike.defaultLink
    goal := aTarget
    start := aStart }

/-- The function `SVONPathFinder::FindPath`.  `prior` is the bookkeeping left by earlier
calls, `oPoints` the caller's vector on entry. -/
def FindPath (volume : SVONVolume Link) (settings : SVONPathFinderSettings)
    (prior : SVONPathFinder Link) (aStart aTarget : Link)
    (aStartPos aTargetPos : FloatVector) (agentSize : ℚ) (oPoints : List SVONPathPoint)
    (fuel : Nat) : FindPathResult Link :=
  mainLoop volume settings aStartPos aTargetPos agentSize oPoints fuel
    (initSearch volume settings prior aStart aTarget) 0

/-! ## Vocabulary of the statements -/

/-- The address `b` is valid and is in the neighbour list that the volume returns for
`a` (through the query that `FindPath` uses for `a`). -/
def Edge (volume : SVONVolume Link) (agentSize : ℚ) (a b : Link) : Prop :=
  IsValid b = true ∧ b ∈ neighboursOf volume agentSize a

instance decidableEdge (volume : SVONVolume Link) (agentSize : ℚ) (a b : Link) :
    Decidable (Edge volume agentSize a b) :=
  inferInstanceAs (Decidable (_ ∧ _))

/-- There is a chain of valid neighbour addresses from `a` to `b` (possibly of length 0). -/
def Reachable (volume : SVONVolume Link) (agentSize : ℚ) (a b : Link) : Prop :=
  Relation.ReflTransGen (Edge volume agentSize) a b

/-- Sum of `GetCost` over the consecutive addresses of a chain. -/
def pathCost (volume : SVONVolume Link) (settings : SVONPathFinderSettings) : List Link → ℚ
  | a :: b :: rest => GetCost volume settings a b + pathCost volume settings (b :: rest)
  | _ => 0

/-- The list `chain` starts at `aStart`, ends at `n`, and follows the predecessor map:
every address after the first is a valid neighbour of the one before it, has that one as
its predecessor entry, and does not occur earlier in the list. -/
inductive PredPath (volume : SVONVolume Link) (agentSize : ℚ) (cameFrom : List (Link × Link))
    (aStart : Link) : List Link → Link → Prop where
  | base : PredPath volume agentSize cameFrom aStart [aStart] aStart
  | snoc {l : List Link} {p n : Link} :
      PredPath volume agentSize cameFrom aStart l p →
      mapFind cameFrom n = some p → Edge volume agentSize p n → n ∉ l →
      PredPath volume agentSize cameFrom aStart (l ++ [n]) n

/-- The facts about the bookkeeping that hold whenever line 30 is reached and while the
neighbours of `current` are processed. -/
structure Inv (volume : SVONVolume Link) (settings : SVONPathFinderSettings) (agentSize : ℚ)
    (aStart aTarget : Link) (pf : SVONPathFinder Link) : Prop where
  start_eq : pf.start = aStart
  goal_eq : pf.goal = aTarget
  open_nodup : pf.openList.Nodup
  closed_nodup : pf.closedList.Nodup
  disjoint : ∀ x ∈ pf.openList, x ∉ pf.closedList
  came_start : mapFind pf.cameFrom aStart = some aStart
  g_start : mapFind pf.gScore aStart = some 0
  dom_g : ∀ x, (mapFind pf.gScore x).isSome = (mapFind pf.cameFrom x).isSome
  dom_f : ∀ x, (mapFind pf.fScore x).isSome = (mapFind pf.cameFrom x).isSome
  dom_sub : ∀ x, (mapFind pf.cameFrom x).isSome = true → x ∈ pf.openList ∨ x ∈ pf.closedList
  closed_dom : ∀ x ∈ pf.closedList, (mapFind pf.cameFrom x).isSome = true
  chain : ∀ x p, mapFind pf.cameFrom x = some p →
    ∃ l, PredPath volume agentSize pf.cameFrom aStart l x ∧
      (∀ y ∈ l, y ≠ x → y ∈ pf.closedList) ∧
      mapFind pf.gScore x = some (pathCost volume settings l)
  reach : ∀ x, x ∈ pf.openList ∨ x ∈ pf.closedList → Reachable volume agentSize aStart x

/-- Every valid neighbour of a closed address is in the frontier or closed. -/
def Expanded (volume : SVONVolume Link) (agentSize : ℚ) (pf : SVONPathFinder Link) : Prop :=
  ∀ c ∈ pf.closedList, ∀ n, Edge volume agentSize c n →
    n ∈ pf.openList ∨ n ∈ pf.closedList

/-- The facts that hold each time line 30 is reached. -/
structure HeadInv (volume : SVONVolume Link) (settings : SVONPathFinderSettings)
    (agentSize : ℚ) (aStart aTarget : Link) (pf : SVONPathFinder Link) : Prop where
  inv : Inv volume settings agentSize aStart aTarget pf
  expanded : Expanded volume agentSize pf
  goal_open : aTarget ∉ pf.closedList

/-- No score that a search from `aStart` to `aTarget` can compute reaches `FLT_MAX`:
the heuristic of the start, and for every repetition-free neighbour chain from `aStart`
the summed cost and the f-score built from it. -/
def ScoresBelowMax (volume : SVONVolume Link) (settings : SVONPathFinderSettings)
    (agentSize : ℚ) (aStart aTarget : Link) : Prop :=
  HeuristicScore volume settings aStart aTarget < FLT_MAX ∧
  ∀ (chain : List Link) (n : Link),
    List.Chain' (Edge volume agentSize) chain → chain.head? = some aStart →
    chain.getLast? = some n → chain.Nodup →
    pathCost volume settings chain < FLT_MAX ∧
    pathCost volume settings chain +
      settings.estimateWeight * HeuristicScore volume settings n aTarget < FLT_MAX

/-- Every frontier address has an f-score entry below `FLT_MAX`. -/
def FrontierScored (pf : SVONPathFinder Link) : Prop :=
  ∀ x ∈ pf.openList, ∃ f, mapFind pf.fScore x = some f ∧ f < FLT_MAX

/-- The frontier after line 152: `n` is pushed unless it is there. -/
def pushOpen (pf : SVONPathFinder Link) (n : Link) : List Link :=
  if n ∈ pf.openList then pf.openList else pf.openList ++ [n]

/-- The bookkeeping carried by a result. -/
def FindPathResult.finder : FindPathResult Link → SVONPathFinder Link
  | .returned _ pf _ _ => pf
  | .eraseEnd pf => pf
  | .outOfFuel pf => pf

/-- What is known about a result of the main loop that was entered with `numInterations`
equal to the length of the closed list. -/
def Post (volume : SVONVolume Link) (settings : SVONPathFinderSettings) (agentSize : ℚ)
    (aStart aTarget : Link) (aStartPos aTargetPos : FloatVector) (oPoints : List SVONPathPoint) :
    FindPathResult Link → Prop
  | .returned true pf pts n =>
      Inv volume settings agentSize aStart aTarget pf ∧ pf.current = aTarget ∧
      aTarget ∈ pf.closedList ∧ pf.closedList.length = n + 1 ∧
      ∃ chain, PredPath volume agentSize pf.cameFrom aStart chain aTarget ∧
        walkLinks pf.cameFrom pf.cameFrom.length aTarget = some chain.reverse ∧
        pts = finishPath aStart aStartPos aTargetPos
          (chain.reverse.foldl (AddPathPoint volume) oPoints)
  | .returned false pf pts n =>
      HeadInv volume settings agentSize aStart aTarget pf ∧ pf.openList = [] ∧
      pts = oPoints ∧ pf.closedList.length = n
  | .eraseEnd pf =>
      HeadInv volume settings agentSize aStart aTarget pf ∧ pf.openList ≠ [] ∧
      ¬ FrontierScored pf
  | .outOfFuel pf =>
      HeadInv volume settings agentSize aStart aTarget pf ∧ pf.openList ≠ []

/-- The tentative g-score that `ProcessLink` computes (lines 154-163): the g-score of
`current` plus the edge cost, or `FLT_MAX` when `current` has no g-score. -/
def tentativeGScore (volume : SVONVolume Link) (settings : SVONPathFinderSettings)
    (pf : SVONPathFinder Link) (aNeighbour : Link) : ℚ :=
  match mapFind pf.gScore pf.current with
  | some g => g + GetCost volume settings pf.current aNeighbour
  | none => FLT_MAX

/-- The scores that one call of `ProcessLink` computes: nothing for an ignored neighbour,
otherwise the tentative g-score (lines 154-163) and, when line 175 is reached, the new
f-score. -/
def ProcessLinkScores (volume : SVONVolume Link) (settings : SVONPathFinderSettings)
    (pf : SVONPathFinder Link) (aNeighbour : Link) : List ℚ :=
  if IsValid aNeighbour then
    if aNeighbour ∈ pf.closedList then []
    else
      let t_gScore : ℚ := tentativeGScore volume settings pf aNeighbour
      let gScore' : List (Link × ℚ) :=
        match mapFind pf.gScore pf.current with
        | some _ => pf.gScore
        | none => mapInsert pf.gScore pf.current FLT_MAX
      let neighbourGScore : ℚ :=
        match mapFind gScore' aNeighbour with
        | some g => g
        | none => FLT_MAX
      if t_gScore ≥ neighbourGScore then [t_gScore]
      else
        [t_gScore,
          t_gScore + settings.estimateWeight * HeuristicScore volume settings aNeighbour pf.goal]
  else []

/-- The scores computed while the loop of lines 74-77 processes `neighbours`. -/
def passScores (volume : SVONVolume Link) (settings : SVONPathFinderSettings) :
    List Link → SVONPathFinder Link → List ℚ
  | [], _ => []
  | n :: rest, pf =>
    ProcessLinkScores volume settings pf n ++
      passScores volume settings rest (ProcessLink volume settings pf n)

/-- The scores computed by the first `fuel` passes of the main loop started in `pf`. -/
def runScores (volume : SVONVolume Link) (settings : SVONPathFinderSettings) (agentSize : ℚ) :
    Nat → SVONPathFinder Link → List ℚ
  | 0, _ => []
  | fuel + 1, pf =>
    if pf.openList.length > 0 then
      match selectCurrent pf with
      | none => []
      | some pf1 =>
        if pf1.current = pf1.goal then []
        else
          passScores volume settings (neighboursOf volume agentSize pf1.current) pf1 ++
            runScores volume settings agentSize fuel
              ((neighboursOf volume agentSize pf1.current).foldl
                (ProcessLink volume settings) pf1)
    else []

/-- Lines 14-21 of `FindPath`: every bookkeeping member is cleared or reassigned. -/
def resetBookkeeping (prior : SVONPathFinder Link) (aStart aTarget : Link) :
    SVONPathFinder Link :=
  { prior with
    openList := []
    closedList := []
    cameFrom := []
    fScore := []
    gScore := []
    current := SVONLinkLike.defaultLink
    goal := aTarget
    start := aStart }

/-- Lines 23-26 of `FindPath`: the start address is pushed and entered in the three maps. -/
def seedStart (volume : SVONVolume Link) (settings : SVONPathFinderSettings)
    (pf : SVONPathFinder Link) (aStart : Link) : SVONPathFinder Link :=
  { pf with
    openList := pf.openList ++ [aStart]
    cameFrom := mapInsert pf.cameFrom aStart aStart
    gScore := mapInsert pf.gScore aStart 0
    fScore := mapInsert pf.fScore aStart (HeuristicScore volume settings aStart pf.goal) }

/-- The settings with `nodeSizeCompensation` set to `c` and everything else kept. -/
def withCompensation (settings : SVONPathFinderSettings) (c : ℚ) : SVONPathFinderSettings :=
  { settings with nodeSizeCompensation := c }

/-! ## Single-precision rounding

`GetCost` and `HeuristicScore` once more, now with the rounding of `float` arithmetic:
every arithmetic operation of the source is the exact operation followed by a rounding
`fl`.  Values are finite: overflow to infinity and NaN are outside this model. -/

/-- The arithmetic of `float`: `fl` rounds the exact result of an operation to the value
the operation returns; `size` is `FloatVector::Size()`, which is declared outside `src/`. -/
structure FloatArith where
  fl : ℚ → ℚ
  size : FloatVector → ℚ

/-- What the statements use of the arithmetic: rounding is monotone and leaves 0 and 1 as
they are (round-to-nearest has these properties), and `Size()` is never negative. -/
structure FloatArith.Lawful (A : FloatArith) : Prop where
  fl_mono : ∀ x y, x ≤ y → A.fl x ≤ A.fl y
  fl_zero : A.fl 0 = 0
  fl_one : A.fl 1 = 1
  size_nonneg : ∀ v, 0 ≤ A.size v

/-- Component-wise `operator-` of `FloatVector`, each difference rounded. -/
def Rounded.sub (A : FloatArith) (a b : FloatVector) : FloatVector :=
  ⟨A.fl (a.X - b.X), A.fl (a.Y - b.Y), A.fl (a.Z - b.Z)⟩

/-- The layer compensation factor of lines 105-107 and 130-132, with rounding: the two
conversions to `float`, the division, the subtraction from `1.0f` and the product. -/
def Rounded.compensation (A : FloatArith) (volume : SVONVolume Link)
    (settings : SVONPathFinderSettings) (aTarget : Link) : ℚ :=
  let layerIndex : ℚ := A.fl (GetLayerIndex aTarget : ℚ)
  let layerCount : ℚ := A.fl (volume.GetNumLayers : ℚ)
  A.fl (A.fl (1 - A.fl (layerIndex / layerCount)) * settings.nodeSizeCompensation)

/-- The function `SVONPathFinder::HeuristicScore`, with rounding. -/
def Rounded.HeuristicScore (A : FloatArith) (volume : SVONVolume Link)
    (settings : SVONPathFinderSettings) (aStart aTarget : Link) : ℚ :=
  let startPos := volume.GetLinkPosition aStart
  let endPos := volume.GetLinkPosition aTarget
  let score : ℚ :=
    match settings.pathCostType with
    | SVONPathCostType.MANHATTAN =>
        A.fl (A.fl (|A.fl (endPos.X - startPos.X)| + |A.fl (endPos.Y - startPos.Y)|) +
          |A.fl (endPos.Z - startPos.Z)|)
    | SVONPathCostType.EUCLIDEAN => A.size (Rounded.sub A startPos endPos)
  A.fl (score * Rounded.compensation A volume settings aTarget)

/-- The function `SVONPathFinder::GetCost`, with rounding. -/
def Rounded.GetCost (A : FloatArith) (volume : SVONVolume Link)
    (settings : SVONPathFinderSettings) (aStart aTarget : Link) : ℚ :=
  let cost : ℚ :=
    if settings.useUnitCost then settings.unitCost
    else A.size (Rounded.sub A (volume.GetLinkPosition aStart) (volume.GetLinkPosition aTarget))
  A.fl (cost * Rounded.compensation A volume settings aTarget)

/-- Arithmetic without rounding: with it the rounded functions are the exact ones. -/
def exactArith : FloatArith :=
  { fl := fun x => x, size := FloatVector.Size }

/-- Addresses of the worked examples: a layer index and a node index within the layer.
Layer 15 marks the invalid address. -/
structure GridLink where
  layer : Nat
  node : Nat
deriving DecidableEq, Repr

instance gridLinkLike : SVONLinkLike GridLink where
  IsValid l := l.layer != 15
  GetLayerIndex l := l.layer
  defaultLink := ⟨15, 0⟩

/-- Settings of the worked examples: Euclidean heuristic, Euclidean edge cost, weight 1,
node size compensation 1. -/
def euclidSettings : SVONPathFinderSettings :=
  { pathCostType := .EUCLIDEAN, useUnitCost := false, unitCost := 1, estimateWeight := 1,
    nodeSizeCompensation := 1 }

/-- Bookkeeping of a finder that has not searched yet. -/
def freshFinder : SVONPathFinder GridLink :=
  { openList := [], closedList := [], cameFrom := [], fScore := [], gScore := [],
    current := ⟨15, 0⟩, goal := ⟨15, 0⟩, start := ⟨15, 0⟩ }

/-- A volume with five childless layer-0 voxels on the X axis, at 0, 5, -1, -2 and 10.
Voxel 0 has the neighbours 1 and 2, voxels 1 and 2 have the neighbour 3, voxel 3 has the
neighbour 4. -/
def lineVolume : SVONVolume GridLink where
  GetNode := fun l => ⟨l.node, ⟨15, 0⟩⟩
  GetNumLayers := 1
  GetLinkPosition := fun l =>
    match l.node with
    | 0 => ⟨0, 0, 0⟩
    | 1 => ⟨5, 0, 0⟩
    | 2 => ⟨-1, 0, 0⟩
    | 3 => ⟨-2, 0, 0⟩
    | _ => ⟨10, 0, 0⟩
  GetNeighbours := fun l _ =>
    match l.node with
    | 0 => [⟨0, 1⟩, ⟨0, 2⟩]
    | 1 => [⟨0, 3⟩]
    | 2 => [⟨0, 3⟩]
    | 3 => [⟨0, 4⟩]
    | _ => []
  GetLeafNeighbours := fun _ _ => []

/-- The addresses of the line volume that are reachable from voxel 0. -/
def lineReach : Finset GridLink :=
  {⟨0, 0⟩, ⟨0, 1⟩, ⟨0, 2⟩, ⟨0, 3⟩, ⟨0, 4⟩}

/-- Settings with the Manhattan heuristic and unit edge cost 1. -/
def manhattanSettings : SVONPathFinderSettings :=
  { pathCostType := .MANHATTAN, useUnitCost := true, unitCost := 1, estimateWeight := 1,
    nodeSizeCompensation := 1 }

/-- A volume with childless layer-0 voxels: voxel 0 sits at the origin, every other voxel
at `X = FLT_MAX`.  Voxel 0 has the single neighbour 1; no voxel has another neighbour. -/
def farVolume : SVONVolume GridLink where
  GetNode := fun l => ⟨l.node, ⟨15, 0⟩⟩
  GetNumLayers := 1
  GetLinkPosition := fun l =>
    match l.node with
    | 0 => ⟨0, 0, 0⟩
    | _ => ⟨FLT_MAX, 0, 0⟩
  GetNeighbours := fun l _ =>
    match l.node with
    | 0 => [⟨0, 1⟩]
    | _ => []
  GetLeafNeighbours := fun _ _ => []

/-- A volume with three childless layer-0 voxels: voxels 0 and 2 sit at the origin, voxel 1
at `X = FLT_MAX`.  Voxel 0 has the neighbour 1 and voxel 1 has the neighbour 2. -/
def detourVolume : SVONVolume GridLink where
  GetNode := fun l => ⟨l.node, ⟨15, 0⟩⟩
  GetNumLayers := 1
  GetLinkPosition := fun l =>
    match l.node with
    | 1 => ⟨FLT_MAX, 0, 0⟩
    | _ => ⟨0, 0, 0⟩
  GetNeighbours := fun l _ =>
    match l.node with
    | 0 => [⟨0, 1⟩]
    | 1 => [⟨0, 2⟩]
    | _ => []
  GetLeafNeighbours := fun _ _ => []

/-- The bookkeeping of the search from voxel 0 to voxel 2 of `detourVolume` after the first
pass of the main loop. -/
def detourFinder : SVONPathFinder GridLink :=
  { openList := [⟨0, 1⟩], closedList := [⟨0, 0⟩],
    cameFrom := [(⟨0, 1⟩, ⟨0, 0⟩), (⟨0, 0⟩, ⟨0, 0⟩)],
    fScore := [(⟨0, 1⟩, 1 + FLT_MAX), (⟨0, 0⟩, 0)],
    gScore := [(⟨0, 1⟩, 1), (⟨0, 0⟩, 0)],
    current := ⟨0, 0⟩, goal := ⟨0, 2⟩, start := ⟨0, 0⟩ }

/-- A volume with four childless layer-0 voxels in a diamond: voxel 0 at the origin,
voxel 1 at (3, 4, 0), voxel 2 at (3, -4, 0), voxel 3 at (6, 0, 0).  Voxel 0 has the
neighbours 1 and 2; voxels 1 and 2 have the neighbour 3.  All four edges have length 5. -/
def diamondVolume : SVONVolume GridLink where
  GetNode := fun l => ⟨l.node, ⟨15, 0⟩⟩
  GetNumLayers := 1
  GetLinkPosition := fun l =>
    match l.node with
    | 0 => ⟨0, 0, 0⟩
    | 1 => ⟨3, 4, 0⟩
    | 2 => ⟨3, -4, 0⟩
    | _ => ⟨6, 0, 0⟩
  GetNeighbours := fun l _ =>
    match l.node with
    | 0 => [⟨0, 1⟩, ⟨0, 2⟩]
    | 1 => [⟨0, 3⟩]
    | 2 => [⟨0, 3⟩]
    | _ => []
  GetLeafNeighbours := fun _ _ => []

/-- The bookkeeping of the search from voxel 0 to voxel 4 of the line volume when the third
pass has selected voxel 2 (lines 32-54) and is about to process its neighbour, voxel 3. -/
def lineFinder3 : SVONPathFinder GridLink :=
  { openList := [⟨0, 3⟩], closedList := [⟨0, 0⟩, ⟨0, 1⟩, ⟨0, 2⟩],
    cameFrom := [(⟨0, 3⟩, ⟨0, 1⟩), (⟨0, 2⟩, ⟨0, 0⟩), (⟨0, 1⟩, ⟨0, 0⟩), (⟨0, 0⟩, ⟨0, 0⟩)],
    fScore := [(⟨0, 3⟩, 24), (⟨0, 2⟩, 12), (⟨0, 1⟩, 10), (⟨0, 0⟩, 10)],
    gScore := [(⟨0, 3⟩, 12), (⟨0, 2⟩, 1), (⟨0, 1⟩, 5), (⟨0, 0⟩, 0)],
    current := ⟨0, 2⟩, goal := ⟨0, 4⟩, start := ⟨0, 0⟩ }

/-- The bookkeeping of the search from voxel 0 to voxel 3 of the diamond volume at line 30
after two passes: voxels 2 and 3 are in the frontier, both with f-score 10. -/
def diamondFinder2 : SVONPathFinder GridLink :=
  { openList := [⟨0, 2⟩, ⟨0, 3⟩], closedList := [⟨0, 0⟩, ⟨0, 1⟩],
    cameFrom := [(⟨0, 3⟩, ⟨0, 1⟩), (⟨0, 2⟩, ⟨0, 0⟩), (⟨0, 1⟩, ⟨0, 0⟩), (⟨0, 0⟩, ⟨0, 0⟩)],
    fScore := [(⟨0, 3⟩, 10), (⟨0, 2⟩, 10), (⟨0, 1⟩, 10), (⟨0, 0⟩, 6)],
    gScore := [(⟨0, 3⟩, 10), (⟨0, 2⟩, 5), (⟨0, 1⟩, 5), (⟨0, 0⟩, 0)],
    current := ⟨0, 1⟩, goal := ⟨0, 3⟩, start := ⟨0, 0⟩ }

/-- The bookkeeping of the diamond search when the third pass has selected voxel 2 and is
about to process its neighbour, voxel 3. -/
def diamondFinder3 : SVONPathFinder GridLink :=
  { openList := [⟨0, 3⟩], closedList := [⟨0, 0⟩, ⟨0, 1⟩, ⟨0, 2⟩],
    cameFrom := [(⟨0, 3⟩, ⟨0, 1⟩), (⟨0, 2⟩, ⟨0, 0⟩), (⟨0, 1⟩, ⟨0, 0⟩), (⟨0, 0⟩, ⟨0, 0⟩)],
    fScore := [(⟨0, 3⟩, 10), (⟨0, 2⟩, 10), (⟨0, 1⟩, 10), (⟨0, 0⟩, 6)],
    gScore := [(⟨0, 3⟩, 10), (⟨0, 2⟩, 5), (⟨0, 1⟩, 5), (⟨0, 0⟩, 0)],
    current := ⟨0, 2⟩, goal := ⟨0, 3⟩, start := ⟨0, 0⟩ }

/-- The bookkeeping of the search from voxel 0 to voxel 4 of the line volume at line 30
after two passes. -/
def lineFinder2 : SVONPathFinder GridLink :=
  { openList := [⟨0, 2⟩, ⟨0, 3⟩], closedList := [⟨0, 0⟩, ⟨0, 1⟩],
    cameFrom := [(⟨0, 3⟩, ⟨0, 1⟩), (⟨0, 2⟩, ⟨0, 0⟩), (⟨0, 1⟩, ⟨0, 0⟩), (⟨0, 0⟩, ⟨0, 0⟩)],
    fScore := [(⟨0, 3⟩, 24), (⟨0, 2⟩, 12), (⟨0, 1⟩, 10), (⟨0, 0⟩, 10)],
    gScore := [(⟨0, 3⟩, 12), (⟨0, 2⟩, 1), (⟨0, 1⟩, 5), (⟨0, 0⟩, 0)],
    current := ⟨0, 1⟩, goal := ⟨0, 4⟩, start := ⟨0, 0⟩ }

/-- A three-layer volume in which the layer-0 voxel 0 has children (a valid first child), so
that line 62 queries `GetLeafNeighbours` for it: that query returns the layer-1 voxel 1,
whose `GetNeighbours` list holds the childless layer-0 voxel 2.  The voxels sit on the X
axis at 0, 3 and 6.  The query that the source does not use for an address returns the
stray voxel 9, which has no neighbours. -/
def leafVolume : SVONVolume GridLink where
  GetNode := fun l =>
    match l.layer, l.node with
    | 0, 0 => ⟨40, ⟨0, 8⟩⟩
    | 1, 1 => ⟨11, ⟨15, 0⟩⟩
    | _, _ => ⟨l.node, ⟨15, 0⟩⟩
  GetNumLayers := 3
  GetLinkPosition := fun l =>
    match l.layer, l.node with
    | 0, 0 => ⟨0, 0, 0⟩
    | 1, 1 => ⟨3, 0, 0⟩
    | 0, 2 => ⟨6, 0, 0⟩
    | _, _ => ⟨50, 0, 0⟩
  GetNeighbours := fun l _ =>
    match l.layer, l.node with
    | 0, 0 => [⟨0, 9⟩]
    | 1, 1 => [⟨0, 2⟩]
    | _, _ => []
  GetLeafNeighbours := fun l _ =>
    match l.layer, l.node with
    | 0, 0 => [⟨1, 1⟩]
    | 0, 9 => []
    | _, _ => [⟨0, 9⟩]

end Model

/-! ## Basic facts about the containers -/

section Lemmas

set_option linter.unusedSectionVars false

variable {Link : Type} [DecidableEq Link] [SVONLinkLike Link]

omit [SVONLinkLike Link] in
lemma mapFind_cons_self {V : Type} (m : List (Link × V)) (k : Link) (v : V) :
    mapFind ((k, v) :: m) k = some v := by
  simp [mapFind]

omit [SVONLinkLike Link] in
lemma mapFind_cons_ne {V : Type} (m : List (Link × V)) {k x : Link} (v : V) (h : k ≠ x) :
    mapFind ((k, v) :: m) x = mapFind m x := by
  simp [mapFind, h]

omit [SVONLinkLike Link] in
lemma mapInsert_of_some {V : Type} {m : List (Link × V)} {k : Link} {w : V} (v : V)
    (h : mapFind m k = some w) : mapInsert m k v = m := by
  simp [mapInsert, h]

omit [SVONLinkLike Link] in
lemma mapInsert_of_none {V : Type} {m : List (Link × V)} {k : Link} (v : V)
    (h : mapFind m k = none) : mapInsert m k v = (k, v) :: m := by
  simp [mapInsert, h]

omit [SVONLinkLike Link] in
lemma mapFind_mem_keys {V : Type} {m : List (Link × V)} {k : Link} {v : V}
    (h : mapFind m k = some v) : k ∈ m.map Prod.fst := by
  induction m with
  | nil => simp [mapFind] at h
  | cons e rest ih =>
    obtain ⟨k', v'⟩ := e
    by_cases hk : k' = k
    · simp [hk]
    · rw [mapFind_cons_ne _ _ hk] at h
      simp [ih h]

/-! ## Edge relaxation -/

lemma ProcessLink_cases (volume : SVONVolume Link) (settings : SVONPathFinderSettings)
    (pf : SVONPathFinder Link) (n : Link) {gc : ℚ}
    (hg : mapFind pf.gScore pf.current = some gc)
    (hdg : ∀ x, (mapFind pf.gScore x).isSome = (mapFind pf.cameFrom x).isSome)
    (hdf : ∀ x, (mapFind pf.fScore x).isSome = (mapFind pf.cameFrom x).isSome) :
    (ProcessLink volume settings pf n = pf ∧ (IsValid n = false ∨ n ∈ pf.closedList)) ∨
    (IsValid n = true ∧ n ∉ pf.closedList ∧
      ProcessLink volume settings pf n = { pf with openList := pushOpen pf n } ∧
      ((mapFind pf.cameFrom n).isSome = true ∨
        FLT_MAX ≤ gc + GetCost volume settings pf.current n)) ∨
    (IsValid n = true ∧ n ∉ pf.closedList ∧ mapFind pf.cameFrom n = none ∧
      mapFind pf.gScore n = none ∧ mapFind pf.fScore n = none ∧
      gc + GetCost volume settings pf.current n < FLT_MAX ∧
      ProcessLink volume settings pf n =
        { pf with
          openList := pushOpen pf n
          cameFrom := (n, pf.current) :: pf.cameFrom
          gScore := (n, gc + GetCost volume settings pf.current n) :: pf.gScore
          fScore := (n, gc + GetCost volume settings pf.current n +
            settings.estimateWeight * HeuristicScore volume settings n pf.goal) :: pf.fScore }) := by
  by_cases hv : IsValid n = true
  swap
  · left
    simp only [Bool.not_eq_true] at hv
    simp [ProcessLink, hv]
  by_cases hc : n ∈ pf.closedList
  · left
    simp [ProcessLink, hv, hc]
  right
  have hcur : ∀ l : List Link,
      ({ pf with openList := l } : SVONPathFinder Link).current = pf.current := fun _ => rfl
  cases hgn : mapFind pf.gScore n with
  | some gn =>
    left
    have hcn : (mapFind pf.cameFrom n).isSome = true := by rw [← hdg, hgn]; rfl
    have hfn : (mapFind pf.fScore n).isSome = true := by rw [hdf, hcn]
    obtain ⟨cn, hcn'⟩ := Option.isSome_iff_exists.mp hcn
    obtain ⟨fn, hfn'⟩ := Option.isSome_iff_exists.mp hfn
    refine ⟨hv, hc, ?_, Or.inl hcn⟩
    by_cases ho : n ∈ pf.openList
    · simp [ProcessLink, hv, hc, ho, hg, hgn, pushOpen, mapInsert, hcn', hfn']
    · simp [ProcessLink, hv, hc, ho, hg, hgn, pushOpen, mapInsert, hcn', hfn']
  | none =>
    have hcn : mapFind pf.cameFrom n = none := by
      have := hdg n
      rw [hgn] at this
      cases h : mapFind pf.cameFrom n with
      | none => rfl
      | some _ => rw [h] at this; simp at this
    have hfn : mapFind pf.fScore n = none := by
      have := hdf n
      rw [hcn] at this
      cases h : mapFind pf.fScore n with
      | none => rfl
      | some _ => rw [h] at this; simp at this
    by_cases ht : FLT_MAX ≤ gc + GetCost volume settings pf.current n
    · left
      refine ⟨hv, hc, ?_, Or.inr ht⟩
      by_cases ho : n ∈ pf.openList
      · simp [ProcessLink, hv, hc, ho, hg, hgn, pushOpen, ht]
      · simp [ProcessLink, hv, hc, ho, hg, hgn, pushOpen, ht]
    · right
      refine ⟨hv, hc, hcn, rfl, hfn, lt_of_not_le ht, ?_⟩
      by_cases ho : n ∈ pf.openList
      · simp [ProcessLink, hv, hc, ho, hg, hgn, pushOpen, ht, mapInsert, hcn, hfn]
      · simp [ProcessLink, hv, hc, ho, hg, hgn, pushOpen, ht, mapInsert, hcn, hfn]

/-! ## Predecessor chains -/

lemma pathCost_snoc (volume : SVONVolume Link) (settings : SVONPathFinderSettings)
    (l : List Link) (p n : Link) (h : l.getLast? = some p) :
    pathCost volume settings (l ++ [n]) =
      pathCost volume settings l + GetCost volume settings p n := by
  induction l with
  | nil => simp at h
  | cons a rest ih =>
    cases rest with
    | nil =>
      simp at h
      subst h
      simp [pathCost]
    | cons b rest' =>
      have h' : (b :: rest').getLast? = some p := by
        simpa [List.getLast?_cons_cons] using h
      have := ih h'
      rw [List.cons_append, List.cons_append] at *
      rw [pathCost, this, pathCost]
      ring


variable {volume : SVONVolume Link} {agentSize : ℚ} {cameFrom : List (Link × Link)}
  {aStart : Link} {l : List Link} {n : Link}

lemma PredPath.mono {cameFrom' : List (Link × Link)}
    (hm : ∀ x p, mapFind cameFrom x = some p → mapFind cameFrom' x = some p)
    (h : PredPath volume agentSize cameFrom aStart l n) :
    PredPath volume agentSize cameFrom' aStart l n := by
  induction h with
  | base => exact PredPath.base
  | snoc _ hf he hn ih => exact PredPath.snoc ih (hm _ _ hf) he hn

lemma PredPath.getLast (h : PredPath volume agentSize cameFrom aStart l n) : l.getLast? = some n := by
  cases h <;> simp

lemma PredPath.head (h : PredPath volume agentSize cameFrom aStart l n) : l.head? = some aStart := by
  induction h with
  | base => rfl
  | @snoc l' p n' h' _ _ _ ih =>
    cases l' with
    | nil => simp at ih
    | cons a rest => simpa using ih

lemma PredPath.mem_last (h : PredPath volume agentSize cameFrom aStart l n) : n ∈ l := by
  cases h <;> simp

lemma PredPath.nodup (h : PredPath volume agentSize cameFrom aStart l n) : l.Nodup := by
  induction h with
  | base => simp
  | snoc _ _ _ hn ih =>
    rw [List.nodup_append]
    refine ⟨ih, List.nodup_singleton _, ?_⟩
    intro x hx hy
    simp at hy
    subst hy
    exact hn hx

lemma PredPath.isChain (h : PredPath volume agentSize cameFrom aStart l n) :
    List.Chain' (Edge volume agentSize) l := by
  induction h with
  | base => simp
  | @snoc l' p n' h' _ he _ ih =>
    refine List.Chain'.append ih (List.chain'_singleton _) ?_
    intro x hx y hy
    rw [h'.getLast] at hx
    simp at hx hy
    subst hx hy
    exact he

lemma PredPath.predChain (h : PredPath volume agentSize cameFrom aStart l n) :
    List.Chain' (fun a b => mapFind cameFrom b = some a) l := by
  induction h with
  | base => simp
  | @snoc l' p n' h' hf _ _ ih =>
    refine List.Chain'.append ih (List.chain'_singleton _) ?_
    intro x hx y hy
    rw [h'.getLast] at hx
    simp at hx hy
    subst hx hy
    exact hf

lemma PredPath.dom (hs : mapFind cameFrom aStart = some aStart)
    (h : PredPath volume agentSize cameFrom aStart l n) :
    ∀ x ∈ l, (mapFind cameFrom x).isSome = true := by
  induction h with
  | base => intro x hx; simp at hx; subst hx; simp [hs]
  | snoc _ hf _ _ ih =>
    intro x hx
    rcases List.mem_append.mp hx with hx | hx
    · exact ih x hx
    · simp at hx; subst hx; simp [hf]

lemma PredPath.walk (hs : mapFind cameFrom aStart = some aStart)
    (h : PredPath volume agentSize cameFrom aStart l n) :
    ∀ fuel, l.length ≤ fuel → walkLinks cameFrom fuel n = some l.reverse := by
  induction h with
  | base =>
    intro fuel hf
    cases fuel with
    | zero => simp at hf
    | succ k => simp [walkLinks, hs]
  | @snoc l' p n' h' hf he hn ih =>
    intro fuel hfuel
    cases fuel with
    | zero => simp at hfuel
    | succ k =>
      have hne : p ≠ n' := fun hpn => hn (hpn ▸ h'.mem_last)
      have hk : l'.length ≤ k := by simp at hfuel; omega
      simp [walkLinks, hf, hne, ih k hk]


/-! ## `ProcessLink` keeps the invariant -/

lemma ProcessLink_frame (volume : SVONVolume Link) (settings : SVONPathFinderSettings)
    (pf : SVONPathFinder Link) (n : Link) :
    (ProcessLink volume settings pf n).closedList = pf.closedList ∧
    (ProcessLink volume settings pf n).current = pf.current ∧
    (ProcessLink volume settings pf n).goal = pf.goal ∧
    (ProcessLink volume settings pf n).start = pf.start := by
  by_cases hv : IsValid n = true <;> by_cases hc : n ∈ pf.closedList <;>
    by_cases ho : n ∈ pf.openList <;> cases hg : mapFind pf.gScore pf.current <;>
    simp only [ProcessLink, hv, hc, ho, hg, if_true, if_false] <;>
    (try split_ifs) <;> simp

lemma mem_pushOpen (pf : SVONPathFinder Link) (n x : Link) :
    x ∈ pushOpen pf n ↔ x ∈ pf.openList ∨ x = n := by
  unfold pushOpen
  split_ifs with h
  · constructor
    · exact Or.inl
    · rintro (h' | rfl)
      · exact h'
      · exact h
  · simp

lemma nodup_pushOpen (pf : SVONPathFinder Link) (n : Link) (h : pf.openList.Nodup) :
    (pushOpen pf n).Nodup := by
  unfold pushOpen
  split_ifs with hm
  · exact h
  · rw [List.nodup_append]
    refine ⟨h, List.nodup_singleton _, ?_⟩
    intro x hx hy
    simp at hy
    subst hy
    exact hm hx

lemma Inv.current_g {volume : SVONVolume Link} {settings : SVONPathFinderSettings}
    {agentSize : ℚ} {aStart aTarget : Link} {pf : SVONPathFinder Link}
    (h : Inv volume settings agentSize aStart aTarget pf) {c : Link}
    (hc : c ∈ pf.closedList) : ∃ gc, mapFind pf.gScore c = some gc := by
  have := h.closed_dom c hc
  rw [← h.dom_g] at this
  exact Option.isSome_iff_exists.mp this

lemma ProcessLink_inv {volume : SVONVolume Link} {settings : SVONPathFinderSettings}
    {agentSize : ℚ} {aStart aTarget : Link} {pf : SVONPathFinder Link} {n : Link}
    (h : Inv volume settings agentSize aStart aTarget pf)
    (hcur : pf.current ∈ pf.closedList)
    (hn : n ∈ neighboursOf volume agentSize pf.current) :
    Inv volume settings agentSize aStart aTarget (ProcessLink volume settings pf n) := by
  obtain ⟨gc, hg⟩ := h.current_g hcur
  have hreach : IsValid n = true → Reachable volume agentSize aStart n := fun hv =>
    Relation.ReflTransGen.tail (h.reach _ (Or.inr hcur)) ⟨hv, hn⟩
  rcases ProcessLink_cases volume settings pf n hg h.dom_g h.dom_f with
    ⟨he, _⟩ | ⟨hv, hc, he, _⟩ | ⟨hv, hc, hcn, hgn, hfn, hlt, he⟩
  · rw [he]; exact h
  · rw [he]
    refine { h with open_nodup := ?_, disjoint := ?_, dom_sub := ?_, reach := ?_ }
    · exact nodup_pushOpen pf n h.open_nodup
    · intro x hx
      rcases (mem_pushOpen pf n x).mp hx with hx | rfl
      · exact h.disjoint x hx
      · exact hc
    · intro x hx
      rcases h.dom_sub x hx with hx | hx
      · exact Or.inl ((mem_pushOpen pf n x).mpr (Or.inl hx))
      · exact Or.inr hx
    · intro x hx
      rcases hx with hx | hx
      · rcases (mem_pushOpen pf n x).mp hx with hx | rfl
        · exact h.reach x (Or.inl hx)
        · exact hreach hv
      · exact h.reach x (Or.inr hx)
  · rw [he]
    have hns : n ≠ aStart := by
      intro hns
      rw [hns, h.came_start] at hcn
      simp at hcn
    have hmono : ∀ x p, mapFind pf.cameFrom x = some p →
        mapFind ((n, pf.current) :: pf.cameFrom) x = some p := by
      intro x p hx
      have hnx : n ≠ x := by
        intro hnx
        rw [hnx, hx] at hcn
        simp at hcn
      rw [mapFind_cons_ne _ _ hnx]
      exact hx
    obtain ⟨pc, hpc⟩ := Option.isSome_iff_exists.mp (h.closed_dom _ hcur)
    obtain ⟨lc, hlc, hlc_closed, hlc_g⟩ := h.chain _ _ hpc
    have hlc_sub : ∀ y ∈ lc, y ∈ pf.closedList := by
      intro y hy
      by_cases hyc : y = pf.current
      · rw [hyc]; exact hcur
      · exact hlc_closed y hy hyc
    have hgc : gc = pathCost volume settings lc := by
      rw [hg] at hlc_g
      exact Option.some.inj hlc_g
    constructor
    · exact h.start_eq
    · exact h.goal_eq
    · exact nodup_pushOpen pf n h.open_nodup
    · exact h.closed_nodup
    · intro x hx
      rcases (mem_pushOpen pf n x).mp hx with hx | rfl
      · exact h.disjoint x hx
      · exact hc
    · exact hmono _ _ h.came_start
    · show mapFind ((n, _) :: pf.gScore) aStart = some 0
      rw [mapFind_cons_ne _ _ hns]
      exact h.g_start
    · intro x
      show (mapFind ((n, _) :: pf.gScore) x).isSome = (mapFind ((n, _) :: pf.cameFrom) x).isSome
      by_cases hnx : n = x
      · subst hnx
        simp [mapFind_cons_self]
      · rw [mapFind_cons_ne _ _ hnx, mapFind_cons_ne _ _ hnx]
        exact h.dom_g x
    · intro x
      show (mapFind ((n, _) :: pf.fScore) x).isSome = (mapFind ((n, _) :: pf.cameFrom) x).isSome
      by_cases hnx : n = x
      · subst hnx
        simp [mapFind_cons_self]
      · rw [mapFind_cons_ne _ _ hnx, mapFind_cons_ne _ _ hnx]
        exact h.dom_f x
    · intro x hx
      change (mapFind ((n, _) :: pf.cameFrom) x).isSome = true at hx
      show x ∈ pushOpen pf n ∨ x ∈ pf.closedList
      by_cases hnx : n = x
      · subst hnx
        exact Or.inl ((mem_pushOpen pf n n).mpr (Or.inr rfl))
      · rw [mapFind_cons_ne _ _ hnx] at hx
        rcases h.dom_sub x hx with hx | hx
        · exact Or.inl ((mem_pushOpen pf n x).mpr (Or.inl hx))
        · exact Or.inr hx
    · intro x hx
      obtain ⟨p, hp⟩ := Option.isSome_iff_exists.mp (h.closed_dom x hx)
      show (mapFind ((n, _) :: pf.cameFrom) x).isSome = true
      rw [hmono x p hp]
      rfl
    · intro x p hx
      change mapFind ((n, pf.current) :: pf.cameFrom) x = some p at hx
      show ∃ l, PredPath volume agentSize ((n, pf.current) :: pf.cameFrom) aStart l x ∧
        (∀ y ∈ l, y ≠ x → y ∈ pf.closedList) ∧
        mapFind ((n, gc + GetCost volume settings pf.current n) :: pf.gScore) x =
          some (pathCost volume settings l)
      by_cases hnx : n = x
      · subst hnx
        refine ⟨lc ++ [n], ?_, ?_, ?_⟩
        · refine PredPath.snoc (hlc.mono hmono) (mapFind_cons_self _ _ _) ⟨hv, hn⟩ ?_
          intro hmem
          exact hc (hlc_sub n hmem)
        · intro y hy hyn
          rcases List.mem_append.mp hy with hy | hy
          · exact hlc_sub y hy
          · simp at hy
            exact absurd hy hyn
        · rw [mapFind_cons_self, pathCost_snoc volume settings lc pf.current n hlc.getLast, hgc]
      · rw [mapFind_cons_ne _ _ hnx] at hx
        obtain ⟨l, hl, hl_closed, hl_g⟩ := h.chain x p hx
        refine ⟨l, hl.mono hmono, hl_closed, ?_⟩
        rw [mapFind_cons_ne _ _ hnx]
        exact hl_g
    · intro x hx
      rcases hx with hx | hx
      · rcases (mem_pushOpen pf n x).mp hx with hx | rfl
        · exact h.reach x (Or.inl hx)
        · exact hreach hv
      · exact h.reach x (Or.inr hx)

lemma ProcessLink_openList (volume : SVONVolume Link) (settings : SVONPathFinderSettings)
    (pf : SVONPathFinder Link) (n : Link) :
    (ProcessLink volume settings pf n).openList =
      if IsValid n = true ∧ n ∉ pf.closedList then pushOpen pf n else pf.openList := by
  by_cases hv : IsValid n = true
  swap
  · simp [ProcessLink, hv]
  by_cases hc : n ∈ pf.closedList
  · simp [ProcessLink, hv, hc]
  rw [if_pos ⟨hv, hc⟩]
  by_cases ho : n ∈ pf.openList <;> cases hg : mapFind pf.gScore pf.current <;>
    simp only [ProcessLink, hv, hc, ho, hg, if_true, if_false] <;>
    split_ifs <;> simp [pushOpen, ho]

lemma foldl_ProcessLink_inv {volume : SVONVolume Link} {settings : SVONPathFinderSettings}
    {agentSize : ℚ} {aStart aTarget : Link} (ns : List Link) :
    ∀ pf : SVONPathFinder Link, Inv volume settings agentSize aStart aTarget pf →
      pf.current ∈ pf.closedList →
      (∀ n ∈ ns, n ∈ neighboursOf volume agentSize pf.current) →
      Inv volume settings agentSize aStart aTarget (ns.foldl (ProcessLink volume settings) pf) ∧
      (ns.foldl (ProcessLink volume settings) pf).closedList = pf.closedList ∧
      (ns.foldl (ProcessLink volume settings) pf).current = pf.current ∧
      (∀ x ∈ pf.openList, x ∈ (ns.foldl (ProcessLink volume settings) pf).openList) ∧
      (∀ n ∈ ns, IsValid n = true →
        n ∈ (ns.foldl (ProcessLink volume settings) pf).openList ∨ n ∈ pf.closedList) := by
  induction ns with
  | nil =>
    intro pf h _ _
    simp [h]
  | cons n rest ih =>
    intro pf h hcur hns
    obtain ⟨hcl, hcu, _, _⟩ := ProcessLink_frame volume settings pf n
    have h1 := ProcessLink_inv h hcur (hns n (List.mem_cons_self _ _))
    have hcur1 : (ProcessLink volume settings pf n).current ∈
        (ProcessLink volume settings pf n).closedList := by rw [hcl, hcu]; exact hcur
    have hns1 : ∀ m ∈ rest, m ∈ neighboursOf volume agentSize
        (ProcessLink volume settings pf n).current := by
      intro m hm
      rw [hcu]
      exact hns m (List.mem_cons_of_mem _ hm)
    obtain ⟨i1, i2, i3, i4, i5⟩ := ih _ h1 hcur1 hns1
    have hopen : ∀ x ∈ pf.openList, x ∈ (ProcessLink volume settings pf n).openList := by
      intro x hx
      rw [ProcessLink_openList]
      split_ifs
      · exact (mem_pushOpen pf n x).mpr (Or.inl hx)
      · exact hx
    simp only [List.foldl_cons]
    refine ⟨i1, by rw [i2, hcl], by rw [i3, hcu], fun x hx => i4 x (hopen x hx), ?_⟩
    intro m hm hv
    rcases List.mem_cons.mp hm with rfl | hm
    · by_cases hc : m ∈ pf.closedList
      · exact Or.inr hc
      · left
        apply i4
        rw [ProcessLink_openList, if_pos ⟨hv, hc⟩]
        exact (mem_pushOpen pf m m).mpr (Or.inr rfl)
    · rcases i5 m hm hv with h' | h'
      · exact Or.inl h'
      · right
        rw [hcl] at h'
        exact h'

/-! ## The selection scan -/

lemma selectLowest_spec (fScore : List (Link × ℚ)) :
    ∀ (l : List Link) (i : Nat) (acc : Selection Link),
      (selectLowest fScore l i acc = acc ∨
        ∃ j, j < l.length ∧ (selectLowest fScore l i acc).currentIt = some (i + j) ∧
          l[j]? = some (selectLowest fScore l i acc).current ∧
          mapFind fScore (selectLowest fScore l i acc).current =
            some (selectLowest fScore l i acc).lowestScore ∧
          (selectLowest fScore l i acc).lowestScore < acc.lowestScore) ∧
      (∀ x ∈ l, ∀ f, mapFind fScore x = some f → (selectLowest fScore l i acc).lowestScore ≤ f) ∧
      (selectLowest fScore l i acc).lowestScore ≤ acc.lowestScore := by
  intro l
  induction l with
  | nil =>
    intro i acc
    simp [selectLowest]
  | cons link rest ih =>
    intro i acc
    cases hf : mapFind fScore link with
    | none =>
      have hs : selectLowest fScore (link :: rest) i acc = selectLowest fScore rest (i + 1) acc := by
        simp [selectLowest, hf]
      rw [hs]
      obtain ⟨h1, h2, h3⟩ := ih (i + 1) acc
      refine ⟨?_, ?_, h3⟩
      · rcases h1 with h1 | ⟨j, hj, hit, hget, hfind, hlt⟩
        · exact Or.inl h1
        · right
          refine ⟨j + 1, by simp; omega, ?_, ?_, hfind, hlt⟩
          · rw [hit]; congr 1; omega
          · simpa using hget
      · intro x hx f hxf
        rcases List.mem_cons.mp hx with rfl | hx
        · rw [hf] at hxf; simp at hxf
        · exact h2 x hx f hxf
    | some f =>
      by_cases hlt : f < acc.lowestScore
      · have hs : selectLowest fScore (link :: rest) i acc =
            selectLowest fScore rest (i + 1) ⟨f, link, some i⟩ := by
          simp [selectLowest, hf, hlt]
        rw [hs]
        obtain ⟨h1, h2, h3⟩ := ih (i + 1) ⟨f, link, some i⟩
        refine ⟨Or.inr ?_, ?_, le_trans h3 (le_of_lt hlt)⟩
        · rcases h1 with h1 | ⟨j, hj, hit, hget, hfind, hlt'⟩
          · rw [h1]
            exact ⟨0, by simp, rfl, by simp, hf, hlt⟩
          · refine ⟨j + 1, by simp; omega, ?_, ?_, hfind, lt_trans hlt' hlt⟩
            · rw [hit]; congr 1; omega
            · simpa using hget
        · intro x hx f' hxf
          rcases List.mem_cons.mp hx with rfl | hx
          · rw [hf] at hxf
            cases hxf
            exact h3
          · exact h2 x hx f' hxf
      · have hs : selectLowest fScore (link :: rest) i acc =
            selectLowest fScore rest (i + 1) acc := by
          simp [selectLowest, hf, hlt]
        rw [hs]
        obtain ⟨h1, h2, h3⟩ := ih (i + 1) acc
        refine ⟨?_, ?_, h3⟩
        · rcases h1 with h1 | ⟨j, hj, hit, hget, hfind, hlt'⟩
          · exact Or.inl h1
          · right
            refine ⟨j + 1, by simp; omega, ?_, ?_, hfind, hlt'⟩
            · rw [hit]; congr 1; omega
            · simpa using hget
        · intro x hx f' hxf
          rcases List.mem_cons.mp hx with rfl | hx
          · rw [hf] at hxf
            cases hxf
            exact le_trans h3 (not_lt.mp hlt)
          · exact h2 x hx f' hxf

lemma mem_eraseIdx_of_nodup {l : List Link} {i : Nat} {c : Link} (hl : l.Nodup)
    (hi : l[i]? = some c) (x : Link) : x ∈ l.eraseIdx i ↔ x ∈ l ∧ x ≠ c := by
  rw [List.mem_eraseIdx_iff_getElem?]
  have hlt : i < l.length := by
    by_contra hge
    rw [List.getElem?_eq_none (not_lt.mp hge)] at hi
    simp at hi
  constructor
  · rintro ⟨j, hj, hx⟩
    refine ⟨List.mem_iff_getElem?.mpr ⟨j, hx⟩, ?_⟩
    rintro rfl
    exact hj (List.getElem?_inj hlt hl (hi.trans hx.symm)).symm
  · rintro ⟨hx, hne⟩
    obtain ⟨j, hj⟩ := List.mem_iff_getElem?.mp hx
    refine ⟨j, ?_, hj⟩
    rintro rfl
    rw [hi] at hj
    exact hne (Option.some.inj hj).symm

lemma selectCurrent_spec {pf pf1 : SVONPathFinder Link} (h : selectCurrent pf = some pf1) :
    ∃ (i : Nat) (c : Link) (f : ℚ), pf.openList[i]? = some c ∧ mapFind pf.fScore c = some f ∧
      f < FLT_MAX ∧ (∀ x ∈ pf.openList, ∀ f', mapFind pf.fScore x = some f' → f ≤ f') ∧
      pf1 = { pf with
        current := c
        openList := pf.openList.eraseIdx i
        closedList := pf.closedList ++ [c] } := by
  unfold selectCurrent at h
  obtain ⟨h1, h2, _⟩ := selectLowest_spec pf.fScore pf.openList 0 ⟨FLT_MAX, pf.current, none⟩
  generalize selectLowest pf.fScore pf.openList 0 ⟨FLT_MAX, pf.current, none⟩ = sel at h h1 h2
  cases hit : sel.currentIt with
  | none => simp [hit] at h
  | some i =>
    simp only [hit] at h
    rcases h1 with h1 | ⟨j, _, hj, hget, hfind, hlt⟩
    · rw [h1] at hit
      simp at hit
    · rw [hit] at hj
      simp at hj
      subst hj
      exact ⟨i, sel.current, sel.lowestScore, hget, hfind, hlt, h2, (Option.some.inj h).symm⟩

lemma selectCurrent_isSome {pf : SVONPathFinder Link} {x : Link} {f : ℚ}
    (hx : x ∈ pf.openList) (hf : mapFind pf.fScore x = some f) (hlt : f < FLT_MAX) :
    ∃ pf1, selectCurrent pf = some pf1 := by
  unfold selectCurrent
  obtain ⟨h1, h2, _⟩ := selectLowest_spec pf.fScore pf.openList 0 ⟨FLT_MAX, pf.current, none⟩
  generalize selectLowest pf.fScore pf.openList 0 ⟨FLT_MAX, pf.current, none⟩ = sel at h1 h2
  rcases h1 with h1 | ⟨j, _, hj, _⟩
  · have := h2 x hx f hf
    rw [h1] at this
    exact absurd (lt_of_le_of_lt this hlt) (lt_irrefl _)
  · simp only [hj]
    exact ⟨_, rfl⟩

lemma selectCurrent_inv {volume : SVONVolume Link} {settings : SVONPathFinderSettings}
    {agentSize : ℚ} {aStart aTarget : Link} {pf pf1 : SVONPathFinder Link}
    (h : Inv volume settings agentSize aStart aTarget pf) (hs : selectCurrent pf = some pf1) :
    Inv volume settings agentSize aStart aTarget pf1 ∧
    pf1.current ∈ pf.openList ∧
    pf1.closedList = pf.closedList ++ [pf1.current] ∧
    (∀ x, x ∈ pf1.openList ↔ x ∈ pf.openList ∧ x ≠ pf1.current) ∧
    pf1.cameFrom = pf.cameFrom ∧ pf1.gScore = pf.gScore ∧ pf1.fScore = pf.fScore := by
  obtain ⟨i, c, f, hget, hf, _, _, rfl⟩ := selectCurrent_spec hs
  have hc_open : c ∈ pf.openList := List.mem_iff_getElem?.mpr ⟨i, hget⟩
  have hmem := mem_eraseIdx_of_nodup h.open_nodup hget
  have hc_closed : c ∉ pf.closedList := h.disjoint c hc_open
  refine ⟨?_, hc_open, rfl, hmem, rfl, rfl, rfl⟩
  constructor
  · exact h.start_eq
  · exact h.goal_eq
  · exact h.open_nodup.eraseIdx i
  · show (pf.closedList ++ [c]).Nodup
    rw [List.nodup_append]
    refine ⟨h.closed_nodup, List.nodup_singleton _, ?_⟩
    intro x hx hy
    simp at hy
    subst hy
    exact hc_closed hx
  · intro x hx
    obtain ⟨hxo, hxc⟩ := (hmem x).mp hx
    show x ∉ pf.closedList ++ [c]
    simp only [List.mem_append, List.mem_singleton, not_or]
    exact ⟨h.disjoint x hxo, hxc⟩
  · exact h.came_start
  · exact h.g_start
  · exact h.dom_g
  · exact h.dom_f
  · intro x hx
    show x ∈ pf.openList.eraseIdx i ∨ x ∈ pf.closedList ++ [c]
    by_cases hxc : x = c
    · right; simp [hxc]
    · rcases h.dom_sub x hx with hx | hx
      · exact Or.inl ((hmem x).mpr ⟨hx, hxc⟩)
      · right; simp [hx]
  · intro x hx
    change x ∈ pf.closedList ++ [c] at hx
    rcases List.mem_append.mp hx with hx | hx
    · exact h.closed_dom x hx
    · simp at hx
      subst hx
      show (mapFind pf.cameFrom x).isSome = true
      rw [← h.dom_f, hf]
      rfl
  · intro x p hx
    obtain ⟨l, hl, hl_closed, hl_g⟩ := h.chain x p hx
    refine ⟨l, hl, ?_, hl_g⟩
    intro y hy hyx
    show y ∈ pf.closedList ++ [c]
    simp [hl_closed y hy hyx]
  · intro x hx
    apply h.reach
    rcases hx with hx | hx
    · exact Or.inl ((hmem x).mp hx).1
    · change x ∈ pf.closedList ++ [c] at hx
      rcases List.mem_append.mp hx with hx | hx
      · exact Or.inr hx
      · simp at hx
        subst hx
        exact Or.inl hc_open

/-! ## One pass of the main loop -/

lemma chain_length_le {volume : SVONVolume Link} {agentSize : ℚ}
    {cameFrom : List (Link × Link)} {aStart n : Link} {l : List Link}
    (hs : mapFind cameFrom aStart = some aStart)
    (h : PredPath volume agentSize cameFrom aStart l n) : l.length ≤ cameFrom.length := by
  have hsub : l ⊆ cameFrom.map Prod.fst := by
    intro x hx
    obtain ⟨p, hp⟩ := Option.isSome_iff_exists.mp (h.dom hs x hx)
    exact mapFind_mem_keys hp
  have := (h.nodup.subperm hsub).length_le
  simpa using this

lemma iteration_stuck {volume : SVONVolume Link} {settings : SVONPathFinderSettings}
    {aStartPos aTargetPos : FloatVector} {agentSize : ℚ} {oPoints : List SVONPathPoint}
    {pf pf1 : SVONPathFinder Link}
    (h : iteration volume settings aStartPos aTargetPos agentSize oPoints pf = .stuck pf1) :
    pf1 = pf ∧ selectCurrent pf = none := by
  unfold iteration at h
  cases hs : selectCurrent pf with
  | some pf2 =>
    simp only [hs] at h
    split_ifs at h
  | none =>
    simp only [hs] at h
    refine ⟨?_, rfl⟩
    injection h with h
    rw [← h]
    obtain ⟨h1, _, _⟩ :=
      selectLowest_spec pf.fScore pf.openList 0 ⟨FLT_MAX, pf.current, none⟩
    rcases h1 with h1 | ⟨j, _, hj, _⟩
    · rw [h1]
    · unfold selectCurrent at hs
      simp [hj] at hs

lemma iteration_next {volume : SVONVolume Link} {settings : SVONPathFinderSettings}
    {aStart aTarget : Link} {aStartPos aTargetPos : FloatVector} {agentSize : ℚ}
    {oPoints : List SVONPathPoint} {pf pf' : SVONPathFinder Link}
    (hh : HeadInv volume settings agentSize aStart aTarget pf)
    (h : iteration volume settings aStartPos aTargetPos agentSize oPoints pf = .next pf') :
    HeadInv volume settings agentSize aStart aTarget pf' ∧
    pf'.closedList.length = pf.closedList.length + 1 ∧
    ∃ pf1, selectCurrent pf = some pf1 ∧ pf1.current ≠ aTarget ∧
      pf' = (neighboursOf volume agentSize pf1.current).foldl (ProcessLink volume settings) pf1 := by
  unfold iteration at h
  cases hs : selectCurrent pf with
  | none => simp [hs] at h
  | some pf1 =>
    simp only [hs] at h
    obtain ⟨hinv1, hcopen, hclosed1, hopen1, _, _, _⟩ := selectCurrent_inv hh.inv hs
    have hcur1 : pf1.current ∈ pf1.closedList := by rw [hclosed1]; simp
    by_cases hgoal : pf1.current = pf1.goal
    · simp [hgoal] at h
    · rw [if_neg hgoal] at h
      injection h with h
      obtain ⟨i1, i2, i3, i4, i5⟩ := foldl_ProcessLink_inv
        (neighboursOf volume agentSize pf1.current) pf1 hinv1 hcur1 (fun n hn => hn)
      rw [h] at i1 i2 i3 i4 i5
      have hne : pf1.current ≠ aTarget := by rw [← hinv1.goal_eq]; exact hgoal
      refine ⟨⟨i1, ?_, ?_⟩, ?_, pf1, rfl, hne, h.symm⟩
      · intro c hc n hn
        rw [i2, hclosed1] at hc ⊢
        rcases List.mem_append.mp hc with hc | hc
        · rcases hh.expanded c hc n hn with hn' | hn'
          · by_cases hnc : n = pf1.current
            · right; simp [hnc]
            · exact Or.inl (i4 n ((hopen1 n).mpr ⟨hn', hnc⟩))
          · right; simp [hn']
        · simp at hc
          subst hc
          rcases i5 n hn.2 hn.1 with hn' | hn'
          · exact Or.inl hn'
          · right
            rw [hclosed1] at hn'
            exact hn'
      · rw [i2, hclosed1]
        simp only [List.mem_append, List.mem_singleton, not_or]
        exact ⟨hh.goal_open, fun hc => hne hc.symm⟩
      · rw [i2, hclosed1]
        simp

lemma iteration_reached {volume : SVONVolume Link} {settings : SVONPathFinderSettings}
    {aStart aTarget : Link} {aStartPos aTargetPos : FloatVector} {agentSize : ℚ}
    {oPoints : List SVONPathPoint} {pf pf1 : SVONPathFinder Link}
    {pts : Option (List SVONPathPoint)}
    (hh : Inv volume settings agentSize aStart aTarget pf)
    (h : iteration volume settings aStartPos aTargetPos agentSize oPoints pf = .reached pf1 pts) :
    Inv volume settings agentSize aStart aTarget pf1 ∧ pf1.current = aTarget ∧
    selectCurrent pf = some pf1 ∧
    pf1.closedList = pf.closedList ++ [aTarget] ∧
    ∃ chain, PredPath volume agentSize pf1.cameFrom aStart chain aTarget ∧
      walkLinks pf1.cameFrom pf1.cameFrom.length aTarget = some chain.reverse ∧
      pts = some (finishPath aStart aStartPos aTargetPos
        (chain.reverse.foldl (AddPathPoint volume) oPoints)) := by
  unfold iteration at h
  cases hs : selectCurrent pf with
  | none => simp [hs] at h
  | some pf2 =>
    simp only [hs] at h
    obtain ⟨hinv1, hcopen, hclosed1, hopen1, _, _, _⟩ := selectCurrent_inv hh hs
    by_cases hgoal : pf2.current = pf2.goal
    swap
    · simp [hgoal] at h
    rw [if_pos hgoal] at h
    injection h with h1 h2
    subst h1
    have hcur : pf2.current = aTarget := by rw [hgoal, hinv1.goal_eq]
    have hcur1 : pf2.current ∈ pf2.closedList := by rw [hclosed1]; simp
    obtain ⟨p, hp⟩ := Option.isSome_iff_exists.mp (hinv1.closed_dom _ hcur1)
    obtain ⟨chain, hchain, _, _⟩ := hinv1.chain _ _ hp
    rw [hcur] at hchain
    have hwalk := hchain.walk hinv1.came_start _ (chain_length_le hinv1.came_start hchain)
    refine ⟨hinv1, hcur, rfl, by rw [hclosed1, hcur], chain, hchain, hwalk, ?_⟩
    rw [← h2, hcur, hinv1.start_eq]
    simp [BuildPath, hwalk]

/-! ## The main loop -/

lemma initSearch_headInv (volume : SVONVolume Link) (settings : SVONPathFinderSettings)
    (agentSize : ℚ) (prior : SVONPathFinder Link) (aStart aTarget : Link) :
    HeadInv volume settings agentSize aStart aTarget
      (initSearch volume settings prior aStart aTarget) := by
  have hfind : ∀ {V : Type} (v : V) (x : Link),
      (mapFind (mapInsert ([] : List (Link × V)) aStart v) x).isSome = decide (aStart = x) := by
    intro V v x
    by_cases hx : aStart = x <;> simp [mapInsert, mapFind, hx]
  refine ⟨?_, ?_, ?_⟩
  · constructor
    · rfl
    · rfl
    · simp [initSearch]
    · simp [initSearch]
    · simp [initSearch]
    · simp [initSearch, mapInsert, mapFind]
    · simp [initSearch, mapInsert, mapFind]
    · intro x
      simp only [initSearch]
      rw [hfind, hfind]
    · intro x
      simp only [initSearch]
      rw [hfind, hfind]
    · intro x hx
      simp only [initSearch] at hx ⊢
      rw [hfind] at hx
      simp at hx
      simp [hx]
    · intro x hx
      simp [initSearch] at hx
    · intro x p hx
      simp only [initSearch] at hx ⊢
      have hxs : aStart = x := by
        have := hfind aStart x
        rw [hx] at this
        simpa using this
      subst hxs
      refine ⟨[aStart], PredPath.base, ?_, ?_⟩
      · intro y hy hne
        simp at hy
        exact absurd hy hne
      · simp [mapInsert, mapFind, pathCost]
    · intro x hx
      simp [initSearch] at hx
      subst hx
      exact Relation.ReflTransGen.refl
  · intro c hc
    simp [initSearch] at hc
  · simp [initSearch]

lemma mainLoop_post {volume : SVONVolume Link} {settings : SVONPathFinderSettings}
    {agentSize : ℚ} {aStart aTarget : Link} {aStartPos aTargetPos : FloatVector}
    {oPoints : List SVONPathPoint} :
    ∀ (fuel : Nat) (pf : SVONPathFinder Link) (num : Nat),
      HeadInv volume settings agentSize aStart aTarget pf → pf.closedList.length = num →
      Post volume settings agentSize aStart aTarget aStartPos aTargetPos oPoints
        (mainLoop volume settings aStartPos aTargetPos agentSize oPoints fuel pf num) := by
  intro fuel
  induction fuel with
  | zero =>
    intro pf num hh hnum
    unfold mainLoop
    by_cases ho : pf.openList.length > 0
    · rw [if_pos ho]
      exact ⟨hh, fun h => by simp [h] at ho⟩
    · rw [if_neg ho]
      exact ⟨hh, by simpa using ho, rfl, hnum⟩
  | succ k ih =>
    intro pf num hh hnum
    unfold mainLoop
    by_cases ho : pf.openList.length > 0
    swap
    · rw [if_neg ho]
      exact ⟨hh, by simpa using ho, rfl, hnum⟩
    rw [if_pos ho]
    have hne : pf.openList ≠ [] := fun h => by simp [h] at ho
    cases hit : iteration volume settings aStartPos aTargetPos agentSize oPoints pf with
    | stuck pf1 =>
      obtain ⟨rfl, hsel⟩ := iteration_stuck hit
      refine ⟨hh, hne, ?_⟩
      intro hsc
      obtain ⟨x, hx⟩ := List.exists_mem_of_ne_nil _ hne
      obtain ⟨f, hf, hlt⟩ := hsc x hx
      obtain ⟨pf2, hpf2⟩ := selectCurrent_isSome hx hf hlt
      rw [hsel] at hpf2
      simp at hpf2
    | reached pf1 pts =>
      obtain ⟨hinv1, hcur, _, hclosed, chain, hchain, hwalk, hpts⟩ := iteration_reached hh.inv hit
      subst hpts
      refine ⟨hinv1, hcur, by rw [hclosed]; simp, by rw [hclosed]; simp [hnum], chain, hchain,
        hwalk, rfl⟩
    | next pf1 =>
      obtain ⟨hh1, hlen, _⟩ := iteration_next hh hit
      exact ih pf1 (num + 1) hh1 (by rw [hlen, hnum])

lemma mainLoop_fuel_mono {volume : SVONVolume Link} {settings : SVONPathFinderSettings}
    {agentSize : ℚ} {aStartPos aTargetPos : FloatVector} {oPoints : List SVONPathPoint}
    (k : Nat) :
    ∀ (fuel : Nat) (pf : SVONPathFinder Link) (num : Nat) (b : Bool)
      (pf' : SVONPathFinder Link) (pts : List SVONPathPoint) (n : Nat),
      mainLoop volume settings aStartPos aTargetPos agentSize oPoints fuel pf num =
        .returned b pf' pts n →
      mainLoop volume settings aStartPos aTargetPos agentSize oPoints (fuel + k) pf num =
        .returned b pf' pts n := by
  intro fuel
  induction fuel with
  | zero =>
    intro pf num b pf' pts n h
    unfold mainLoop at h ⊢
    by_cases ho : pf.openList.length > 0
    · simp [ho] at h
    · simpa [ho] using h
  | succ f ih =>
    intro pf num b pf' pts n h
    have hk : f + 1 + k = (f + k) + 1 := by omega
    rw [hk]
    unfold mainLoop at h ⊢
    by_cases ho : pf.openList.length > 0
    swap
    · simpa [ho] using h
    rw [if_pos ho] at h ⊢
    cases hit : iteration volume settings aStartPos aTargetPos agentSize oPoints pf with
    | stuck pf1 => simp [hit] at h
    | reached pf1 opts =>
      cases opts with
      | none => simp [hit] at h
      | some points => simpa [hit] using h
    | next pf1 =>
      simp only [hit] at h ⊢
      exact ih pf1 (num + 1) b pf' pts n h

lemma FindPath_post (volume : SVONVolume Link) (settings : SVONPathFinderSettings)
    (prior : SVONPathFinder Link) (aStart aTarget : Link)
    (aStartPos aTargetPos : FloatVector) (agentSize : ℚ) (oPoints : List SVONPathPoint)
    (fuel : Nat) :
    Post volume settings agentSize aStart aTarget aStartPos aTargetPos oPoints
      (FindPath volume settings prior aStart aTarget aStartPos aTargetPos agentSize oPoints
        fuel) :=
  mainLoop_post fuel _ 0 (initSearch_headInv volume settings agentSize prior aStart aTarget) rfl

/-! ## Reconstruction -/

lemma foldl_AddPathPoint (volume : SVONVolume Link) (links : List Link) :
    ∀ oPoints : List SVONPathPoint,
      links.foldl (AddPathPoint volume) oPoints = oPoints ++ links.map (pathPointOf volume) := by
  induction links with
  | nil => intro oPoints; simp
  | cons a rest ih =>
    intro oPoints
    simp [List.foldl_cons, ih, AddPathPoint]

lemma finishPath_endpoints (start : Link) (aStartPos aTargetPos : FloatVector)
    (l : List SVONPathPoint) (hl : l ≠ []) :
    ((finishPath start aStartPos aTargetPos l).head?).map (·.position) = some aStartPos ∧
    ((finishPath start aStartPos aTargetPos l).getLast?).map (·.position) = some aTargetPos := by
  unfold finishPath
  simp only [List.head?_reverse, List.getLast?_reverse]
  have hpos : 0 < l.length := List.length_pos.mpr hl
  by_cases hn : l.length > 1
  · rw [if_pos hn]
    constructor
    · rw [List.getLast?_eq_getElem?]
      simp only [setPosition, List.length_modify, List.getElem?_modify]
      have h1 : l.length - 1 < l.length := by omega
      have h0 : ¬ (0 = l.length - 1) := by omega
      simp [List.getElem?_eq_getElem h1, h0]
    · rw [List.head?_eq_getElem?]
      simp only [setPosition, List.getElem?_modify]
      have h0 : ¬ (l.length - 1 = 0) := by omega
      simp [List.getElem?_eq_getElem hpos, h0]
  · rw [if_neg hn]
    have h1 : l.length = 1 := by omega
    obtain ⟨a, rfl⟩ := List.length_eq_one.mp h1
    simp [setPosition]

lemma finishPath_getElem? (start : Link) (aStartPos aTargetPos : FloatVector)
    (oPoints Q : List SVONPathPoint) (hQ : 2 ≤ Q.length) (i : Nat) (hi : i < Q.length) :
    (finishPath start aStartPos aTargetPos (oPoints ++ Q.reverse))[i]? =
      (Q[i]?).map (fun p =>
        if i = 0 then { p with position := aStartPos }
        else if i + 1 = Q.length ∧ oPoints = [] then { p with position := aTargetPos }
        else p) := by
  unfold finishPath
  have hlen : (oPoints ++ Q.reverse).length = oPoints.length + Q.length := by simp
  have hn : (oPoints ++ Q.reverse).length > 1 := by omega
  simp only [hn, if_true]
  have hi2 : i < (setPosition (setPosition (oPoints ++ Q.reverse) 0 aTargetPos)
      ((oPoints ++ Q.reverse).length - 1) aStartPos).length := by
    simp [setPosition]; omega
  rw [List.getElem?_reverse hi2]
  simp only [setPosition, List.length_modify, List.getElem?_modify, hlen]
  have hj : oPoints.length ≤ oPoints.length + Q.length - 1 - i := by omega
  rw [List.getElem?_append_right hj]
  have hk : oPoints.length + Q.length - 1 - i - oPoints.length < Q.reverse.length := by
    simp; omega
  rw [List.getElem?_reverse (by simpa using hk)]
  have hidx : Q.length - 1 - (oPoints.length + Q.length - 1 - i - oPoints.length) = i := by
    omega
  rw [hidx, List.getElem?_eq_getElem hi]
  simp only [Option.map_some']
  by_cases h0 : i = 0
  · subst h0
    have h1 : ¬ (0 = oPoints.length + Q.length - 1) := by omega
    simp [h1]
  · have h1 : ¬ (oPoints.length + Q.length - 1 = oPoints.length + Q.length - 1 - i) := by omega
    by_cases hl : i + 1 = Q.length ∧ oPoints = []
    · obtain ⟨hl1, hl2⟩ := hl
      subst hl2
      have h2 : 0 = ([] : List SVONPathPoint).length + Q.length - 1 - i := by simp; omega
      have h3 : ¬ (Q.length - 1 = 0) := by omega
      simp [h0, hl1, ← h2, h3]
    · have h2 : ¬ (0 = oPoints.length + Q.length - 1 - i) := by
        intro h
        apply hl
        have : oPoints.length = 0 := by omega
        exact ⟨by omega, List.length_eq_zero.mp this⟩
      simp [h0, h1, h2, hl]

lemma PredPath.ne_nil {volume : SVONVolume Link} {agentSize : ℚ}
    {cameFrom : List (Link × Link)} {aStart n : Link} {l : List Link}
    (h : PredPath volume agentSize cameFrom aStart l n) : l ≠ [] :=
  List.ne_nil_of_mem h.mem_last

/-! ## Theorems about the claims -/

/-- C8 (layer renumbering): the point that `AddPathPoint` appends for an address has layer 1
when the address is at layer 0 and its node has no children, layer 0 when the address is at
layer 0 and its node has children, and layer `L + 1` when the address is at layer `L ≥ 1`;
its position is the volume's link position of the address and its code is the node's code. -/
theorem AddPathPoint_layer (volume : SVONVolume Link) (points : List SVONPathPoint)
    (aPointLink : Link) :
    ∃ pos : SVONPathPoint, AddPathPoint volume points aPointLink = points ++ [pos] ∧
      pos.position = volume.GetLinkPosition aPointLink ∧
      pos.code = (volume.GetNode aPointLink).code ∧
      (GetLayerIndex aPointLink = 0 ∧ (volume.GetNode aPointLink).HasChildren = false →
        pos.layer = 1) ∧
      (GetLayerIndex aPointLink = 0 ∧ (volume.GetNode aPointLink).HasChildren = true →
        pos.layer = 0) ∧
      (1 ≤ GetLayerIndex aPointLink → pos.layer = GetLayerIndex aPointLink + 1) := by
  refine ⟨pathPointOf volume aPointLink, rfl, rfl, rfl, ?_, ?_, ?_⟩
  · rintro ⟨h0, hc⟩
    simp [pathPointOf, h0, hc]
  · rintro ⟨h0, hc⟩
    simp [pathPointOf, h0, hc]
  · intro h1
    have : GetLayerIndex aPointLink ≠ 0 := by omega
    simp [pathPointOf, this]

/-- C1 (endpoint exactness): whenever `FindPath` returns true, the first point of the
returned list has exactly the supplied start position and the last point has exactly the
supplied target position, whatever the volume reports and whatever the list held on entry. -/
theorem FindPath_endpoints (volume : SVONVolume Link) (settings : SVONPathFinderSettings)
    (prior : SVONPathFinder Link) (aStart aTarget : Link)
    (aStartPos aTargetPos : FloatVector) (agentSize : ℚ) (oPoints : List SVONPathPoint)
    (fuel : Nat) (pf : SVONPathFinder Link) (pts : List SVONPathPoint) (n : Nat)
    (h : FindPath volume settings prior aStart aTarget aStartPos aTargetPos agentSize oPoints
      fuel = .returned true pf pts n) :
    (pts.head?).map (·.position) = some aStartPos ∧
    (pts.getLast?).map (·.position) = some aTargetPos := by
  have hp := FindPath_post volume settings prior aStart aTarget aStartPos aTargetPos agentSize
    oPoints fuel
  rw [h] at hp
  obtain ⟨_, _, _, _, chain, hchain, _, rfl⟩ := hp
  apply finishPath_endpoints
  rw [foldl_AddPathPoint]
  intro hnil
  have := hchain.ne_nil
  simp at hnil
  exact this hnil.2

/-- Witness of C1 on the five-voxel line volume: the search from voxel 0 to voxel 4 returns
true with four points, the first at the supplied start position and the last at the
supplied target position. -/
theorem FindPath_endpoints_witness :
    FindPath lineVolume euclidSettings freshFinder ⟨0, 0⟩ ⟨0, 4⟩ ⟨1/3, 0, 0⟩ ⟨19/2, 0, 0⟩ 1 [] 10 =
      .returned true
        { openList := [], closedList := [⟨0, 0⟩, ⟨0, 1⟩, ⟨0, 2⟩, ⟨0, 3⟩, ⟨0, 4⟩],
          cameFrom := [(⟨0, 4⟩, ⟨0, 3⟩), (⟨0, 3⟩, ⟨0, 1⟩), (⟨0, 2⟩, ⟨0, 0⟩), (⟨0, 1⟩, ⟨0, 0⟩),
            (⟨0, 0⟩, ⟨0, 0⟩)],
          fScore := [(⟨0, 4⟩, 24), (⟨0, 3⟩, 24), (⟨0, 2⟩, 12), (⟨0, 1⟩, 10), (⟨0, 0⟩, 10)],
          gScore := [(⟨0, 4⟩, 24), (⟨0, 3⟩, 12), (⟨0, 2⟩, 1), (⟨0, 1⟩, 5), (⟨0, 0⟩, 0)],
          current := ⟨0, 4⟩, goal := ⟨0, 4⟩, start := ⟨0, 0⟩ }
        [⟨⟨1/3, 0, 0⟩, 1, 0⟩, ⟨⟨5, 0, 0⟩, 1, 1⟩, ⟨⟨-2, 0, 0⟩, 1, 3⟩, ⟨⟨19/2, 0, 0⟩, 1, 4⟩] 4 ∧
    (([⟨⟨1/3, 0, 0⟩, 1, 0⟩, ⟨⟨5, 0, 0⟩, 1, 1⟩, ⟨⟨-2, 0, 0⟩, 1, 3⟩,
        ⟨⟨19/2, 0, 0⟩, 1, 4⟩] : List SVONPathPoint).head?).map (·.position) =
      some ⟨1/3, 0, 0⟩ ∧
    (([⟨⟨1/3, 0, 0⟩, 1, 0⟩, ⟨⟨5, 0, 0⟩, 1, 1⟩, ⟨⟨-2, 0, 0⟩, 1, 3⟩,
        ⟨⟨19/2, 0, 0⟩, 1, 4⟩] : List SVONPathPoint).getLast?).map (·.position) =
      some ⟨19/2, 0, 0⟩ :=
  have h : FindPath lineVolume euclidSettings freshFinder ⟨0, 0⟩ ⟨0, 4⟩ ⟨1/3, 0, 0⟩ ⟨19/2, 0, 0⟩
      1 [] 10 = .returned true _ _ 4 := by decide!
  ⟨h, FindPath_endpoints _ _ _ _ _ _ _ _ _ _ _ _ _ h⟩

lemma Post.inv {volume : SVONVolume Link} {settings : SVONPathFinderSettings}
    {agentSize : ℚ} {aStart aTarget : Link} {aStartPos aTargetPos : FloatVector}
    {oPoints : List SVONPathPoint} {res : FindPathResult Link}
    (h : Post volume settings agentSize aStart aTarget aStartPos aTargetPos oPoints res) :
    Inv volume settings agentSize aStart aTarget res.finder := by
  cases res with
  | returned b pf pts n =>
    cases b with
    | true => exact h.1
    | false => exact h.1.inv
  | eraseEnd pf => exact h.1.inv
  | outOfFuel pf => exact h.1.inv

/-- C2 (path validity and order): whenever `FindPath` returns true with start ≠ target,
there is a sequence of addresses `a0 = start, a1, ..., ak = target` such that every
`a(i+1)` is a valid address in the list the volume returned for `a(i)` (the list of
`GetLeafNeighbours` when `a(i)` is at layer 0 and its node has a valid first child, the
list of `GetNeighbours` otherwise), and the returned list, read from its front, holds at
position `i` the point made from `a(i)`: its code is the code of the node of `a(i)`, its
layer is the renumbered layer of `a(i)`, and its position is the supplied start position
for `i = 0`, the volume's position of `a(i)` for the points in between, and for `i = k`
the supplied target position (when the list was empty on entry; otherwise the volume's
position, the target position going to the last of the stale points).  The walk of
`BuildPath` visited these addresses in the opposite order, and the returned list is longer
than the sequence by the number of points the list held on entry. -/
theorem FindPath_path_valid (volume : SVONVolume Link) (settings : SVONPathFinderSettings)
    (prior : SVONPathFinder Link) (aStart aTarget : Link)
    (aStartPos aTargetPos : FloatVector) (agentSize : ℚ) (oPoints : List SVONPathPoint)
    (fuel : Nat) (pf : SVONPathFinder Link) (pts : List SVONPathPoint) (n : Nat)
    (h : FindPath volume settings prior aStart aTarget aStartPos aTargetPos agentSize oPoints
      fuel = .returned true pf pts n)
    (hne : aStart ≠ aTarget) :
    ∃ chain : List Link,
      chain.head? = some aStart ∧ chain.getLast? = some aTarget ∧
      List.Chain' (fun a b => IsValid b = true ∧
        b ∈ (if GetLayerIndex a = 0 ∧ IsValid (volume.GetNode a).firstChild = true
          then volume.GetLeafNeighbours a agentSize
          else volume.GetNeighbours a agentSize)) chain ∧
      walkLinks pf.cameFrom pf.cameFrom.length aTarget = some chain.reverse ∧
      pts.length = oPoints.length + chain.length ∧
      ∀ (i : Nat) (a : Link), chain[i]? = some a →
        ∃ p : SVONPathPoint, pts[i]? = some p ∧
          p.code = (volume.GetNode a).code ∧
          p.layer =
            (if GetLayerIndex a = 0 then
              (if (volume.GetNode a).HasChildren = true then 0 else 1)
            else GetLayerIndex a + 1) ∧
          p.position =
            (if i = 0 then aStartPos
            else if i + 1 = chain.length ∧ oPoints = [] then aTargetPos
            else volume.GetLinkPosition a) := by
  have hp := FindPath_post volume settings prior aStart aTarget aStartPos aTargetPos agentSize
    oPoints fuel
  rw [h] at hp
  obtain ⟨_, _, _, _, chain, hchain, hwalk, hpts⟩ := hp
  have hlen2 : 2 ≤ chain.length := by
    have hh := hchain.head
    have hl := hchain.getLast
    match chain, hh, hl with
    | [], hh, _ => simp at hh
    | [x], hh, hl =>
      simp at hh hl
      exact absurd (hh.symm.trans hl) hne
    | _ :: _ :: _, _, _ => simp
  have hQ : 2 ≤ (chain.map (pathPointOf volume)).length := by simpa using hlen2
  have hpts2 : pts = finishPath aStart aStartPos aTargetPos
      (oPoints ++ (chain.map (pathPointOf volume)).reverse) := by
    rw [hpts, foldl_AddPathPoint, List.map_reverse]
  refine ⟨chain, hchain.head, hchain.getLast, hchain.isChain, hwalk, ?_, ?_⟩
  · rw [hpts2]
    unfold finishPath
    have hgt : (oPoints ++ (chain.map (pathPointOf volume)).reverse).length > 1 := by
      simp; omega
    simp only [hgt, if_true]
    simp [setPosition]
  · intro i a hia
    have hi : i < chain.length := by
      by_contra hcon
      rw [List.getElem?_eq_none (by omega)] at hia
      cases hia
    have hiQ : i < (chain.map (pathPointOf volume)).length := by simpa using hi
    have hget := finishPath_getElem? aStart aStartPos aTargetPos oPoints
      (chain.map (pathPointOf volume)) hQ i hiQ
    rw [← hpts2, List.getElem?_map, hia] at hget
    simp only [Option.map_some', List.length_map] at hget
    refine ⟨_, hget, ?_, ?_, ?_⟩
    · split_ifs <;> rfl
    · have hlayer : (pathPointOf volume a).layer =
          (if GetLayerIndex a = 0 then
            (if (volume.GetNode a).HasChildren = true then 0 else 1)
          else GetLayerIndex a + 1) := by
        unfold pathPointOf
        by_cases h0 : GetLayerIndex a = 0
        · cases hc : (volume.GetNode a).HasChildren <;> simp [h0, hc]
        · simp [h0]
      rw [← hlayer]
      split_ifs <;> rfl
    · split_ifs <;> rfl

/-- Witness of C2 on the three-layer volume `leafVolume`, for the search from voxel 0 (a
layer-0 voxel with children, whose neighbours come from `GetLeafNeighbours`) to voxel 2:
the returned points are made from voxel 0, the layer-1 voxel 1 and voxel 2, in this
order. -/
theorem FindPath_path_valid_witness :
    FindPath leafVolume euclidSettings freshFinder ⟨0, 0⟩ ⟨0, 2⟩ ⟨1/2, 0, 0⟩ ⟨11/2, 0, 0⟩ 1 []
        10 =
      .returned true
        { openList := [], closedList := [⟨0, 0⟩, ⟨1, 1⟩, ⟨0, 2⟩],
          cameFrom := [(⟨0, 2⟩, ⟨1, 1⟩), (⟨1, 1⟩, ⟨0, 0⟩), (⟨0, 0⟩, ⟨0, 0⟩)],
          fScore := [(⟨0, 2⟩, 5), (⟨1, 1⟩, 5), (⟨0, 0⟩, 6)],
          gScore := [(⟨0, 2⟩, 5), (⟨1, 1⟩, 2), (⟨0, 0⟩, 0)],
          current := ⟨0, 2⟩, goal := ⟨0, 2⟩, start := ⟨0, 0⟩ }
        [⟨⟨1/2, 0, 0⟩, 0, 40⟩, ⟨⟨3, 0, 0⟩, 2, 11⟩, ⟨⟨11/2, 0, 0⟩, 1, 2⟩] 2 ∧
    (⟨0, 0⟩ : GridLink) ≠ ⟨0, 2⟩ ∧
    ∃ chain : List GridLink,
      chain.head? = some ⟨0, 0⟩ ∧ chain.getLast? = some ⟨0, 2⟩ ∧
      List.Chain' (fun a b => IsValid b = true ∧
        b ∈ (if GetLayerIndex a = 0 ∧ IsValid (leafVolume.GetNode a).firstChild = true
          then leafVolume.GetLeafNeighbours a 1
          else leafVolume.GetNeighbours a 1)) chain ∧
      walkLinks [((⟨0, 2⟩ : GridLink), (⟨1, 1⟩ : GridLink)), (⟨1, 1⟩, ⟨0, 0⟩),
        (⟨0, 0⟩, ⟨0, 0⟩)] 3 ⟨0, 2⟩ = some chain.reverse ∧
      ([⟨⟨1/2, 0, 0⟩, 0, 40⟩, ⟨⟨3, 0, 0⟩, 2, 11⟩, ⟨⟨11/2, 0, 0⟩, 1, 2⟩] :
        List SVONPathPoint).length = ([] : List SVONPathPoint).length + chain.length ∧
      ∀ (i : Nat) (a : GridLink), chain[i]? = some a →
        ∃ p : SVONPathPoint,
          ([⟨⟨1/2, 0, 0⟩, 0, 40⟩, ⟨⟨3, 0, 0⟩, 2, 11⟩, ⟨⟨11/2, 0, 0⟩, 1, 2⟩] :
            List SVONPathPoint)[i]? = some p ∧
          p.code = (leafVolume.GetNode a).code ∧
          p.layer =
            (if GetLayerIndex a = 0 then
              (if (leafVolume.GetNode a).HasChildren = true then 0 else 1)
            else GetLayerIndex a + 1) ∧
          p.position =
            (if i = 0 then ⟨1/2, 0, 0⟩
            else if i + 1 = chain.length ∧ ([] : List SVONPathPoint) = [] then ⟨11/2, 0, 0⟩
            else leafVolume.GetLinkPosition a) :=
  have h : FindPath leafVolume euclidSettings freshFinder ⟨0, 0⟩ ⟨0, 2⟩ ⟨1/2, 0, 0⟩
      ⟨11/2, 0, 0⟩ 1 [] 10 = .returned true
        { openList := [], closedList := [⟨0, 0⟩, ⟨1, 1⟩, ⟨0, 2⟩],
          cameFrom := [(⟨0, 2⟩, ⟨1, 1⟩), (⟨1, 1⟩, ⟨0, 0⟩), (⟨0, 0⟩, ⟨0, 0⟩)],
          fScore := [(⟨0, 2⟩, 5), (⟨1, 1⟩, 5), (⟨0, 0⟩, 6)],
          gScore := [(⟨0, 2⟩, 5), (⟨1, 1⟩, 2), (⟨0, 0⟩, 0)],
          current := ⟨0, 2⟩, goal := ⟨0, 2⟩, start := ⟨0, 0⟩ }
        [⟨⟨1/2, 0, 0⟩, 0, 40⟩, ⟨⟨3, 0, 0⟩, 2, 11⟩, ⟨⟨11/2, 0, 0⟩, 1, 2⟩] 2 := by
    decide!
  ⟨h, by decide, FindPath_path_valid _ _ _ _ _ _ _ _ _ _ _ _ _ h (by decide)⟩

lemma foldl_ProcessLink_closedList (volume : SVONVolume Link)
    (settings : SVONPathFinderSettings) (ns : List Link) :
    ∀ pf : SVONPathFinder Link,
      (ns.foldl (ProcessLink volume settings) pf).closedList = pf.closedList := by
  induction ns with
  | nil => intro pf; rfl
  | cons n rest ih =>
    intro pf
    rw [List.foldl_cons, ih, (ProcessLink_frame volume settings pf n).1]

/-- C9 (monotonic closure): in every bookkeeping state that a run of `FindPath` passes
through at line 30 or ends in (a run cut off after `fuel` passes shows the state at line 30
at that moment), the closed list holds no address twice; it still holds none twice after
the next selection has pushed its address (line 54), and processing neighbours leaves the
closed list as it is.  The closed list is the sequence of addresses selected as `current`,
so none is selected and expanded twice. -/
theorem FindPath_closed_nodup (volume : SVONVolume Link) (settings : SVONPathFinderSettings)
    (prior : SVONPathFinder Link) (aStart aTarget : Link)
    (aStartPos aTargetPos : FloatVector) (agentSize : ℚ) (oPoints : List SVONPathPoint)
    (fuel : Nat) :
    (FindPath volume settings prior aStart aTarget aStartPos aTargetPos agentSize oPoints
      fuel).finder.closedList.Nodup ∧
    ∀ pf1, selectCurrent (FindPath volume settings prior aStart aTarget aStartPos aTargetPos
        agentSize oPoints fuel).finder = some pf1 →
      pf1.closedList.Nodup ∧
      ∀ ns : List Link, (ns.foldl (ProcessLink volume settings) pf1).closedList.Nodup := by
  have hinv := (FindPath_post volume settings prior aStart aTarget aStartPos aTargetPos
    agentSize oPoints fuel).inv
  refine ⟨hinv.closed_nodup, ?_⟩
  intro pf1 hs
  have h1 := (selectCurrent_inv hinv hs).1.closed_nodup
  refine ⟨h1, ?_⟩
  intro ns
  rw [foldl_ProcessLink_closedList]
  exact h1

/-! ## Runs whose scores stay below `FLT_MAX` -/

lemma tentative_chain {volume : SVONVolume Link} {settings : SVONPathFinderSettings}
    {agentSize : ℚ} {aStart aTarget : Link} {pf : SVONPathFinder Link} {n : Link} {gc : ℚ}
    (h : Inv volume settings agentSize aStart aTarget pf)
    (hcur : pf.current ∈ pf.closedList) (he : Edge volume agentSize pf.current n)
    (hc : n ∉ pf.closedList) (hg : mapFind pf.gScore pf.current = some gc) :
    ∃ chain : List Link, List.Chain' (Edge volume agentSize) chain ∧
      chain.head? = some aStart ∧ chain.getLast? = some n ∧ chain.Nodup ∧
      pathCost volume settings chain = gc + GetCost volume settings pf.current n := by
  obtain ⟨pc, hpc⟩ := Option.isSome_iff_exists.mp (h.closed_dom _ hcur)
  obtain ⟨lc, hlc, hlc_closed, hlc_g⟩ := h.chain _ _ hpc
  have hlc_sub : ∀ y ∈ lc, y ∈ pf.closedList := by
    intro y hy
    by_cases hyc : y = pf.current
    · rw [hyc]; exact hcur
    · exact hlc_closed y hy hyc
  have hgc : gc = pathCost volume settings lc := by
    rw [hg] at hlc_g
    exact Option.some.inj hlc_g
  refine ⟨lc ++ [n], ?_, ?_, by simp, ?_, ?_⟩
  · refine List.Chain'.append hlc.isChain (List.chain'_singleton _) ?_
    intro x hx y hy
    rw [hlc.getLast] at hx
    simp at hx hy
    subst hx hy
    exact he
  · have := hlc.head
    cases lc with
    | nil => simp at this
    | cons a rest => simpa using this
  · rw [List.nodup_append]
    refine ⟨hlc.nodup, List.nodup_singleton _, ?_⟩
    intro x hx hy
    simp at hy
    subst hy
    exact hc (hlc_sub x hx)
  · rw [pathCost_snoc volume settings lc pf.current n hlc.getLast, hgc]

lemma ProcessLink_scored {volume : SVONVolume Link} {settings : SVONPathFinderSettings}
    {agentSize : ℚ} {aStart aTarget : Link} {pf : SVONPathFinder Link} {n : Link}
    (hS : ScoresBelowMax volume settings agentSize aStart aTarget)
    (h : Inv volume settings agentSize aStart aTarget pf)
    (hcur : pf.current ∈ pf.closedList)
    (hn : n ∈ neighboursOf volume agentSize pf.current)
    (hsc : FrontierScored pf) :
    FrontierScored (ProcessLink volume settings pf n) := by
  obtain ⟨gc, hg⟩ := h.current_g hcur
  rcases ProcessLink_cases volume settings pf n hg h.dom_g h.dom_f with
    ⟨he, _⟩ | ⟨hv, hc, he, hor⟩ | ⟨hv, hc, hcn, hgn, hfn, hlt, he⟩
  · rw [he]; exact hsc
  · rw [he]
    intro x hx
    change x ∈ pushOpen pf n at hx
    show ∃ f, mapFind pf.fScore x = some f ∧ f < FLT_MAX
    rcases (mem_pushOpen pf n x).mp hx with hx | rfl
    · exact hsc x hx
    · by_cases ho : x ∈ pf.openList
      · exact hsc x ho
      · exfalso
        rcases hor with hsome | hge
        · rcases h.dom_sub x hsome with h' | h'
          · exact ho h'
          · exact hc h'
        · obtain ⟨chain, h1, h2, h3, h4, h5⟩ := tentative_chain h hcur ⟨hv, hn⟩ hc hg
          have := (hS.2 chain x h1 h2 h3 h4).1
          rw [h5] at this
          exact absurd (lt_of_le_of_lt hge this) (lt_irrefl _)
  · rw [he]
    intro x hx
    change x ∈ pushOpen pf n at hx
    show ∃ f, mapFind ((n, _) :: pf.fScore) x = some f ∧ f < FLT_MAX
    by_cases hnx : n = x
    · subst hnx
      rw [mapFind_cons_self]
      refine ⟨_, rfl, ?_⟩
      obtain ⟨chain, h1, h2, h3, h4, h5⟩ := tentative_chain h hcur ⟨hv, hn⟩ hc hg
      have := (hS.2 chain n h1 h2 h3 h4).2
      rw [h5, ← h.goal_eq] at this
      exact this
    · rw [mapFind_cons_ne _ _ hnx]
      rcases (mem_pushOpen pf n x).mp hx with hx | rfl
      · exact hsc x hx
      · exact absurd rfl hnx

lemma foldl_ProcessLink_scored {volume : SVONVolume Link} {settings : SVONPathFinderSettings}
    {agentSize : ℚ} {aStart aTarget : Link}
    (hS : ScoresBelowMax volume settings agentSize aStart aTarget) (ns : List Link) :
    ∀ pf : SVONPathFinder Link, Inv volume settings agentSize aStart aTarget pf →
      pf.current ∈ pf.closedList →
      (∀ n ∈ ns, n ∈ neighboursOf volume agentSize pf.current) →
      FrontierScored pf → FrontierScored (ns.foldl (ProcessLink volume settings) pf) := by
  induction ns with
  | nil => intro pf _ _ _ hsc; exact hsc
  | cons n rest ih =>
    intro pf h hcur hns hsc
    obtain ⟨hcl, hcu, _, _⟩ := ProcessLink_frame volume settings pf n
    have hn := hns n (List.mem_cons_self _ _)
    simp only [List.foldl_cons]
    apply ih _ (ProcessLink_inv h hcur hn)
    · rw [hcl, hcu]; exact hcur
    · intro m hm
      rw [hcu]
      exact hns m (List.mem_cons_of_mem _ hm)
    · exact ProcessLink_scored hS h hcur hn hsc

lemma iteration_next_scored {volume : SVONVolume Link} {settings : SVONPathFinderSettings}
    {aStart aTarget : Link} {aStartPos aTargetPos : FloatVector} {agentSize : ℚ}
    {oPoints : List SVONPathPoint} {pf pf' : SVONPathFinder Link}
    (hS : ScoresBelowMax volume settings agentSize aStart aTarget)
    (hh : HeadInv volume settings agentSize aStart aTarget pf) (hsc : FrontierScored pf)
    (h : iteration volume settings aStartPos aTargetPos agentSize oPoints pf = .next pf') :
    FrontierScored pf' := by
  obtain ⟨_, _, pf1, hs, _, rfl⟩ := iteration_next hh h
  obtain ⟨hinv1, _, hclosed1, hopen1, _, _, hf1⟩ := selectCurrent_inv hh.inv hs
  apply foldl_ProcessLink_scored hS _ pf1 hinv1 (by rw [hclosed1]; simp) (fun n hn => hn)
  intro x hx
  rw [hf1]
  exact hsc x ((hopen1 x).mp hx).1

lemma initSearch_scored {volume : SVONVolume Link} {settings : SVONPathFinderSettings}
    {agentSize : ℚ} {aStart aTarget : Link}
    (hS : ScoresBelowMax volume settings agentSize aStart aTarget)
    (prior : SVONPathFinder Link) :
    FrontierScored (initSearch volume settings prior aStart aTarget) := by
  intro x hx
  simp [initSearch] at hx
  subst hx
  exact ⟨_, by simp [initSearch, mapInsert, mapFind], hS.1⟩

lemma closed_length_le {volume : SVONVolume Link} {settings : SVONPathFinderSettings}
    {agentSize : ℚ} {aStart aTarget : Link} {pf : SVONPathFinder Link}
    (h : Inv volume settings agentSize aStart aTarget pf) (R : Finset Link)
    (hR : ∀ x, Reachable volume agentSize aStart x → x ∈ R) :
    pf.closedList.length ≤ R.card ∧ (pf.openList ≠ [] → pf.closedList.length < R.card) := by
  have hsub : pf.closedList.toFinset ⊆ R := by
    intro x hx
    exact hR x (h.reach x (Or.inr (List.mem_toFinset.mp hx)))
  rw [← List.toFinset_card_of_nodup h.closed_nodup]
  refine ⟨Finset.card_le_card hsub, ?_⟩
  intro hne
  obtain ⟨x, hx⟩ := List.exists_mem_of_ne_nil _ hne
  apply Finset.card_lt_card
  refine ⟨hsub, ?_⟩
  intro hsup
  have hxR : x ∈ R := hR x (h.reach x (Or.inl hx))
  exact h.disjoint x hx (List.mem_toFinset.mp (hsup hxR))

lemma mainLoop_returns {volume : SVONVolume Link} {settings : SVONPathFinderSettings}
    {agentSize : ℚ} {aStart aTarget : Link} (aStartPos aTargetPos : FloatVector)
    (oPoints : List SVONPathPoint)
    (hS : ScoresBelowMax volume settings agentSize aStart aTarget) (R : Finset Link)
    (hR : ∀ x, Reachable volume agentSize aStart x → x ∈ R) :
    ∀ (fuel : Nat) (pf : SVONPathFinder Link) (num : Nat),
      HeadInv volume settings agentSize aStart aTarget pf → FrontierScored pf →
      R.card ≤ fuel + pf.closedList.length →
      ∃ b pf' pts n,
        mainLoop volume settings aStartPos aTargetPos agentSize oPoints fuel pf num =
          .returned b pf' pts n := by
  intro fuel
  induction fuel with
  | zero =>
    intro pf num hh _ hcard
    have ho : pf.openList = [] := by
      by_contra hne
      have := (closed_length_le hh.inv R hR).2 hne
      omega
    unfold mainLoop
    simp [ho]
  | succ k ih =>
    intro pf num hh hsc hcard
    unfold mainLoop
    by_cases ho : pf.openList.length > 0
    swap
    · rw [if_neg ho]
      exact ⟨_, _, _, _, rfl⟩
    rw [if_pos ho]
    have hne : pf.openList ≠ [] := fun h => by simp [h] at ho
    cases hit : iteration volume settings aStartPos aTargetPos agentSize oPoints pf with
    | stuck pf1 =>
      exfalso
      obtain ⟨_, hsel⟩ := iteration_stuck hit
      obtain ⟨x, hx⟩ := List.exists_mem_of_ne_nil _ hne
      obtain ⟨f, hf, hlt⟩ := hsc x hx
      obtain ⟨pf2, hpf2⟩ := selectCurrent_isSome hx hf hlt
      rw [hsel] at hpf2
      simp at hpf2
    | reached pf1 pts =>
      obtain ⟨_, _, _, _, chain, _, _, hpts⟩ := iteration_reached hh.inv hit
      subst hpts
      exact ⟨_, _, _, _, rfl⟩
    | next pf1 =>
      obtain ⟨hh1, hlen, _⟩ := iteration_next hh hit
      exact ih pf1 (num + 1) hh1 (iteration_next_scored hS hh hsc hit) (by rw [hlen]; omega)

/-! ## Reachability and a sufficient condition for bounded scores -/

lemma reachable_mem_of_closed {volume : SVONVolume Link} {agentSize : ℚ} {aStart : Link}
    (R : Finset Link) (hs : aStart ∈ R)
    (hcl : ∀ a ∈ R, ∀ b ∈ neighboursOf volume agentSize a, IsValid b = true → b ∈ R) :
    ∀ x, Reachable volume agentSize aStart x → x ∈ R := by
  intro x hx
  induction hx with
  | refl => exact hs
  | tail _ he ih => exact hcl _ ih _ he.2 he.1

lemma chain_reachable {volume : SVONVolume Link} {agentSize : ℚ} :
    ∀ (chain : List Link) (s : Link), List.Chain' (Edge volume agentSize) chain →
      chain.head? = some s → ∀ x ∈ chain, Reachable volume agentSize s x := by
  intro chain
  induction chain with
  | nil => intro s _ _ x hx; simp at hx
  | cons a rest ih =>
    intro s hc hh x hx
    simp at hh
    subst hh
    rcases List.mem_cons.mp hx with rfl | hx
    · exact Relation.ReflTransGen.refl
    · cases rest with
      | nil => simp at hx
      | cons b rest' =>
        rw [List.chain'_cons] at hc
        exact Relation.ReflTransGen.head hc.1 (ih b hc.2 rfl x hx)

lemma pathCost_le {volume : SVONVolume Link} {settings : SVONPathFinderSettings}
    (R : Finset Link) (C : ℚ) (hC0 : 0 ≤ C)
    (hC : ∀ a ∈ R, ∀ b ∈ R, GetCost volume settings a b ≤ C) :
    ∀ chain : List Link, (∀ x ∈ chain, x ∈ R) →
      pathCost volume settings chain ≤ C * chain.length := by
  intro chain
  induction chain with
  | nil => intro _; simp [pathCost]
  | cons a rest ih =>
    intro hmem
    cases rest with
    | nil => simpa [pathCost] using hC0
    | cons b rest' =>
      have h1 := hC a (hmem a (by simp)) b (hmem b (by simp))
      have h2 := ih (fun x hx => hmem x (List.mem_cons_of_mem _ hx))
      rw [pathCost]
      simp only [List.length_cons, Nat.cast_add, Nat.cast_one] at h2 ⊢
      linarith

lemma scoresBelowMax_of_bounds {volume : SVONVolume Link} {settings : SVONPathFinderSettings}
    {agentSize : ℚ} {aStart aTarget : Link} (R : Finset Link)
    (hR : ∀ x, Reachable volume agentSize aStart x → x ∈ R) (C H : ℚ)
    (hC0 : 0 ≤ C) (hH0 : 0 ≤ H)
    (hC : ∀ a ∈ R, ∀ b ∈ R, GetCost volume settings a b ≤ C)
    (hH : ∀ n ∈ R, settings.estimateWeight * HeuristicScore volume settings n aTarget ≤ H)
    (hstart : HeuristicScore volume settings aStart aTarget < FLT_MAX)
    (hsum : C * R.card + H < FLT_MAX) :
    ScoresBelowMax volume settings agentSize aStart aTarget := by
  refine ⟨hstart, ?_⟩
  intro chain n hc hh hl hnd
  have hmem : ∀ x ∈ chain, x ∈ R := fun x hx => hR x (chain_reachable chain aStart hc hh x hx)
  have hlen : chain.length ≤ R.card := by
    have hsub : chain.toFinset ⊆ R := fun x hx => hmem x (List.mem_toFinset.mp hx)
    rw [← List.toFinset_card_of_nodup hnd]
    exact Finset.card_le_card hsub
  have hcost := pathCost_le R C hC0 hC chain hmem
  have hlen' : (chain.length : ℚ) ≤ R.card := by exact_mod_cast hlen
  have hmul : C * chain.length ≤ C * R.card := mul_le_mul_of_nonneg_left hlen' hC0
  have hn : n ∈ R := hmem n (List.mem_of_getLast?_eq_some hl)
  have := hH n hn
  constructor <;> linarith

lemma closed_of_exhausted {volume : SVONVolume Link} {settings : SVONPathFinderSettings}
    {agentSize : ℚ} {aStart aTarget : Link} {pf : SVONPathFinder Link}
    (hh : HeadInv volume settings agentSize aStart aTarget pf) (ho : pf.openList = []) :
    ∀ x, x ∈ pf.closedList ↔ Reachable volume agentSize aStart x := by
  intro x
  constructor
  · intro hx
    exact hh.inv.reach x (Or.inr hx)
  · intro hx
    induction hx with
    | refl =>
      have := hh.inv.dom_sub aStart (by rw [hh.inv.came_start]; rfl)
      rw [ho] at this
      simpa using this
    | tail _ he ih =>
      have := hh.expanded _ ih _ he
      rw [ho] at this
      simpa using this

lemma mainLoop_stuck {volume : SVONVolume Link} {settings : SVONPathFinderSettings}
    {aStartPos aTargetPos : FloatVector} {agentSize : ℚ} {oPoints : List SVONPathPoint}
    {pf pf1 : SVONPathFinder Link} (num : Nat)
    (h : iteration volume settings aStartPos aTargetPos agentSize oPoints pf = .stuck pf1)
    (ho : pf.openList.length > 0) (fuel : Nat) :
    mainLoop volume settings aStartPos aTargetPos agentSize oPoints fuel pf num = .outOfFuel pf ∨
    mainLoop volume settings aStartPos aTargetPos agentSize oPoints fuel pf num =
      .eraseEnd pf1 := by
  cases fuel with
  | zero => left; unfold mainLoop; simp [ho]
  | succ k => right; unfold mainLoop; simp [ho, h]

/-! ## The worked examples -/

lemma lineReach_spec (x : GridLink) : x ∈ lineReach ↔ Reachable lineVolume 1 ⟨0, 0⟩ x := by
  constructor
  · intro hx
    have e01 : Edge lineVolume 1 ⟨0, 0⟩ ⟨0, 1⟩ := by decide
    have e02 : Edge lineVolume 1 ⟨0, 0⟩ ⟨0, 2⟩ := by decide
    have e13 : Edge lineVolume 1 ⟨0, 1⟩ ⟨0, 3⟩ := by decide
    have e34 : Edge lineVolume 1 ⟨0, 3⟩ ⟨0, 4⟩ := by decide
    simp only [lineReach, Finset.mem_insert, Finset.mem_singleton] at hx
    rcases hx with rfl | rfl | rfl | rfl | rfl
    · exact Relation.ReflTransGen.refl
    · exact Relation.ReflTransGen.single e01
    · exact Relation.ReflTransGen.single e02
    · exact (Relation.ReflTransGen.single e01).tail e13
    · exact ((Relation.ReflTransGen.single e01).tail e13).tail e34
  · exact reachable_mem_of_closed lineReach (by decide) (by decide) x

lemma lineVolume_scores (t : GridLink) (ht : t = ⟨0, 4⟩ ∨ t = ⟨0, 7⟩) :
    ScoresBelowMax lineVolume euclidSettings 1 ⟨0, 0⟩ t := by
  apply scoresBelowMax_of_bounds lineReach (fun x hx => (lineReach_spec x).mpr hx) 12 12
    (by norm_num) (by norm_num)
  · decide!
  · rcases ht with rfl | rfl <;> decide!
  · rcases ht with rfl | rfl <;> decide!
  · rcases ht with rfl | rfl <;> decide!

lemma farVolume_unreachable : ¬ Reachable farVolume 1 ⟨0, 0⟩ ⟨0, 2⟩ := by
  intro h
  have := @reachable_mem_of_closed GridLink _ _ farVolume 1 ⟨0, 0⟩
    ({⟨0, 0⟩, ⟨0, 1⟩} : Finset GridLink) (by decide) (by decide) _ h
  revert this
  decide

lemma FindPath_returns {volume : SVONVolume Link} {settings : SVONPathFinderSettings}
    {agentSize : ℚ} {aStart aTarget : Link}
    (hS : ScoresBelowMax volume settings agentSize aStart aTarget) (R : Finset Link)
    (hR : ∀ x, Reachable volume agentSize aStart x → x ∈ R)
    (prior : SVONPathFinder Link) (aStartPos aTargetPos : FloatVector)
    (oPoints : List SVONPathPoint) (fuel : Nat) (hfuel : R.card ≤ fuel) :
    ∃ b pf pts n,
      FindPath volume settings prior aStart aTarget aStartPos aTargetPos agentSize oPoints
        fuel = .returned b pf pts n ∧
      Post volume settings agentSize aStart aTarget aStartPos aTargetPos oPoints
        (.returned b pf pts n) := by
  obtain ⟨b, pf, pts, n, h⟩ := mainLoop_returns aStartPos aTargetPos oPoints hS R hR fuel
    (initSearch volume settings prior aStart aTarget) 0
    (initSearch_headInv volume settings agentSize prior aStart aTarget)
    (initSearch_scored hS prior) (by simp [initSearch]; exact hfuel)
  refine ⟨b, pf, pts, n, h, ?_⟩
  have := FindPath_post volume settings prior aStart aTarget aStartPos aTargetPos agentSize
    oPoints fuel
  unfold FindPath at this
  rw [h] at this
  exact this

/-- C3, amended (success iff reachable): for a volume in which finitely many addresses
are reachable from the start, and provided no score of the search reaches `FLT_MAX`,
`FindPath` returns, and it returns true exactly when the target is reachable from the start
by a chain of valid neighbour addresses; when it returns false the frontier is empty. -/
theorem FindPath_true_iff_reachable (volume : SVONVolume Link)
    (settings : SVONPathFinderSettings) (prior : SVONPathFinder Link) (aStart aTarget : Link)
    (aStartPos aTargetPos : FloatVector) (agentSize : ℚ) (oPoints : List SVONPathPoint)
    (R : Finset Link) (hR : ∀ x, x ∈ R ↔ Reachable volume agentSize aStart x)
    (hS : ScoresBelowMax volume settings agentSize aStart aTarget)
    (fuel : Nat) (hfuel : R.card ≤ fuel) :
    ∃ b pf pts n,
      FindPath volume settings prior aStart aTarget aStartPos aTargetPos agentSize oPoints
        fuel = .returned b pf pts n ∧
      (b = true ↔ Reachable volume agentSize aStart aTarget) ∧
      (b = false → pf.openList = []) := by
  obtain ⟨b, pf, pts, n, h, hp⟩ := FindPath_returns hS R (fun x hx => (hR x).mpr hx) prior
    aStartPos aTargetPos oPoints fuel hfuel
  refine ⟨b, pf, pts, n, h, ?_, ?_⟩
  · cases b with
    | true =>
      obtain ⟨hinv, _, hmem, _⟩ := hp
      simp only [true_iff]
      exact hinv.reach _ (Or.inr hmem)
    | false =>
      obtain ⟨hh, ho, _, _⟩ := hp
      simp only [Bool.false_eq_true, false_iff]
      intro hreach
      exact hh.goal_open ((closed_of_exhausted hh ho aTarget).mpr hreach)
  · intro hb
    subst hb
    exact hp.2.1

/-- Witness of C3 (amended) on the five-voxel line volume, from voxel 0 to voxel 4. -/
theorem FindPath_true_iff_reachable_witness :
    (∀ x, x ∈ lineReach ↔ Reachable lineVolume 1 ⟨0, 0⟩ x) ∧
    ScoresBelowMax lineVolume euclidSettings 1 ⟨0, 0⟩ ⟨0, 4⟩ ∧
    ∃ b pf pts n,
      FindPath lineVolume euclidSettings freshFinder ⟨0, 0⟩ ⟨0, 4⟩ ⟨0, 0, 0⟩ ⟨10, 0, 0⟩ 1 []
        5 = .returned b pf pts n ∧
      (b = true ↔ Reachable lineVolume 1 ⟨0, 0⟩ ⟨0, 4⟩) ∧
      (b = false → pf.openList = []) :=
  ⟨lineReach_spec, lineVolume_scores _ (Or.inl rfl),
    FindPath_true_iff_reachable lineVolume euclidSettings freshFinder ⟨0, 0⟩ ⟨0, 4⟩ ⟨0, 0, 0⟩
      ⟨10, 0, 0⟩ 1 [] lineReach lineReach_spec (lineVolume_scores _ (Or.inl rfl)) 5
      (by decide)⟩

/-- Counterexample to C3 as stated: in `farVolume` voxel 1 is a valid neighbour of voxel
0, yet the heuristic of the start equals `FLT_MAX`, the scan selects nothing, and
`FindPath` from voxel 0 to voxel 1 never returns true. -/
theorem FindPath_true_iff_reachable_counterexample :
    Reachable farVolume 1 ⟨0, 0⟩ ⟨0, 1⟩ ∧
    ∀ fuel pf pts n,
      FindPath farVolume manhattanSettings freshFinder ⟨0, 0⟩ ⟨0, 1⟩ ⟨0, 0, 0⟩ ⟨FLT_MAX, 0, 0⟩ 1
        [] fuel ≠ .returned true pf pts n := by
  refine ⟨Relation.ReflTransGen.single (by decide), ?_⟩
  intro fuel pf pts n
  have hit : iteration farVolume manhattanSettings ⟨0, 0, 0⟩ ⟨FLT_MAX, 0, 0⟩ 1 []
      (initSearch farVolume manhattanSettings freshFinder ⟨0, 0⟩ ⟨0, 1⟩) =
      .stuck (initSearch farVolume manhattanSettings freshFinder ⟨0, 0⟩ ⟨0, 1⟩) := by decide!
  unfold FindPath
  rcases mainLoop_stuck 0 hit (by decide) fuel with h | h <;> rw [h] <;> simp

/-- C4, amended (unreachable case): for a volume in which finitely many addresses are
reachable from the start, provided no score of the search reaches `FLT_MAX`, and with a
target that no neighbour chain connects to the start, `FindPath` returns false with the
caller's list untouched after exactly as many passes of the main loop as there are
reachable addresses, and the closed list then holds exactly the reachable addresses, each
once. -/
theorem FindPath_unreachable (volume : SVONVolume Link)
    (settings : SVONPathFinderSettings) (prior : SVONPathFinder Link) (aStart aTarget : Link)
    (aStartPos aTargetPos : FloatVector) (agentSize : ℚ) (oPoints : List SVONPathPoint)
    (R : Finset Link) (hR : ∀ x, x ∈ R ↔ Reachable volume agentSize aStart x)
    (hS : ScoresBelowMax volume settings agentSize aStart aTarget)
    (hun : ¬ Reachable volume agentSize aStart aTarget)
    (fuel : Nat) (hfuel : R.card ≤ fuel) :
    ∃ pf,
      FindPath volume settings prior aStart aTarget aStartPos aTargetPos agentSize oPoints
        fuel = .returned false pf oPoints R.card ∧
      (∀ x, x ∈ pf.closedList ↔ Reachable volume agentSize aStart x) ∧
      pf.closedList.Nodup ∧ pf.closedList.length = R.card := by
  obtain ⟨b, pf, pts, n, h, hp⟩ := FindPath_returns hS R (fun x hx => (hR x).mpr hx) prior
    aStartPos aTargetPos oPoints fuel hfuel
  cases b with
  | true =>
    obtain ⟨hinv, _, hmem, _⟩ := hp
    exact absurd (hinv.reach _ (Or.inr hmem)) hun
  | false =>
    obtain ⟨hh, ho, hpts, hn⟩ := hp
    have hcl := closed_of_exhausted hh ho
    have hcard : pf.closedList.length = R.card := by
      rw [← List.toFinset_card_of_nodup hh.inv.closed_nodup]
      congr 1
      ext x
      rw [List.mem_toFinset, hcl, hR]
    refine ⟨pf, ?_, hcl, hh.inv.closed_nodup, hcard⟩
    rw [h, hpts, ← hn, hcard]

/-- Witness of C4 (amended) on the five-voxel line volume: voxel 7 is unreachable from voxel
0 and the search for it closes the five reachable voxels. -/
theorem FindPath_unreachable_witness :
    (∀ x, x ∈ lineReach ↔ Reachable lineVolume 1 ⟨0, 0⟩ x) ∧
    ScoresBelowMax lineVolume euclidSettings 1 ⟨0, 0⟩ ⟨0, 7⟩ ∧
    ¬ Reachable lineVolume 1 ⟨0, 0⟩ ⟨0, 7⟩ ∧
    ∃ pf,
      FindPath lineVolume euclidSettings freshFinder ⟨0, 0⟩ ⟨0, 7⟩ ⟨0, 0, 0⟩ ⟨10, 0, 0⟩ 1 []
        5 = .returned false pf [] lineReach.card ∧
      (∀ x, x ∈ pf.closedList ↔ Reachable lineVolume 1 ⟨0, 0⟩ x) ∧
      pf.closedList.Nodup ∧ pf.closedList.length = lineReach.card :=
  have hun : ¬ Reachable lineVolume 1 ⟨0, 0⟩ ⟨0, 7⟩ := fun h =>
    absurd ((lineReach_spec _).mpr h) (by decide)
  ⟨lineReach_spec, lineVolume_scores _ (Or.inr rfl), hun,
    FindPath_unreachable lineVolume euclidSettings freshFinder ⟨0, 0⟩ ⟨0, 7⟩ ⟨0, 0, 0⟩
      ⟨10, 0, 0⟩ 1 [] lineReach lineReach_spec (lineVolume_scores _ (Or.inr rfl)) hun 5
      (by decide)⟩

/-- Counterexample to C4 as stated: in `farVolume` no neighbour chain connects voxel 0 to
voxel 2, two addresses are reachable from voxel 0, yet `FindPath` never returns false: the
first scan selects nothing and the closed list stays empty. -/
theorem FindPath_unreachable_counterexample :
    ¬ Reachable farVolume 1 ⟨0, 0⟩ ⟨0, 2⟩ ∧
    ∀ fuel pf pts n,
      FindPath farVolume manhattanSettings freshFinder ⟨0, 0⟩ ⟨0, 2⟩ ⟨0, 0, 0⟩ ⟨FLT_MAX, 0, 0⟩ 1
        [] fuel ≠ .returned false pf pts n := by
  refine ⟨farVolume_unreachable, ?_⟩
  intro fuel pf pts n
  have hit : iteration farVolume manhattanSettings ⟨0, 0, 0⟩ ⟨FLT_MAX, 0, 0⟩ 1 []
      (initSearch farVolume manhattanSettings freshFinder ⟨0, 0⟩ ⟨0, 2⟩) =
      .stuck (initSearch farVolume manhattanSettings freshFinder ⟨0, 0⟩ ⟨0, 2⟩) := by decide!
  unfold FindPath
  rcases mainLoop_stuck 0 hit (by decide) fuel with h | h <;> rw [h] <;> simp

/-- C10, amended (termination): for a volume in which finitely many addresses are reachable
from the start, and provided no score of the search reaches `FLT_MAX`, the main loop of
`FindPath` ends by a return within as many passes as there are reachable addresses: with
that much fuel the call returns, and neither the number of addresses selected nor the
pass counter exceeds the number of reachable addresses. -/
theorem FindPath_terminates (volume : SVONVolume Link)
    (settings : SVONPathFinderSettings) (prior : SVONPathFinder Link) (aStart aTarget : Link)
    (aStartPos aTargetPos : FloatVector) (agentSize : ℚ) (oPoints : List SVONPathPoint)
    (R : Finset Link) (hR : ∀ x, x ∈ R ↔ Reachable volume agentSize aStart x)
    (hS : ScoresBelowMax volume settings agentSize aStart aTarget)
    (fuel : Nat) (hfuel : R.card ≤ fuel) :
    ∃ b pf pts n,
      FindPath volume settings prior aStart aTarget aStartPos aTargetPos agentSize oPoints
        fuel = .returned b pf pts n ∧
      pf.closedList.length ≤ R.card ∧ n ≤ R.card := by
  obtain ⟨b, pf, pts, n, h, hp⟩ := FindPath_returns hS R (fun x hx => (hR x).mpr hx) prior
    aStartPos aTargetPos oPoints fuel hfuel
  have hinv := hp.inv
  have hle := (closed_length_le hinv R (fun x hx => (hR x).mpr hx)).1
  refine ⟨b, pf, pts, n, h, hle, ?_⟩
  cases b with
  | true =>
    obtain ⟨_, _, _, hn, _⟩ := hp
    have : pf.closedList.length ≤ R.card := hle
    omega
  | false =>
    obtain ⟨_, _, _, hn⟩ := hp
    have : pf.closedList.length ≤ R.card := hle
    omega

/-- Witness of C10 (amended) on the five-voxel line volume, from voxel 0 to voxel 4. -/
theorem FindPath_terminates_witness :
    (∀ x, x ∈ lineReach ↔ Reachable lineVolume 1 ⟨0, 0⟩ x) ∧
    ScoresBelowMax lineVolume euclidSettings 1 ⟨0, 0⟩ ⟨0, 4⟩ ∧
    ∃ b pf pts n,
      FindPath lineVolume euclidSettings freshFinder ⟨0, 0⟩ ⟨0, 4⟩ ⟨1, 0, 0⟩ ⟨9, 0, 0⟩ 1 []
        5 = .returned b pf pts n ∧
      pf.closedList.length ≤ lineReach.card ∧ n ≤ lineReach.card :=
  ⟨lineReach_spec, lineVolume_scores _ (Or.inl rfl),
    FindPath_terminates lineVolume euclidSettings freshFinder ⟨0, 0⟩ ⟨0, 4⟩ ⟨1, 0, 0⟩
      ⟨9, 0, 0⟩ 1 [] lineReach lineReach_spec (lineVolume_scores _ (Or.inl rfl)) 5
      (by decide)⟩

/-- Counterexample to C10 as stated: in `detourVolume` the three addresses are reachable
from voxel 0.  The search from voxel 0 to voxel 2 gives voxel 1 the f-score `1 + FLT_MAX`,
so the second pass of the main loop selects nothing and reaches the erase of the end
iterator; the call returns for no amount of fuel. -/
theorem FindPath_terminates_counterexample :
    ¬ ∃ fuel b pf pts n,
      FindPath detourVolume manhattanSettings freshFinder ⟨0, 0⟩ ⟨0, 2⟩ ⟨0, 0, 0⟩ ⟨0, 0, 0⟩ 1
        [] fuel = .returned b pf pts n := by
  rintro ⟨fuel, b, pf, pts, n, hret⟩
  revert hret
  have h1 : iteration detourVolume manhattanSettings ⟨0, 0, 0⟩ ⟨0, 0, 0⟩ 1 []
      (initSearch detourVolume manhattanSettings freshFinder ⟨0, 0⟩ ⟨0, 2⟩) =
      .next detourFinder := by decide!
  have h2 : iteration detourVolume manhattanSettings ⟨0, 0, 0⟩ ⟨0, 0, 0⟩ 1 [] detourFinder =
      .stuck detourFinder := by decide!
  unfold FindPath
  cases fuel with
  | zero => unfold mainLoop; simp [initSearch]
  | succ k =>
    unfold mainLoop
    simp only [initSearch, List.length_singleton, gt_iff_lt, Nat.lt_one_iff, pos_of_gt,
      if_true] at h1 ⊢
    simp only [Nat.zero_lt_one, if_true, h1]
    rcases mainLoop_stuck (0 + 1) h2 (by decide) k with h | h <;> rw [h] <;> simp

/-! ## The degenerate search and the relaxation defect -/

lemma HeuristicScore_self (volume : SVONVolume Link) (settings : SVONPathFinderSettings)
    (a : Link) : HeuristicScore volume settings a a = 0 := by
  unfold HeuristicScore
  cases settings.pathCostType <;> simp [FloatVector.sub, FloatVector.Size]

lemma FindPath_same_voxel (volume : SVONVolume Link) (settings : SVONPathFinderSettings)
    (prior : SVONPathFinder Link) (aStart : Link) (aStartPos aTargetPos : FloatVector)
    (agentSize : ℚ) (fuel : Nat) :
    ∃ pf, FindPath volume settings prior aStart aStart aStartPos aTargetPos agentSize []
      (fuel + 1) = .returned true pf
        [⟨aStartPos, GetLayerIndex aStart, 0⟩,
          { pathPointOf volume aStart with position := aTargetPos }] 0 := by
  have hF : (0 : ℚ) < FLT_MAX := by unfold FLT_MAX; norm_num
  simp [FindPath, mainLoop, initSearch, iteration, selectCurrent, selectLowest, mapInsert,
    mapFind, HeuristicScore_self, hF, BuildPath, walkLinks, AddPathPoint, finishPath,
    setPosition]

/-- C5 (optimality), evaluated at a failing input.  In the line volume every address is at
layer 0 of a one-layer volume, so the compensation factor is 1; the settings are Euclidean
with weight 1.  `FindPath` from voxel 0 to voxel 4 returns the path 0, 1, 3, 4 of cost 24,
while the neighbour chain 0, 2, 3, 4 costs 14: voxel 3 keeps the predecessor and g-score of
its first discovery although the cheaper route through voxel 2 is offered later. -/
theorem FindPath_not_optimal :
    (∀ a : GridLink, a.layer = 0 → compensation lineVolume euclidSettings a = 1) ∧
    ∃ pf pts,
      FindPath lineVolume euclidSettings freshFinder ⟨0, 0⟩ ⟨0, 4⟩ ⟨0, 0, 0⟩ ⟨10, 0, 0⟩ 1 [] 5 =
        .returned true pf pts 4 ∧
      walkLinks pf.cameFrom pf.cameFrom.length ⟨0, 4⟩ =
        some [⟨0, 4⟩, ⟨0, 3⟩, ⟨0, 1⟩, ⟨0, 0⟩] ∧
      mapFind pf.gScore ⟨0, 4⟩ = some 24 ∧
      pathCost lineVolume euclidSettings [⟨0, 0⟩, ⟨0, 1⟩, ⟨0, 3⟩, ⟨0, 4⟩] = 24 ∧
      List.Chain' (Edge lineVolume 1) [⟨0, 0⟩, ⟨0, 2⟩, ⟨0, 3⟩, ⟨0, 4⟩] ∧
      pathCost lineVolume euclidSettings [⟨0, 0⟩, ⟨0, 2⟩, ⟨0, 3⟩, ⟨0, 4⟩] = 14 := by
  refine ⟨?_, ?_⟩
  · intro a ha
    simp [compensation, euclidSettings, lineVolume, GetLayerIndex, ha]
  · refine ⟨
      { openList := [], closedList := [⟨0, 0⟩, ⟨0, 1⟩, ⟨0, 2⟩, ⟨0, 3⟩, ⟨0, 4⟩],
        cameFrom := [(⟨0, 4⟩, ⟨0, 3⟩), (⟨0, 3⟩, ⟨0, 1⟩), (⟨0, 2⟩, ⟨0, 0⟩), (⟨0, 1⟩, ⟨0, 0⟩),
          (⟨0, 0⟩, ⟨0, 0⟩)],
        fScore := [(⟨0, 4⟩, 24), (⟨0, 3⟩, 24), (⟨0, 2⟩, 12), (⟨0, 1⟩, 10), (⟨0, 0⟩, 10)],
        gScore := [(⟨0, 4⟩, 24), (⟨0, 3⟩, 12), (⟨0, 2⟩, 1), (⟨0, 1⟩, 5), (⟨0, 0⟩, 0)],
        current := ⟨0, 4⟩, goal := ⟨0, 4⟩, start := ⟨0, 0⟩ },
      [⟨⟨0, 0, 0⟩, 1, 0⟩, ⟨⟨5, 0, 0⟩, 1, 1⟩, ⟨⟨-2, 0, 0⟩, 1, 3⟩, ⟨⟨10, 0, 0⟩, 1, 4⟩],
      by decide!, by decide!, by decide!, by decide!, ?_, by decide!⟩
    simp only [List.chain'_cons, List.chain'_singleton, and_true]
    exact ⟨by decide, by decide, by decide⟩

/-- C6 (start degeneracy, shape), evaluated at a failing input: a call with start equal to
target whose output list holds two points on entry returns three points; the two old
points stay in the list, the first of them with its position overwritten. -/
theorem FindPath_same_voxel_dirty_list :
    ∃ pf,
      FindPath lineVolume euclidSettings freshFinder ⟨0, 0⟩ ⟨0, 0⟩ ⟨1, 2, 3⟩ ⟨4, 5, 6⟩ 1
        [⟨⟨7, 7, 7⟩, 5, 50⟩, ⟨⟨8, 8, 8⟩, 6, 60⟩] 1 =
      .returned true pf
        [⟨⟨1, 2, 3⟩, 1, 0⟩, ⟨⟨8, 8, 8⟩, 6, 60⟩, ⟨⟨4, 5, 6⟩, 5, 50⟩] 0 :=
  ⟨{ openList := [], closedList := [⟨0, 0⟩], cameFrom := [(⟨0, 0⟩, ⟨0, 0⟩)],
     fScore := [(⟨0, 0⟩, 0)], gScore := [(⟨0, 0⟩, 0)],
     current := ⟨0, 0⟩, goal := ⟨0, 0⟩, start := ⟨0, 0⟩ }, by decide!⟩

/-- C7 (start degeneracy, layer tag), evaluated at a failing input: voxel 3 of the line
volume is a childless layer-0 voxel, so `AddPathPoint` reports layer 1 for it; the search
from voxel 3 to itself returns two points of which only the second carries layer 1, the
first carries the raw layer index 0. -/
theorem FindPath_same_voxel_layers :
    (pathPointOf lineVolume (⟨0, 3⟩ : GridLink)).layer = 1 ∧
    ∃ pf,
      FindPath lineVolume euclidSettings freshFinder ⟨0, 3⟩ ⟨0, 3⟩ ⟨-2, 1, 0⟩ ⟨-2, 0, 1⟩ 1 [] 1 =
      .returned true pf [⟨⟨-2, 1, 0⟩, 0, 0⟩, ⟨⟨-2, 0, 1⟩, 1, 3⟩] 0 :=
  ⟨by decide,
    ⟨{ openList := [], closedList := [⟨0, 3⟩], cameFrom := [(⟨0, 3⟩, ⟨0, 3⟩)],
       fScore := [(⟨0, 3⟩, 0)], gScore := [(⟨0, 3⟩, 0)],
       current := ⟨0, 3⟩, goal := ⟨0, 3⟩, start := ⟨0, 3⟩ }, by decide!⟩⟩

/-! ## Edge relaxation: what `ProcessLink` changes -/

/-- C13 (ignored neighbours): `ProcessLink` for a neighbour that is invalid or already in
the closed list returns the bookkeeping unchanged: frontier, closed list and the three maps
are the same before and after, so a closed address keeps its predecessor whatever route is
offered later. -/
theorem ProcessLink_ignored (volume : SVONVolume Link) (settings : SVONPathFinderSettings)
    (pf : SVONPathFinder Link) (aNeighbour : Link)
    (h : IsValid aNeighbour = false ∨ aNeighbour ∈ pf.closedList) :
    ProcessLink volume settings pf aNeighbour = pf := by
  rcases h with h | h
  · simp [ProcessLink, h]
  · by_cases hv : IsValid aNeighbour = true
    · simp [ProcessLink, hv, h]
    · simp [ProcessLink, hv]

/-- Witness of C13 in the line volume: while voxel 2 is expanded (g-score 1), the invalid
address and the closed voxel 1 (g-score 5, predecessor voxel 0) are both ignored. -/
theorem ProcessLink_ignored_witness :
    (IsValid (⟨15, 0⟩ : GridLink) = false ∨ (⟨15, 0⟩ : GridLink) ∈ lineFinder3.closedList) ∧
    ProcessLink lineVolume euclidSettings lineFinder3 ⟨15, 0⟩ = lineFinder3 ∧
    ((⟨0, 1⟩ : GridLink) ∈ lineFinder3.closedList) ∧
    ProcessLink lineVolume euclidSettings lineFinder3 ⟨0, 1⟩ = lineFinder3 :=
  ⟨Or.inl (by decide),
    ProcessLink_ignored lineVolume euclidSettings lineFinder3 ⟨15, 0⟩ (Or.inl (by decide)),
    by decide,
    ProcessLink_ignored lineVolume euclidSettings lineFinder3 ⟨0, 1⟩ (Or.inr (by decide))⟩

/-- C12 (relaxation rejection): for every bookkeeping state and every valid neighbour that
is not closed and has a g-score, if the tentative g-score is greater than or equal to that
g-score, `ProcessLink` leaves the predecessor map and the f-score map as they were and the
neighbour keeps its g-score; so its predecessor, g-score and f-score entries are unchanged,
also for an equal-cost alternative. -/
theorem ProcessLink_rejects (volume : SVONVolume Link) (settings : SVONPathFinderSettings)
    (pf : SVONPathFinder Link) (aNeighbour : Link) (gn : ℚ)
    (hv : IsValid aNeighbour = true) (hc : aNeighbour ∉ pf.closedList)
    (hn : mapFind pf.gScore aNeighbour = some gn)
    (hge : tentativeGScore volume settings pf aNeighbour ≥ gn) :
    (ProcessLink volume settings pf aNeighbour).cameFrom = pf.cameFrom ∧
    (ProcessLink volume settings pf aNeighbour).fScore = pf.fScore ∧
    mapFind (ProcessLink volume settings pf aNeighbour).gScore aNeighbour = some gn := by
  unfold tentativeGScore at hge
  cases hg : mapFind pf.gScore pf.current with
  | some gc =>
    rw [hg] at hge
    simp only at hge
    by_cases ho : aNeighbour ∈ pf.openList <;>
      simp [ProcessLink, hv, hc, ho, hg, hn, hge]
  | none =>
    rw [hg] at hge
    simp only at hge
    have hne : pf.current ≠ aNeighbour := by
      intro he
      rw [he, hn] at hg
      simp at hg
    have hn' : mapFind (mapInsert pf.gScore pf.current FLT_MAX) aNeighbour = some gn := by
      rw [mapInsert_of_none _ hg, mapFind_cons_ne _ _ hne, hn]
    by_cases ho : aNeighbour ∈ pf.openList <;>
      simp [ProcessLink, hv, hc, ho, hg, hn', hge]

/-- Witness of C12 in the diamond volume: voxel 3 was reached through voxel 1 with g-score
10; when voxel 2 is expanded the tentative g-score is again 10, and voxel 3 keeps the
predecessor voxel 1, the g-score 10 and the f-score 10. -/
theorem ProcessLink_rejects_witness :
    tentativeGScore diamondVolume euclidSettings diamondFinder3 ⟨0, 3⟩ = 10 ∧
    mapFind diamondFinder3.cameFrom ⟨0, 3⟩ = some ⟨0, 1⟩ ∧
    (ProcessLink diamondVolume euclidSettings diamondFinder3 ⟨0, 3⟩).cameFrom =
      diamondFinder3.cameFrom ∧
    (ProcessLink diamondVolume euclidSettings diamondFinder3 ⟨0, 3⟩).fScore =
      diamondFinder3.fScore ∧
    mapFind (ProcessLink diamondVolume euclidSettings diamondFinder3 ⟨0, 3⟩).gScore ⟨0, 3⟩ =
      some 10 :=
  ⟨by decide!, by decide,
    ProcessLink_rejects diamondVolume euclidSettings diamondFinder3 ⟨0, 3⟩ 10 (by decide)
      (by decide) (by decide!) (by decide!)⟩

lemma ProcessLink_relax_new (volume : SVONVolume Link) (settings : SVONPathFinderSettings)
    (pf : SVONPathFinder Link) (n : Link) (gc : ℚ)
    (hv : IsValid n = true) (hc : n ∉ pf.closedList)
    (hg : mapFind pf.gScore pf.current = some gc)
    (hcn : mapFind pf.cameFrom n = none) (hgn : mapFind pf.gScore n = none)
    (hfn : mapFind pf.fScore n = none)
    (hlt : gc + GetCost volume settings pf.current n < FLT_MAX) :
    mapFind (ProcessLink volume settings pf n).cameFrom n = some pf.current ∧
    mapFind (ProcessLink volume settings pf n).gScore n =
      some (gc + GetCost volume settings pf.current n) ∧
    mapFind (ProcessLink volume settings pf n).fScore n =
      some (gc + GetCost volume settings pf.current n +
        settings.estimateWeight * HeuristicScore volume settings n pf.goal) := by
  have ht : ¬ FLT_MAX ≤ gc + GetCost volume settings pf.current n := not_le.mpr hlt
  by_cases ho : n ∈ pf.openList <;>
    simp [ProcessLink, hv, hc, ho, hg, hgn, ht, mapInsert, hcn, hfn, mapFind]

/-- C11 (relaxation update), evaluated at a failing input.  In the search from voxel 0 to
voxel 4 of the line volume the third pass selects voxel 2 and reaches the bookkeeping
`lineFinder3` (from `lineFinder2`, the state after two passes).  Voxel 3 is valid and not closed, its g-score is 12 and the tentative g-score
through voxel 2 is 2, yet `ProcessLink` changes nothing: voxel 3 keeps the predecessor
voxel 1, the g-score 12 and the f-score 24. -/
theorem ProcessLink_keeps_first_entry :
    FindPath lineVolume euclidSettings freshFinder ⟨0, 0⟩ ⟨0, 4⟩ ⟨0, 0, 0⟩ ⟨10, 0, 0⟩ 1 [] 2 =
      .outOfFuel lineFinder2 ∧
    selectCurrent lineFinder2 = some lineFinder3 ∧
    IsValid (⟨0, 3⟩ : GridLink) = true ∧ (⟨0, 3⟩ : GridLink) ∉ lineFinder3.closedList ∧
    mapFind lineFinder3.gScore ⟨0, 3⟩ = some 12 ∧
    tentativeGScore lineVolume euclidSettings lineFinder3 ⟨0, 3⟩ = 2 ∧
    ProcessLink lineVolume euclidSettings lineFinder3 ⟨0, 3⟩ = lineFinder3 ∧
    mapFind (ProcessLink lineVolume euclidSettings lineFinder3 ⟨0, 3⟩).cameFrom ⟨0, 3⟩ =
      some ⟨0, 1⟩ := by
  refine ⟨by decide!, by decide!, by decide, by decide, by decide, by decide!,
    by decide!, by decide!⟩

/-! ## The reset at entry -/

lemma initSearch_eq (volume : SVONVolume Link) (settings : SVONPathFinderSettings)
    (prior : SVONPathFinder Link) (aStart aTarget : Link) :
    initSearch volume settings prior aStart aTarget =
      seedStart volume settings (resetBookkeeping prior aStart aTarget) aStart := by
  simp [initSearch, seedStart, resetBookkeeping]

/-- C15 (no cross-call state): the bookkeeping after lines 14-26 does not depend on the
bookkeeping before the call, and `FindPath` called with the same arguments, volume and
settings from any two prior bookkeeping states gives the same result: the same success flag,
the same bookkeeping at the end, the same points and the same pass count. -/
theorem FindPath_prior_irrelevant (volume : SVONVolume Link)
    (settings : SVONPathFinderSettings) (prior₁ prior₂ : SVONPathFinder Link)
    (aStart aTarget : Link) (aStartPos aTargetPos : FloatVector) (agentSize : ℚ)
    (oPoints : List SVONPathPoint) (fuel : Nat) :
    seedStart volume settings (resetBookkeeping prior₁ aStart aTarget) aStart =
      seedStart volume settings (resetBookkeeping prior₂ aStart aTarget) aStart ∧
    FindPath volume settings prior₁ aStart aTarget aStartPos aTargetPos agentSize oPoints fuel =
      FindPath volume settings prior₂ aStart aTarget aStartPos aTargetPos agentSize oPoints
        fuel := by
  constructor
  · simp [seedStart, resetBookkeeping]
  · unfold FindPath
    rw [initSearch_eq, initSearch_eq]
    simp [seedStart, resetBookkeeping]

/-! ## Scaling of cost and heuristic -/

lemma GetCost_withCompensation (volume : SVONVolume Link) (settings : SVONPathFinderSettings)
    (c : ℚ) (a b : Link) :
    GetCost volume (withCompensation settings c) a b =
      GetCost volume (withCompensation settings 1) a b * c := by
  simp only [GetCost, compensation, withCompensation]
  ring

lemma HeuristicScore_withCompensation (volume : SVONVolume Link)
    (settings : SVONPathFinderSettings) (c : ℚ) (a b : Link) :
    HeuristicScore volume (withCompensation settings c) a b =
      HeuristicScore volume (withCompensation settings 1) a b * c := by
  simp only [HeuristicScore, compensation, withCompensation]
  ring

lemma mul_lt_mul_iff_pos_left {u c₁ c₂ : ℚ} (hc : c₁ < c₂) : u * c₁ < u * c₂ ↔ 0 < u := by
  constructor
  · intro h
    by_contra hu
    have hu' : u ≤ 0 := not_lt.mp hu
    have : u * c₂ ≤ u * c₁ := mul_le_mul_of_nonpos_left (le_of_lt hc) hu'
    exact absurd h (not_lt.mpr this)
  · intro hu
    exact mul_lt_mul_of_pos_left hc hu

/-- Without rounding (the exact functions `GetCost` and `HeuristicScore`): for every two
addresses and every two values `c₁ < c₂` of `nodeSizeCompensation`, each of the two is
proportional to `nodeSizeCompensation` and is strictly larger under `c₂` than under `c₁`
exactly when its value at `nodeSizeCompensation = 1` is positive.  With the rounding of
`float` arithmetic neither holds (`compensation_scaling_counterexample`). -/
lemma exact_scores_scale_with_compensation (volume : SVONVolume Link)
    (settings : SVONPathFinderSettings) (c₁ c₂ : ℚ) (a b : Link)
    (hc : c₁ < c₂) :
    GetCost volume (withCompensation settings c₂) a b * c₁ =
      GetCost volume (withCompensation settings c₁) a b * c₂ ∧
    HeuristicScore volume (withCompensation settings c₂) a b * c₁ =
      HeuristicScore volume (withCompensation settings c₁) a b * c₂ ∧
    (GetCost volume (withCompensation settings c₁) a b <
        GetCost volume (withCompensation settings c₂) a b ↔
      0 < GetCost volume (withCompensation settings 1) a b) ∧
    (HeuristicScore volume (withCompensation settings c₁) a b <
        HeuristicScore volume (withCompensation settings c₂) a b ↔
      0 < HeuristicScore volume (withCompensation settings 1) a b) := by
  rw [GetCost_withCompensation volume settings c₁, GetCost_withCompensation volume settings c₂,
    HeuristicScore_withCompensation volume settings c₁,
    HeuristicScore_withCompensation volume settings c₂]
  refine ⟨by ring, by ring, mul_lt_mul_iff_pos_left hc, mul_lt_mul_iff_pos_left hc⟩

/-! ### With the rounding of single precision -/

lemma FloatVector.Size_nonneg (v : FloatVector) : 0 ≤ v.Size := by
  unfold FloatVector.Size
  exact Rat.sqrt_nonneg _

lemma exactArith_lawful : exactArith.Lawful :=
  ⟨fun _ _ hxy => hxy, rfl, rfl, FloatVector.Size_nonneg⟩

lemma GetCost_exactArith (volume : SVONVolume Link) (settings : SVONPathFinderSettings)
    (a b : Link) :
    Rounded.GetCost exactArith volume settings a b = GetCost volume settings a b := rfl

lemma HeuristicScore_exactArith (volume : SVONVolume Link)
    (settings : SVONPathFinderSettings) (a b : Link) :
    Rounded.HeuristicScore exactArith volume settings a b =
      HeuristicScore volume settings a b := by
  unfold Rounded.HeuristicScore HeuristicScore
  cases settings.pathCostType <;> rfl

lemma selectLowest_first (fScore : List (Link × ℚ)) :
    ∀ (l : List Link) (i : Nat) (acc : Selection Link),
      (selectLowest fScore l i acc = acc ∧
        ∀ y ∈ l, ∀ fy, mapFind fScore y = some fy → acc.lowestScore ≤ fy) ∨
      ∃ j, (selectLowest fScore l i acc).currentIt = some (i + j) ∧
        l[j]? = some (selectLowest fScore l i acc).current ∧
        mapFind fScore (selectLowest fScore l i acc).current =
          some (selectLowest fScore l i acc).lowestScore ∧
        (selectLowest fScore l i acc).lowestScore < acc.lowestScore ∧
        (∀ k, k < j → ∀ y fy, l[k]? = some y → mapFind fScore y = some fy →
          (selectLowest fScore l i acc).lowestScore < fy) ∧
        ∀ y ∈ l, ∀ fy, mapFind fScore y = some fy →
          (selectLowest fScore l i acc).lowestScore ≤ fy := by
  intro l
  induction l with
  | nil => intro i acc; left; simp [selectLowest]
  | cons link rest ih =>
    intro i acc
    by_cases htake : ∃ f, mapFind fScore link = some f ∧ f < acc.lowestScore
    · obtain ⟨f, hf, hlt⟩ := htake
      have hs : selectLowest fScore (link :: rest) i acc =
          selectLowest fScore rest (i + 1) ⟨f, link, some i⟩ := by
        simp [selectLowest, hf, hlt]
      rw [hs]
      right
      rcases ih (i + 1) ⟨f, link, some i⟩ with ⟨h1, hall⟩ | ⟨j, hit, hget, hfind, hlt', hfirst, hall⟩
      · rw [h1]
        refine ⟨0, rfl, by simp, hf, hlt, fun k hk => absurd hk (Nat.not_lt_zero k), ?_⟩
        intro y hy fy hfy
        rcases List.mem_cons.mp hy with rfl | hy
        · rw [hf] at hfy
          cases hfy
          exact le_refl _
        · exact hall y hy fy hfy
      · refine ⟨j + 1, by rw [hit]; congr 1; omega, by simpa using hget, hfind,
          lt_trans hlt' hlt, ?_, ?_⟩
        · intro k hk y fy hy hfy
          cases k with
          | zero =>
            simp at hy
            subst hy
            rw [hf] at hfy
            cases hfy
            exact hlt'
          | succ k' =>
            simp at hy
            exact hfirst k' (by omega) y fy hy hfy
        · intro y hy fy hfy
          rcases List.mem_cons.mp hy with rfl | hy
          · rw [hf] at hfy
            cases hfy
            exact le_of_lt hlt'
          · exact hall y hy fy hfy
    · have hskip : ∀ fy, mapFind fScore link = some fy → acc.lowestScore ≤ fy := by
        intro fy hfy
        by_contra hlt
        exact htake ⟨fy, hfy, not_le.mp hlt⟩
      have hs : selectLowest fScore (link :: rest) i acc =
          selectLowest fScore rest (i + 1) acc := by
        cases hf : mapFind fScore link with
        | none => simp [selectLowest, hf]
        | some f =>
          have : ¬ f < acc.lowestScore := not_lt.mpr (hskip f hf)
          simp [selectLowest, hf, this]
      rw [hs]
      rcases ih (i + 1) acc with ⟨h1, hall⟩ | ⟨j, hit, hget, hfind, hlt', hfirst, hall⟩
      · left
        refine ⟨h1, ?_⟩
        intro y hy fy hfy
        rcases List.mem_cons.mp hy with rfl | hy
        · exact hskip fy hfy
        · exact hall y hy fy hfy
      · right
        refine ⟨j + 1, by rw [hit]; congr 1; omega, by simpa using hget, hfind, hlt', ?_, ?_⟩
        · intro k hk y fy hy hfy
          cases k with
          | zero =>
            simp at hy
            subst hy
            exact lt_of_lt_of_le hlt' (hskip fy hfy)
          | succ k' =>
            simp at hy
            exact hfirst k' (by omega) y fy hy hfy
        · intro y hy fy hfy
          rcases List.mem_cons.mp hy with rfl | hy
          · exact le_of_lt (lt_of_lt_of_le hlt' (hskip fy hfy))
          · exact hall y hy fy hfy

/-- C16 (frontier selection): in every bookkeeping state in which some frontier member has
an f-score entry below `FLT_MAX`, lines 32-54 choose as `current` a frontier member that
has an f-score entry, whose f-score is below `FLT_MAX` and less than or equal to that of
every frontier member with an entry, and every member before it in frontier order that has
an entry has a strictly larger f-score; the chosen position is erased from the frontier and
the address is pushed on the closed list. -/
theorem selectCurrent_lowest_first (pf : SVONPathFinder Link) (x : Link) (fx : ℚ)
    (hx : x ∈ pf.openList) (hfx : mapFind pf.fScore x = some fx) (hlt : fx < FLT_MAX) :
    ∃ (pf1 : SVONPathFinder Link) (i : Nat) (f : ℚ),
      selectCurrent pf = some pf1 ∧
      pf.openList[i]? = some pf1.current ∧
      mapFind pf.fScore pf1.current = some f ∧ f < FLT_MAX ∧
      (∀ y ∈ pf.openList, ∀ fy, mapFind pf.fScore y = some fy → f ≤ fy) ∧
      (∀ k, k < i → ∀ y fy, pf.openList[k]? = some y → mapFind pf.fScore y = some fy →
        f < fy) ∧
      pf1.openList = pf.openList.eraseIdx i ∧
      pf1.closedList = pf.closedList ++ [pf1.current] := by
  unfold selectCurrent
  rcases selectLowest_first pf.fScore pf.openList 0 ⟨FLT_MAX, pf.current, none⟩ with
    ⟨_, hall⟩ | ⟨j, hit, hget, hfind, hlt', hfirst, hall⟩
  · exact absurd (lt_of_le_of_lt (hall x hx fx hfx) hlt) (lt_irrefl _)
  · generalize selectLowest pf.fScore pf.openList 0 ⟨FLT_MAX, pf.current, none⟩ = sel at *
    simp only [Nat.zero_add] at hit
    simp only [hit]
    exact ⟨_, j, sel.lowestScore, rfl, hget, hfind, hlt', hall, hfirst, rfl, rfl⟩

/-- Witness of C16 in the diamond volume: after two passes the frontier holds voxels 2 and 3,
both with f-score 10; the scan chooses voxel 2, the earlier one. -/
theorem selectCurrent_lowest_first_witness :
    diamondFinder2.openList = [⟨0, 2⟩, ⟨0, 3⟩] ∧
    mapFind diamondFinder2.fScore ⟨0, 2⟩ = some 10 ∧
    mapFind diamondFinder2.fScore ⟨0, 3⟩ = some 10 ∧
    selectCurrent diamondFinder2 = some diamondFinder3 ∧
    ∃ (pf1 : SVONPathFinder GridLink) (i : Nat) (f : ℚ),
      selectCurrent diamondFinder2 = some pf1 ∧
      diamondFinder2.openList[i]? = some pf1.current ∧
      mapFind diamondFinder2.fScore pf1.current = some f ∧ f < FLT_MAX ∧
      (∀ y ∈ diamondFinder2.openList, ∀ fy, mapFind diamondFinder2.fScore y = some fy →
        f ≤ fy) ∧
      (∀ k, k < i → ∀ y fy, diamondFinder2.openList[k]? = some y →
        mapFind diamondFinder2.fScore y = some fy → f < fy) ∧
      pf1.openList = diamondFinder2.openList.eraseIdx i ∧
      pf1.closedList = diamondFinder2.closedList ++ [pf1.current] :=
  ⟨rfl, by decide, by decide, by decide!,
    selectCurrent_lowest_first diamondFinder2 ⟨0, 3⟩ 10 (by decide) (by decide) (by decide!)⟩

/-! ## The predecessor chain during a run -/

lemma Inv.target_chain {volume : SVONVolume Link} {settings : SVONPathFinderSettings}
    {agentSize : ℚ} {aStart aTarget : Link} {pf : SVONPathFinder Link}
    (h : Inv volume settings agentSize aStart aTarget pf) {x : Link}
    (hx : x ∈ pf.closedList) :
    ∃ chain, PredPath volume agentSize pf.cameFrom aStart chain x ∧
      (∀ y ∈ chain, y ∈ pf.closedList) ∧
      mapFind pf.gScore x = some (pathCost volume settings chain) := by
  obtain ⟨p, hp⟩ := Option.isSome_iff_exists.mp (h.closed_dom x hx)
  obtain ⟨l, hl, hcl, hg⟩ := h.chain x p hp
  refine ⟨l, hl, ?_, hg⟩
  intro y hy
  by_cases hyx : y = x
  · rw [hyx]; exact hx
  · exact hcl y hy hyx

lemma mainLoop_true_call {volume : SVONVolume Link} {settings : SVONPathFinderSettings}
    {agentSize : ℚ} {aStartPos aTargetPos : FloatVector} {oPoints : List SVONPathPoint} :
    ∀ (fuel : Nat) (pf0 : SVONPathFinder Link) (i : Nat)
      (pf : SVONPathFinder Link) (pts : List SVONPathPoint) (n : Nat),
      mainLoop volume settings aStartPos aTargetPos agentSize oPoints fuel pf0 i =
        .returned true pf pts n →
      i ≤ n ∧ ∃ pfh,
        mainLoop volume settings aStartPos aTargetPos agentSize oPoints (n - i) pf0 i =
          .outOfFuel pfh ∧
        pfh.openList.length > 0 ∧
        selectCurrent pfh = some pf ∧ pf.current = pf.goal ∧
        iteration volume settings aStartPos aTargetPos agentSize oPoints pfh =
          .reached pf (some pts) := by
  intro fuel
  induction fuel with
  | zero =>
    intro pf0 i pf pts n h
    unfold mainLoop at h
    by_cases ho : pf0.openList.length > 0
    · simp [ho] at h
    · simp [ho] at h
  | succ f ih =>
    intro pf0 i pf pts n h
    unfold mainLoop at h
    by_cases ho : pf0.openList.length > 0
    swap
    · simp [ho] at h
    rw [if_pos ho] at h
    cases hit : iteration volume settings aStartPos aTargetPos agentSize oPoints pf0 with
    | stuck pf1 => simp [hit] at h
    | reached pf1 opts =>
      cases opts with
      | none => simp [hit] at h
      | some points =>
        simp only [hit] at h
        injection h with _ h1 h2 h3
        subst h1 h2 h3
        refine ⟨le_rfl, pf0, ?_, ho, ?_, ?_, hit⟩
        · rw [Nat.sub_self]
          unfold mainLoop
          simp [ho]
        · unfold iteration at hit
          cases hs : selectCurrent pf0 with
          | none => simp [hs] at hit
          | some pf2 =>
            simp only [hs] at hit
            split_ifs at hit with hg
            injection hit with h1 _
            rw [h1]
        · unfold iteration at hit
          cases hs : selectCurrent pf0 with
          | none => simp [hs] at hit
          | some pf2 =>
            simp only [hs] at hit
            split_ifs at hit with hg
            injection hit with h1 _
            rw [← h1]
            exact hg
    | next pf1 =>
      simp only [hit] at h
      obtain ⟨hle, pfh, hm, hrest⟩ := ih pf1 (i + 1) pf pts n h
      refine ⟨by omega, pfh, ?_, hrest⟩
      have hn : n - i = (n - (i + 1)) + 1 := by omega
      rw [hn]
      unfold mainLoop
      rw [if_pos ho]
      simp only [hit]
      exact hm

lemma run_states_inv (volume : SVONVolume Link) (settings : SVONPathFinderSettings)
    (prior : SVONPathFinder Link) (aStart aTarget : Link)
    (aStartPos aTargetPos : FloatVector) (agentSize : ℚ) (oPoints : List SVONPathPoint)
    (fuel : Nat) :
    Inv volume settings agentSize aStart aTarget
      (FindPath volume settings prior aStart aTarget aStartPos aTargetPos agentSize oPoints
        fuel).finder ∧
    ∀ pf1, selectCurrent (FindPath volume settings prior aStart aTarget aStartPos aTargetPos
        agentSize oPoints fuel).finder = some pf1 →
      ∀ ns, ns <+: neighboursOf volume agentSize pf1.current →
        Inv volume settings agentSize aStart aTarget
          (ns.foldl (ProcessLink volume settings) pf1) ∧
        (ns.foldl (ProcessLink volume settings) pf1).current = pf1.current ∧
        pf1.current ∈ (ns.foldl (ProcessLink volume settings) pf1).closedList := by
  have hinv := (FindPath_post volume settings prior aStart aTarget aStartPos aTargetPos
    agentSize oPoints fuel).inv
  refine ⟨hinv, ?_⟩
  intro pf1 hs ns hns
  obtain ⟨hinv1, _, hclosed1, _⟩ := selectCurrent_inv hinv hs
  have hcur1 : pf1.current ∈ pf1.closedList := by rw [hclosed1]; simp
  obtain ⟨i1, i2, i3, _, _⟩ := foldl_ProcessLink_inv ns pf1 hinv1 hcur1
    (fun n hn => hns.subset hn)
  exact ⟨i1, i3, by rw [i2]; exact hcur1⟩

/-- C17 (reconstruction ends at the start): in every bookkeeping state of a run of
`FindPath` (at line 30, at its end, after a selection and while the neighbours of the
selected address are processed; a run cut off after `fuel` passes shows the state at
line 30 at that moment) the predecessor map maps the start to itself, whether the run
succeeds or not.  Whenever a pass selects the goal (line 56), so that line 58 calls
`BuildPath` with the predecessor map of that moment, there is a sequence of addresses from
the start to the target, without repetition, in which each address is the predecessor of
the next, with at most as many addresses as the closed list holds; the walk of `BuildPath`
from the target returns, for every fuel that is at least the length of the sequence, with
exactly these addresses (target first, start last, where it stops), so `BuildPath` returns
its points and the pass ends in `return true`.  Every run that returns true made its call
of `BuildPath` in such a state: the one selected from the state at line 30 after
`numInterations` passes. -/
theorem BuildPath_walk_ends_at_start (volume : SVONVolume Link)
    (settings : SVONPathFinderSettings) (prior : SVONPathFinder Link) (aStart aTarget : Link)
    (aStartPos aTargetPos : FloatVector) (agentSize : ℚ) (oPoints : List SVONPathPoint)
    (fuel : Nat) :
    mapFind (FindPath volume settings prior aStart aTarget aStartPos aTargetPos agentSize
      oPoints fuel).finder.cameFrom aStart = some aStart ∧
    (∀ pf1, selectCurrent (FindPath volume settings prior aStart aTarget aStartPos aTargetPos
        agentSize oPoints fuel).finder = some pf1 →
      (∀ ns, ns <+: neighboursOf volume agentSize pf1.current →
        mapFind (ns.foldl (ProcessLink volume settings) pf1).cameFrom aStart = some aStart) ∧
      (pf1.current = pf1.goal →
        ∃ chain : List Link,
          chain.Nodup ∧ chain.head? = some aStart ∧ chain.getLast? = some aTarget ∧
          List.Chain' (fun a b => mapFind pf1.cameFrom b = some a) chain ∧
          chain.length ≤ pf1.closedList.length ∧
          chain.length ≤ pf1.cameFrom.length ∧
          (∀ k, chain.length ≤ k → walkLinks pf1.cameFrom k aTarget = some chain.reverse) ∧
          BuildPath volume pf1.start pf1.cameFrom pf1.current aStartPos aTargetPos oPoints
              pf1.cameFrom.length =
            some (finishPath aStart aStartPos aTargetPos
              (chain.reverse.foldl (AddPathPoint volume) oPoints)) ∧
          iteration volume settings aStartPos aTargetPos agentSize oPoints
              (FindPath volume settings prior aStart aTarget aStartPos aTargetPos agentSize
                oPoints fuel).finder =
            .reached pf1 (some (finishPath aStart aStartPos aTargetPos
              (chain.reverse.foldl (AddPathPoint volume) oPoints))))) ∧
    ∀ pf pts n, FindPath volume settings prior aStart aTarget aStartPos aTargetPos agentSize
        oPoints fuel = .returned true pf pts n →
      selectCurrent (FindPath volume settings prior aStart aTarget aStartPos aTargetPos
        agentSize oPoints n).finder = some pf ∧ pf.current = pf.goal := by
  obtain ⟨h1, h2⟩ := run_states_inv volume settings prior aStart aTarget aStartPos aTargetPos
    agentSize oPoints fuel
  refine ⟨h1.came_start, ?_, ?_⟩
  · intro pf1 hs
    refine ⟨fun ns hns => (h2 pf1 hs ns hns).1.came_start, ?_⟩
    intro hgoal
    obtain ⟨hinv1, _, hclosed1, _⟩ := selectCurrent_inv h1 hs
    have hcur : pf1.current = aTarget := by rw [hgoal, hinv1.goal_eq]
    have hmem : aTarget ∈ pf1.closedList := by rw [hclosed1, hcur]; simp
    obtain ⟨chain, hchain, hclosed, _⟩ := hinv1.target_chain hmem
    have hlen := chain_length_le hinv1.came_start hchain
    have hwalk := hchain.walk hinv1.came_start
    have hbuild : BuildPath volume pf1.start pf1.cameFrom pf1.current aStartPos aTargetPos
        oPoints pf1.cameFrom.length =
        some (finishPath aStart aStartPos aTargetPos
          (chain.reverse.foldl (AddPathPoint volume) oPoints)) := by
      rw [hcur, hinv1.start_eq]
      simp [BuildPath, hwalk _ hlen]
    refine ⟨chain, hchain.nodup, hchain.head, hchain.getLast, hchain.predChain,
      (hchain.nodup.subperm (fun y hy => hclosed y hy)).length_le, hlen, hwalk, hbuild, ?_⟩
    unfold iteration
    simp only [hs]
    rw [if_pos hgoal, hbuild]
  · intro pf pts n h
    obtain ⟨_, pfh, hm, _, hs, hg, _⟩ := mainLoop_true_call fuel _ 0 pf pts n h
    have hF : FindPath volume settings prior aStart aTarget aStartPos aTargetPos agentSize
        oPoints n = .outOfFuel pfh := hm
    rw [hF]
    exact ⟨hs, hg⟩

/-- Witness of C17 in the line volume, for the search from voxel 0 to voxel 4: the fifth
pass selects voxel 4, the goal, and the walk from it returns. -/
theorem BuildPath_walk_ends_at_start_witness :
    ∃ pf1 : SVONPathFinder GridLink,
      selectCurrent (FindPath lineVolume euclidSettings freshFinder ⟨0, 0⟩ ⟨0, 4⟩ ⟨0, 0, 0⟩
        ⟨10, 0, 0⟩ 1 [] 4).finder = some pf1 ∧
      pf1.current = pf1.goal ∧
      ∃ chain : List GridLink,
        chain.Nodup ∧ chain.head? = some ⟨0, 0⟩ ∧ chain.getLast? = some ⟨0, 4⟩ ∧
        List.Chain' (fun a b => mapFind pf1.cameFrom b = some a) chain ∧
        chain.length ≤ pf1.closedList.length ∧
        chain.length ≤ pf1.cameFrom.length ∧
        (∀ k, chain.length ≤ k → walkLinks pf1.cameFrom k ⟨0, 4⟩ = some chain.reverse) ∧
        BuildPath lineVolume pf1.start pf1.cameFrom pf1.current ⟨0, 0, 0⟩ ⟨10, 0, 0⟩ []
            pf1.cameFrom.length =
          some (finishPath (⟨0, 0⟩ : GridLink) ⟨0, 0, 0⟩ ⟨10, 0, 0⟩
            (chain.reverse.foldl (AddPathPoint lineVolume) [])) ∧
        iteration lineVolume euclidSettings ⟨0, 0, 0⟩ ⟨10, 0, 0⟩ 1 []
            (FindPath lineVolume euclidSettings freshFinder ⟨0, 0⟩ ⟨0, 4⟩ ⟨0, 0, 0⟩
              ⟨10, 0, 0⟩ 1 [] 4).finder =
          .reached pf1 (some (finishPath (⟨0, 0⟩ : GridLink) ⟨0, 0, 0⟩ ⟨10, 0, 0⟩
            (chain.reverse.foldl (AddPathPoint lineVolume) []))) :=
  have hs : selectCurrent (FindPath lineVolume euclidSettings freshFinder ⟨0, 0⟩ ⟨0, 4⟩
      ⟨0, 0, 0⟩ ⟨10, 0, 0⟩ 1 [] 4).finder = some
        { openList := [], closedList := [⟨0, 0⟩, ⟨0, 1⟩, ⟨0, 2⟩, ⟨0, 3⟩, ⟨0, 4⟩],
          cameFrom := [(⟨0, 4⟩, ⟨0, 3⟩), (⟨0, 3⟩, ⟨0, 1⟩), (⟨0, 2⟩, ⟨0, 0⟩), (⟨0, 1⟩, ⟨0, 0⟩),
            (⟨0, 0⟩, ⟨0, 0⟩)],
          fScore := [(⟨0, 4⟩, 24), (⟨0, 3⟩, 24), (⟨0, 2⟩, 12), (⟨0, 1⟩, 10), (⟨0, 0⟩, 10)],
          gScore := [(⟨0, 4⟩, 24), (⟨0, 3⟩, 12), (⟨0, 2⟩, 1), (⟨0, 1⟩, 5), (⟨0, 0⟩, 0)],
          current := ⟨0, 4⟩, goal := ⟨0, 4⟩, start := ⟨0, 0⟩ } := by
    decide!
  ⟨_, hs, rfl, ((BuildPath_walk_ends_at_start lineVolume euclidSettings freshFinder ⟨0, 0⟩
    ⟨0, 4⟩ ⟨0, 0, 0⟩ ⟨10, 0, 0⟩ 1 [] 4).2.1 _ hs).2 rfl⟩

lemma tentative_mem_scores (volume : SVONVolume Link) (settings : SVONPathFinderSettings)
    (pf : SVONPathFinder Link) (n : Link) {gc : ℚ}
    (hv : IsValid n = true) (hc : n ∉ pf.closedList)
    (hg : mapFind pf.gScore pf.current = some gc) :
    gc + GetCost volume settings pf.current n ∈ ProcessLinkScores volume settings pf n := by
  unfold ProcessLinkScores tentativeGScore
  simp only [hv, hc, hg, if_true, if_false]
  split_ifs <;> simp

lemma newFScore_mem_scores (volume : SVONVolume Link) (settings : SVONPathFinderSettings)
    (pf : SVONPathFinder Link) (n : Link) {gc : ℚ}
    (hv : IsValid n = true) (hc : n ∉ pf.closedList)
    (hg : mapFind pf.gScore pf.current = some gc) (hgn : mapFind pf.gScore n = none)
    (hlt : gc + GetCost volume settings pf.current n < FLT_MAX) :
    gc + GetCost volume settings pf.current n +
        settings.estimateWeight * HeuristicScore volume settings n pf.goal ∈
      ProcessLinkScores volume settings pf n := by
  unfold ProcessLinkScores tentativeGScore
  have ht : ¬ FLT_MAX ≤ gc + GetCost volume settings pf.current n := not_le.mpr hlt
  simp [hv, hc, hg, hgn, ht]

lemma ProcessLink_scored_of_scores {volume : SVONVolume Link}
    {settings : SVONPathFinderSettings} {agentSize : ℚ} {aStart aTarget : Link}
    {pf : SVONPathFinder Link} {n : Link}
    (h : Inv volume settings agentSize aStart aTarget pf)
    (hcur : pf.current ∈ pf.closedList)
    (hsc : FrontierScored pf)
    (hs : ∀ s ∈ ProcessLinkScores volume settings pf n, s < FLT_MAX) :
    FrontierScored (ProcessLink volume settings pf n) := by
  obtain ⟨gc, hg⟩ := h.current_g hcur
  rcases ProcessLink_cases volume settings pf n hg h.dom_g h.dom_f with
    ⟨he, _⟩ | ⟨hv, hc, he, hor⟩ | ⟨hv, hc, hcn, hgn, hfn, hlt, he⟩
  · rw [he]; exact hsc
  · rw [he]
    intro x hx
    change x ∈ pushOpen pf n at hx
    show ∃ f, mapFind pf.fScore x = some f ∧ f < FLT_MAX
    rcases (mem_pushOpen pf n x).mp hx with hx | rfl
    · exact hsc x hx
    · by_cases ho : x ∈ pf.openList
      · exact hsc x ho
      · exfalso
        rcases hor with hsome | hge
        · rcases h.dom_sub x hsome with h' | h'
          · exact ho h'
          · exact hc h'
        · have := hs _ (tentative_mem_scores volume settings pf x hv hc hg)
          exact absurd (lt_of_le_of_lt hge this) (lt_irrefl _)
  · rw [he]
    intro x hx
    change x ∈ pushOpen pf n at hx
    show ∃ f, mapFind ((n, _) :: pf.fScore) x = some f ∧ f < FLT_MAX
    by_cases hnx : n = x
    · subst hnx
      rw [mapFind_cons_self]
      exact ⟨_, rfl, hs _ (newFScore_mem_scores volume settings pf n hv hc hg hgn hlt)⟩
    · rw [mapFind_cons_ne _ _ hnx]
      rcases (mem_pushOpen pf n x).mp hx with hx | rfl
      · exact hsc x hx
      · exact absurd rfl hnx

lemma foldl_ProcessLink_scored_of_scores {volume : SVONVolume Link}
    {settings : SVONPathFinderSettings} {agentSize : ℚ} {aStart aTarget : Link}
    (ns : List Link) :
    ∀ pf : SVONPathFinder Link, Inv volume settings agentSize aStart aTarget pf →
      pf.current ∈ pf.closedList →
      (∀ n ∈ ns, n ∈ neighboursOf volume agentSize pf.current) →
      FrontierScored pf →
      (∀ s ∈ passScores volume settings ns pf, s < FLT_MAX) →
      FrontierScored (ns.foldl (ProcessLink volume settings) pf) := by
  induction ns with
  | nil => intro pf _ _ _ hsc _; exact hsc
  | cons n rest ih =>
    intro pf h hcur hns hsc hs
    obtain ⟨hcl, hcu, _, _⟩ := ProcessLink_frame volume settings pf n
    have hn := hns n (List.mem_cons_self _ _)
    simp only [passScores, List.mem_append] at hs
    simp only [List.foldl_cons]
    apply ih _ (ProcessLink_inv h hcur hn)
    · rw [hcl, hcu]; exact hcur
    · intro m hm
      rw [hcu]
      exact hns m (List.mem_cons_of_mem _ hm)
    · exact ProcessLink_scored_of_scores h hcur hsc (fun s hs' => hs s (Or.inl hs'))
    · exact fun s hs' => hs s (Or.inr hs')

lemma runScores_mono (volume : SVONVolume Link) (settings : SVONPathFinderSettings)
    (agentSize : ℚ) :
    ∀ (k fuel : Nat) (pf : SVONPathFinder Link), k ≤ fuel →
      ∀ s ∈ runScores volume settings agentSize k pf,
        s ∈ runScores volume settings agentSize fuel pf := by
  intro k
  induction k with
  | zero => intro fuel pf _ s hs; simp [runScores] at hs
  | succ k ih =>
    intro fuel pf hle s hs
    cases fuel with
    | zero => omega
    | succ f =>
      unfold runScores at hs ⊢
      by_cases ho : pf.openList.length > 0
      swap
      · rw [if_neg ho] at hs; simp at hs
      rw [if_pos ho] at hs ⊢
      cases hsel : selectCurrent pf with
      | none => rw [hsel] at hs; simp at hs
      | some pf1 =>
        rw [hsel] at hs
        simp only at hs ⊢
        by_cases hgoal : pf1.current = pf1.goal
        · rw [if_pos hgoal] at hs; simp at hs
        · rw [if_neg hgoal] at hs ⊢
          rcases List.mem_append.mp hs with hs | hs
          · exact List.mem_append.mpr (Or.inl hs)
          · exact List.mem_append.mpr (Or.inr (ih f _ (by omega) s hs))

lemma mainLoop_scored {volume : SVONVolume Link} {settings : SVONPathFinderSettings}
    {agentSize : ℚ} {aStart aTarget : Link} (aStartPos aTargetPos : FloatVector)
    (oPoints : List SVONPathPoint) :
    ∀ (fuel : Nat) (pf : SVONPathFinder Link) (num : Nat),
      HeadInv volume settings agentSize aStart aTarget pf → FrontierScored pf →
      (∀ s ∈ runScores volume settings agentSize fuel pf, s < FLT_MAX) →
      (∀ pf', mainLoop volume settings aStartPos aTargetPos agentSize oPoints fuel pf num ≠
        .eraseEnd pf') ∧
      FrontierScored
        (mainLoop volume settings aStartPos aTargetPos agentSize oPoints fuel pf num).finder := by
  intro fuel
  induction fuel with
  | zero =>
    intro pf num _ hsc _
    unfold mainLoop
    by_cases ho : pf.openList.length > 0
    · simp [ho, FindPathResult.finder, hsc]
    · simp [ho, FindPathResult.finder, hsc]
  | succ k ih =>
    intro pf num hh hsc hs
    unfold mainLoop
    by_cases ho : pf.openList.length > 0
    swap
    · simp [ho, FindPathResult.finder, hsc]
    rw [if_pos ho]
    have hne : pf.openList ≠ [] := fun h => by simp [h] at ho
    cases hit : iteration volume settings aStartPos aTargetPos agentSize oPoints pf with
    | stuck pf1 =>
      exfalso
      obtain ⟨_, hsel⟩ := iteration_stuck hit
      obtain ⟨x, hx⟩ := List.exists_mem_of_ne_nil _ hne
      obtain ⟨f, hf, hlt⟩ := hsc x hx
      obtain ⟨pf2, hpf2⟩ := selectCurrent_isSome hx hf hlt
      rw [hsel] at hpf2
      simp at hpf2
    | reached pf1 pts =>
      obtain ⟨_, _, hsel, _, chain, _, _, hpts⟩ := iteration_reached hh.inv hit
      subst hpts
      obtain ⟨_, _, _, hopen1, _, _, hf1⟩ := selectCurrent_inv hh.inv hsel
      have hsc1 : FrontierScored pf1 := by
        intro x hx
        rw [hf1]
        exact hsc x ((hopen1 x).mp hx).1
      simp [FindPathResult.finder, hsc1]
    | next pf1 =>
      obtain ⟨hh1, _, pf2, hsel, hgoal, hpf1⟩ := iteration_next hh hit
      obtain ⟨hinv2, _, hclosed2, hopen2, _, _, hf2⟩ := selectCurrent_inv hh.inv hsel
      have hgoal' : ¬ pf2.current = pf2.goal := by rw [hinv2.goal_eq]; exact hgoal
      have hs' : ∀ s, s ∈ passScores volume settings (neighboursOf volume agentSize pf2.current)
          pf2 ∨ s ∈ runScores volume settings agentSize k pf1 → s < FLT_MAX := by
        intro s hs'
        apply hs
        unfold runScores
        rw [if_pos ho, hsel]
        simp only [if_neg hgoal']
        rw [← hpf1]
        exact List.mem_append.mpr hs'
      have hsc2 : FrontierScored pf2 := by
        intro x hx
        rw [hf2]
        exact hsc x ((hopen2 x).mp hx).1
      have hsc1 : FrontierScored pf1 := by
        rw [hpf1]
        exact foldl_ProcessLink_scored_of_scores _ pf2 hinv2 (by rw [hclosed2]; simp)
          (fun n hn => hn) hsc2 (fun s hs'' => hs' s (Or.inl hs''))
      exact ih pf1 (num + 1) hh1 hsc1 (fun s hs'' => hs' s (Or.inr hs''))

/-- C19 (selection never comes up empty): provided `HeuristicScore(start, goal)` and every
tentative g-score and new f-score computed in the first `fuel` passes of the main loop are
below `FLT_MAX`, then after any `k ≤ fuel` passes: the run has not reached the erase of the
end iterator; every frontier address has a g-score entry and an f-score entry below
`FLT_MAX`; if the loop is still running, the next scan selects a frontier member; and while
the neighbours of a selected address are processed, `current` has a g-score, so the branch
that records `FLT_MAX` for it is not taken. -/
theorem FindPath_selection_never_empty (volume : SVONVolume Link)
    (settings : SVONPathFinderSettings) (prior : SVONPathFinder Link) (aStart aTarget : Link)
    (aStartPos aTargetPos : FloatVector) (agentSize : ℚ) (oPoints : List SVONPathPoint)
    (fuel : Nat)
    (h0 : HeuristicScore volume settings aStart aTarget < FLT_MAX)
    (hs : ∀ s ∈ runScores volume settings agentSize fuel
      (initSearch volume settings prior aStart aTarget), s < FLT_MAX) :
    ∀ k, k ≤ fuel →
      (∀ pf, FindPath volume settings prior aStart aTarget aStartPos aTargetPos agentSize
        oPoints k ≠ .eraseEnd pf) ∧
      (∀ x ∈ (FindPath volume settings prior aStart aTarget aStartPos aTargetPos agentSize
          oPoints k).finder.openList,
        (∃ g, mapFind (FindPath volume settings prior aStart aTarget aStartPos aTargetPos
          agentSize oPoints k).finder.gScore x = some g) ∧
        ∃ f, mapFind (FindPath volume settings prior aStart aTarget aStartPos aTargetPos
          agentSize oPoints k).finder.fScore x = some f ∧ f < FLT_MAX) ∧
      (∀ pf, FindPath volume settings prior aStart aTarget aStartPos aTargetPos agentSize
          oPoints k = .outOfFuel pf →
        ∃ pf1, selectCurrent pf = some pf1 ∧ pf1.current ∈ pf.openList) ∧
      (∀ pf1, selectCurrent (FindPath volume settings prior aStart aTarget aStartPos aTargetPos
          agentSize oPoints k).finder = some pf1 →
        ∀ ns, ns <+: neighboursOf volume agentSize pf1.current →
          ∃ gc, mapFind (ns.foldl (ProcessLink volume settings) pf1).gScore
            (ns.foldl (ProcessLink volume settings) pf1).current = some gc) := by
  intro k hk
  have hsk : ∀ s ∈ runScores volume settings agentSize k
      (initSearch volume settings prior aStart aTarget), s < FLT_MAX :=
    fun s hs' => hs s (runScores_mono volume settings agentSize k fuel _ hk s hs')
  have hinit : FrontierScored (initSearch volume settings prior aStart aTarget) := by
    intro x hx
    simp [initSearch] at hx
    subst hx
    exact ⟨_, by simp [initSearch, mapInsert, mapFind], h0⟩
  obtain ⟨hne, hsc⟩ := mainLoop_scored aStartPos aTargetPos oPoints k _ 0
    (initSearch_headInv volume settings agentSize prior aStart aTarget) hinit hsk
  obtain ⟨hinv, hmid⟩ := run_states_inv volume settings prior aStart aTarget aStartPos
    aTargetPos agentSize oPoints k
  have hpost := FindPath_post volume settings prior aStart aTarget aStartPos aTargetPos
    agentSize oPoints k
  refine ⟨hne, ?_, ?_, ?_⟩
  · intro x hx
    obtain ⟨f, hf, hlt⟩ := hsc x hx
    refine ⟨?_, f, hf, hlt⟩
    have hsome : (mapFind (FindPath volume settings prior aStart aTarget aStartPos aTargetPos
        agentSize oPoints k).finder.gScore x).isSome = true := by
      rw [hinv.dom_g, ← hinv.dom_f]
      unfold FindPath
      rw [hf]
      rfl
    exact Option.isSome_iff_exists.mp hsome
  · intro pf hpf
    rw [hpf] at hpost
    have hsc' : FrontierScored pf := by
      have := hsc
      unfold FindPath at hpf
      rw [hpf] at this
      exact this
    obtain ⟨x, hx⟩ := List.exists_mem_of_ne_nil _ hpost.2
    obtain ⟨f, hf, hlt⟩ := hsc' x hx
    obtain ⟨pf1, hpf1⟩ := selectCurrent_isSome hx hf hlt
    exact ⟨pf1, hpf1, (selectCurrent_inv hpost.1.inv hpf1).2.1⟩
  · intro pf1 hsel ns hns
    obtain ⟨hinv', hcur', hmem'⟩ := hmid pf1 hsel ns hns
    rw [hcur']
    exact hinv'.current_g hmem'

/-- Witness of C19 in the line volume, for the search from voxel 0 to voxel 4: the ten scores
computed in the run are below `FLT_MAX`, and after two passes the run has not reached the
erase of the end iterator and the frontier addresses have g-score and f-score entries. -/
theorem FindPath_selection_never_empty_witness :
    HeuristicScore lineVolume euclidSettings ⟨0, 0⟩ ⟨0, 4⟩ < FLT_MAX ∧
    runScores lineVolume euclidSettings 1 9
      (initSearch lineVolume euclidSettings freshFinder ⟨0, 0⟩ ⟨0, 4⟩) =
      [5, 10, 1, 12, 12, 24, 2, 14, 24, 24] ∧
    (∀ pf, FindPath lineVolume euclidSettings freshFinder ⟨0, 0⟩ ⟨0, 4⟩ ⟨0, 0, 0⟩ ⟨10, 0, 0⟩ 1
      [] 2 ≠ .eraseEnd pf) ∧
    (∀ x ∈ (FindPath lineVolume euclidSettings freshFinder ⟨0, 0⟩ ⟨0, 4⟩ ⟨0, 0, 0⟩ ⟨10, 0, 0⟩ 1
        [] 2).finder.openList,
      (∃ g, mapFind (FindPath lineVolume euclidSettings freshFinder ⟨0, 0⟩ ⟨0, 4⟩ ⟨0, 0, 0⟩
        ⟨10, 0, 0⟩ 1 [] 2).finder.gScore x = some g) ∧
      ∃ f, mapFind (FindPath lineVolume euclidSettings freshFinder ⟨0, 0⟩ ⟨0, 4⟩ ⟨0, 0, 0⟩
        ⟨10, 0, 0⟩ 1 [] 2).finder.fScore x = some f ∧ f < FLT_MAX) :=
  have h0 : HeuristicScore lineVolume euclidSettings ⟨0, 0⟩ ⟨0, 4⟩ < FLT_MAX := by decide!
  have hs : ∀ s ∈ runScores lineVolume euclidSettings 1 9
      (initSearch lineVolume euclidSettings freshFinder ⟨0, 0⟩ ⟨0, 4⟩), s < FLT_MAX := by
    decide!
  have h := FindPath_selection_never_empty lineVolume euclidSettings freshFinder ⟨0, 0⟩ ⟨0, 4⟩
    ⟨0, 0, 0⟩ ⟨10, 0, 0⟩ 1 [] 9 h0 hs 2 (by decide)
  ⟨h0, by decide!, h.1, h.2.1⟩

/-- C20 (returned list holds only the found path), evaluated at a failing input: the search
from voxel 0 to voxel 4 of the line volume, called with an output list that already holds
one point, returns five points for the four addresses of the predecessor chain.  The old
point is still in the list (last, with its position overwritten by the target position),
and the point of the target voxel keeps the voxel position (10, 0, 0). -/
theorem FindPath_keeps_old_points :
    ∃ pf,
      FindPath lineVolume euclidSettings freshFinder ⟨0, 0⟩ ⟨0, 4⟩ ⟨1/2, 0, 0⟩ ⟨19/2, 0, 0⟩ 1
        [⟨⟨7, 7, 7⟩, 5, 50⟩] 5 =
      .returned true pf
        [⟨⟨1/2, 0, 0⟩, 1, 0⟩, ⟨⟨5, 0, 0⟩, 1, 1⟩, ⟨⟨-2, 0, 0⟩, 1, 3⟩, ⟨⟨10, 0, 0⟩, 1, 4⟩,
          ⟨⟨19/2, 0, 0⟩, 5, 50⟩] 4 ∧
      walkLinks pf.cameFrom pf.cameFrom.length ⟨0, 4⟩ =
        some [⟨0, 4⟩, ⟨0, 3⟩, ⟨0, 1⟩, ⟨0, 0⟩] :=
  ⟨{ openList := [], closedList := [⟨0, 0⟩, ⟨0, 1⟩, ⟨0, 2⟩, ⟨0, 3⟩, ⟨0, 4⟩],
     cameFrom := [(⟨0, 4⟩, ⟨0, 3⟩), (⟨0, 3⟩, ⟨0, 1⟩), (⟨0, 2⟩, ⟨0, 0⟩), (⟨0, 1⟩, ⟨0, 0⟩),
       (⟨0, 0⟩, ⟨0, 0⟩)],
     fScore := [(⟨0, 4⟩, 24), (⟨0, 3⟩, 24), (⟨0, 2⟩, 12), (⟨0, 1⟩, 10), (⟨0, 0⟩, 10)],
     gScore := [(⟨0, 4⟩, 24), (⟨0, 3⟩, 12), (⟨0, 2⟩, 1), (⟨0, 1⟩, 5), (⟨0, 0⟩, 0)],
     current := ⟨0, 4⟩, goal := ⟨0, 4⟩, start := ⟨0, 0⟩ }, by decide!, by decide!⟩

lemma FindPath_points_length (volume : SVONVolume Link) (settings : SVONPathFinderSettings)
    (prior : SVONPathFinder Link) (aStart aTarget : Link)
    (aStartPos aTargetPos : FloatVector) (agentSize : ℚ) (oPoints : List SVONPathPoint)
    (fuel : Nat) (pf : SVONPathFinder Link) (pts : List SVONPathPoint) (n : Nat)
    (h : FindPath volume settings prior aStart aTarget aStartPos aTargetPos agentSize oPoints
      fuel = .returned true pf pts n) :
    ∃ chain : List Link,
      walkLinks pf.cameFrom pf.cameFrom.length aTarget = some chain.reverse ∧
      pts.length =
        if oPoints.length + chain.length > 1 then oPoints.length + chain.length else 2 := by
  have hp := FindPath_post volume settings prior aStart aTarget aStartPos aTargetPos agentSize
    oPoints fuel
  rw [h] at hp
  obtain ⟨_, _, _, _, chain, hchain, hwalk, rfl⟩ := hp
  refine ⟨chain, hwalk, ?_⟩
  rw [foldl_AddPathPoint]
  unfold finishPath
  simp only [List.length_reverse, List.length_append, List.length_map]
  have hpos : 0 < chain.length := List.length_pos.mpr hchain.ne_nil
  split_ifs with hgt
  · simp [setPosition]
  · simp [setPosition]
    omega

end Lemmas

end SVON
